import Mathlib

/-!
# fanartapi: a verification development

A shallow embedding of the Go package `fanartapi` (`fanartapi.go`, `client.go`) together with the
parts of the Go standard library its behaviour depends on (`strconv.Atoi`, `strings.HasPrefix`,
`strings.TrimPrefix`, the `encoding/json` decoder in `DisallowUnknownFields` mode, and the
request construction of `net/http`).

Conventions of the embedding:

* Go strings are Lean `String`s (sequences of code points).  Every string that reaches the
  code modelled here comes out of the JSON decoder, which only produces valid UTF-8.
* Go `int` is the 64-bit signed integer; values are Lean `Int`s and the places where the
  machine representation matters (`strconv`) reduce modulo `2 ^ 64` explicitly.
* A Go function that mutates its receiver and returns an `error` becomes a function from the
  old receiver value to the pair of the new receiver value and `Option GoError`
  (`none` is the `nil` error).
* The input of a decoder is the JSON value held by the byte buffer: lexing belongs to
  `encoding/json` and is not part of this development.
-/

namespace Fanartapi

/-! ## Errors -/

/-- Go `error` values that the package can return. -/
inductive GoError where
  /-- Value built by `errors.New` or by `fmt.Errorf` without a wrapping verb: the message. -/
  | errorString (msg : String)
  /-- Value built by `fmt.Errorf(text ++ "%w", err)`: the text before the verb and the
  wrapped error. -/
  | wrapError (text : String) (err : GoError)
  /-- Value `*strconv.NumError` with fields `Func`, `Num`, `Err`. -/
  | NumError (Func : String) (Num : String) (Err : GoError)
  /-- Value `*json.UnmarshalTypeError`: the JSON kind met and the Go type it was to be
  stored in. -/
  | UnmarshalTypeError (Value : String) (GoType : String)
  deriving DecidableEq, Repr

/-- Hexadecimal digit, lower case. -/
def hexDigit (n : Nat) : Char :=
  if n < 10 then Char.ofNat (48 + n) else Char.ofNat (87 + n)

/-- One character as `strconv.Quote` writes it.  ASCII follows `strconv.appendEscapedRune`;
characters outside ASCII are written as they are. -/
def quoteChar (c : Char) : List Char :=
  if c = '"' then ['\\', '"']
  else if c = '\\' then ['\\', '\\']
  else if c.toNat = 7 then ['\\', 'a']
  else if c.toNat = 8 then ['\\', 'b']
  else if c.toNat = 12 then ['\\', 'f']
  else if c = '\n' then ['\\', 'n']
  else if c = '\r' then ['\\', 'r']
  else if c = '\t' then ['\\', 't']
  else if c.toNat = 11 then ['\\', 'v']
  else if c.toNat < 32 ∨ c.toNat = 127 then ['\\', 'x', hexDigit (c.toNat / 16), hexDigit (c.toNat % 16)]
  else [c]

/-- Go `strconv.Quote`. -/
def Quote (s : String) : String :=
  ⟨'"' :: (s.data.flatMap quoteChar ++ ['"'])⟩

/-- Method `Error()` of an error value: its message. -/
def GoError.Error : GoError → String
  | .errorString msg => msg
  | .wrapError text err => text ++ err.Error
  | .NumError fn num err => "strconv." ++ fn ++ ": parsing " ++ Quote num ++ ": " ++ err.Error
  | .UnmarshalTypeError value goType =>
      "json: cannot unmarshal " ++ value ++ " into Go value of type " ++ goType

/-! ## Package strconv -/

/-- Size in bits of Go `int` (`strconv.IntSize` on a 64-bit platform). -/
def intSize : Nat := 64

/-- Go `strconv.ErrSyntax`. -/
def ErrSyntax : GoError := .errorString "invalid syntax"

/-- Go `strconv.ErrRange`. -/
def ErrRange : GoError := .errorString "value out of range"

/-- Go `strconv.syntaxError`. -/
def syntaxError (fn str : String) : GoError := .NumError fn str ErrSyntax

/-- Go `strconv.rangeError`. -/
def rangeError (fn str : String) : GoError := .NumError fn str ErrRange

/-- Test `'0' <= c && c <= '9'` on a byte of the string.  A byte of the UTF-8 form of a
string is an ASCII digit exactly when it is the one-byte encoding of a digit character; all
bytes of a longer encoding are at least `0x80`.  Scanning characters therefore meets a
non-digit in exactly the strings in which the byte loop does. -/
def isDigit (c : Char) : Bool := decide (48 ≤ c.toNat ∧ c.toNat ≤ 57)

/-- Value `c - '0'` of a digit byte. -/
def digitVal (c : Char) : Nat := c.toNat - 48

/-- Loop of the fast path of `strconv.Atoi`:
`for _, ch := range []byte(s) { ch -= '0'; if ch > 9 { return 0, syntaxError }; n = n*10 + int(ch) }`.
The path is taken for fewer than 19 bytes, so `n` stays below `10 ^ 18` and the `int`
arithmetic cannot overflow. -/
def atoiFast (s0 : String) : List Char → Int → Int × Option GoError
  | [], n => (n, none)
  | ch :: rest, n =>
    if isDigit ch then atoiFast s0 rest (n * 10 + (digitVal ch : Int))
    else (0, some (syntaxError "Atoi" s0))

/-- Constant `maxUint64/10 + 1` of `strconv.ParseUint` for base 10. -/
def cutoff10 : Nat := (2 ^ 64 - 1) / 10 + 1

/-- Constant `maxVal = 1<<bitSize - 1` of `strconv.ParseUint` for `bitSize = IntSize`. -/
def maxVal : Nat := 2 ^ intSize - 1

/-- Loop of `strconv.ParseUint` for base 10; `n` is the `uint64` accumulator.  A byte that is
not a decimal digit is either a letter, whose digit value is at least the base, or matches
no case of the switch: both return `syntaxError`. -/
def parseUintLoop (s0 : String) : List Char → Nat → Nat × Option GoError
  | [], n => (n, none)
  | c :: rest, n =>
    if isDigit c then
      if n ≥ cutoff10 then (maxVal, some (rangeError "ParseUint" s0))
      else
        let n10 := (n * 10) % 2 ^ 64
        let n1 := (n10 + digitVal c) % 2 ^ 64
        if n1 < n10 ∨ n1 > maxVal then (maxVal, some (rangeError "ParseUint" s0))
        else parseUintLoop s0 rest n1
    else (0, some (syntaxError "ParseUint" s0))

/-- Go `strconv.ParseUint(s, 10, 0)`. -/
def ParseUint (s : String) : Nat × Option GoError :=
  if s = "" then (0, some (syntaxError "ParseUint" s))
  else parseUintLoop s s.data 0

/-- Conversion `int64(un)` of a `uint64`. -/
def toInt64 (un : Nat) : Int :=
  if un % 2 ^ 64 < 2 ^ 63 then (un % 2 ^ 64 : Nat) else (un % 2 ^ 64 : Nat) - 2 ^ 64

/-- Negation `-n` of an `int64`, which wraps at the least value. -/
def negInt64 (n : Int) : Int :=
  if n = -(2 ^ 63) then n else -n

/-- Field `Err` of a `*strconv.NumError` (the type assertion `err.(*NumError).Err`). -/
def GoError.Err : GoError → GoError
  | .NumError _ _ err => err
  | e => e

/-- Field `Num` of a `*strconv.NumError`. -/
def GoError.Num : GoError → String
  | .NumError _ num _ => num
  | _ => ""

/-- Go `strconv.ParseInt(s, 10, 0)`. -/
def ParseInt (s : String) : Int × Option GoError :=
  if s = "" then (0, some (syntaxError "ParseInt" s))
  else
    let s0 := s
    let neg : Bool := s.data.head? = some '-'
    let rest : List Char :=
      if s.data.head? = some '+' then s.data.tail
      else if s.data.head? = some '-' then s.data.tail
      else s.data
    let r := ParseUint ⟨rest⟩
    -- if err != nil && err.(*NumError).Err != ErrRange
    match r.2.filter (fun err => decide (err.Err ≠ ErrRange)) with
    | some err => (0, some (.NumError "ParseInt" s0 err.Err))
    | none =>
      let cutoff : Nat := 2 ^ (intSize - 1)
      if !neg ∧ r.1 ≥ cutoff then ((cutoff : Int) - 1, some (rangeError "ParseInt" s0))
      else if neg ∧ r.1 > cutoff then (-(cutoff : Int), some (rangeError "ParseInt" s0))
      else (if neg then negInt64 (toInt64 r.1) else toInt64 r.1, none)

/-- Go `strconv.Atoi`.  `len(s)` is the length in bytes; the fast path handles strings of 1 to
18 bytes, everything else goes through `ParseInt` and has the function name of the
`*NumError` replaced by `Atoi`. -/
def Atoi (s : String) : Int × Option GoError :=
  let sLen := s.utf8ByteSize
  if 0 < sLen ∧ sLen < 19 then
    let s0 := s
    let signed : Bool := s.data.head? = some '-' ∨ s.data.head? = some '+'
    let body : List Char := if signed then s.data.tail else s.data
    if signed ∧ body.length < 1 then (0, some (syntaxError "Atoi" s0))
    else
      let r := atoiFast s0 body 0
      match r.2 with
      | some err => (r.1, some err)
      | none => (if s0.data.head? = some '-' then -r.1 else r.1, none)
  else
    let r := ParseInt s
    match r.2 with
    | some err => (r.1, some (.NumError "Atoi" err.Num err.Err))
    | none => (r.1, none)

/-! ## Package strings -/

/-- Go `strings.HasPrefix`.  Both arguments are valid UTF-8, for which one byte string is a
prefix of the other exactly when the same holds of the code point sequences. -/
def HasPrefix (s pre : String) : Bool :=
  pre.data.isPrefixOf s.data

/-- Go `strings.TrimPrefix`. -/
def TrimPrefix (s pre : String) : String :=
  if HasPrefix s pre then ⟨s.data.drop pre.data.length⟩ else s

/-! ## Query types (`fanartapi.go`) -/

/-- Go `type Type int`, the query type.  (`Type` is reserved in Lean.) -/
structure Typ where
  /-- The underlying `int`. -/
  val : Int
  deriving DecidableEq, Repr

/-- Constant `Movie Type = iota`. -/
def Movie : Typ := ⟨0⟩

/-- Constant `Series`. -/
def Series : Typ := ⟨1⟩

/-- Constant `MusicArtist`. -/
def MusicArtist : Typ := ⟨2⟩

/-- Constant `MusicAlbum`. -/
def MusicAlbum : Typ := ⟨3⟩

/-- Constant `MusicLabel`. -/
def MusicLabel : Typ := ⟨4⟩

/-- The Go type `string`, under a name that stays usable next to the method `String`. -/
abbrev GoString : Type := String

/-- Method `Type.String`; the last line is `fmt.Sprintf("Type(%d)", typ)`. -/
def Typ.String (typ : Typ) : GoString :=
  if typ = Movie then "movie"
  else if typ = Series then "series"
  else if typ = MusicArtist then "artist"
  else if typ = MusicAlbum then "album"
  else if typ = MusicLabel then "label"
  else "Type(" ++ toString typ.val ++ ")"

/-- Method `Type.ApiType`. -/
def Typ.ApiType (typ : Typ) : GoString :=
  if typ = Movie then "movies"
  else if typ = Series then "tv"
  else if typ = MusicArtist then "music"
  else if typ = MusicAlbum then "music/albums"
  else if typ = MusicLabel then "music/labels"
  else "unknown"

/-! ## Package encoding/json: values and field lookup -/

/-- A JSON value.  An object keeps its members in the order of the text, duplicates
included, because the decoder visits them one after the other. -/
inductive JSON where
  | null
  | bool (b : Bool)
  | number (literal : String)
  | string (s : String)
  | array (elems : List JSON)
  | object (members : List (String × JSON))

/-- Name by which `*json.UnmarshalTypeError` calls the kind of a JSON value. -/
def JSON.kind : JSON → String
  | .null => "null"
  | .bool _ => "bool"
  | .number _ => "number"
  | .string _ => "string"
  | .array _ => "array"
  | .object _ => "object"

/-- Rune folding of `encoding/json` (`foldRune`): the least rune of the simple case-folding
orbit.  ASCII letters go to upper case; the only runes outside ASCII whose orbit contains an
ASCII letter are the Kelvin sign (orbit of K) and the long s (orbit of S).  Every other rune
outside ASCII folds to a rune outside ASCII, here the rune itself: the field names of this
package are ASCII, so such a rune never takes part in a match. -/
def foldRune (c : Char) : Char :=
  if 97 ≤ c.toNat ∧ c.toNat ≤ 122 then Char.ofNat (c.toNat - 32)
  else if c.toNat = 0x212A then 'K'
  else if c.toNat = 0x17F then 'S'
  else c

/-- Go `foldName` of `encoding/json`: two names match without regard to case when their
folded forms are equal. -/
def foldName (name : String) : String :=
  ⟨name.data.map foldRune⟩

/-- Field lookup of the struct decoder: the field whose JSON name is the key exactly, and
failing that the first field whose name equals the key under case folding.  `names` are the
JSON names of the struct fields in declaration order. -/
def findField (names : List String) (key : String) : Option String :=
  match names.find? (fun n => n = key) with
  | some n => some n
  | none => names.find? (fun n => foldName n = foldName key)

/-- Method `decodeState.saveError`: only the first error is kept. -/
def saveError (saved : Option GoError) (err : GoError) : Option GoError :=
  match saved with
  | none => some err
  | some e => some e

/-- The error saved for a member that matches no field when `DisallowUnknownFields` is on:
`fmt.Errorf("json: unknown field %q", key)`. -/
def unknownFieldError (key : String) : GoError :=
  .errorString ("json: unknown field " ++ Quote key)

/-- Storing a JSON value into a Go `string`: a JSON string replaces the value, `null` leaves
it alone, and any other kind leaves it alone and reports an `UnmarshalTypeError`. -/
def storeString (cur : String) (x : JSON) : String × Option GoError :=
  match x with
  | .string s => (s, none)
  | .null => (cur, none)
  | other => (cur, some (.UnmarshalTypeError other.kind "string"))

/-- The member loop of the struct decoder for a struct all of whose fields are strings.
`get` and `set` read and write the field with a given JSON name; `saved` is the decoder's
`savedError`.  Type errors and unknown fields are saved and decoding goes on. -/
def decodeStringFields {σ : Type} (names : List String) (get : σ → String → String)
    (set : σ → String → String → σ) :
    List (String × JSON) → σ → Option GoError → σ × Option GoError
  | [], v, saved => (v, saved)
  | (key, x) :: rest, v, saved =>
    match findField names key with
    | none =>
      decodeStringFields names get set rest v (saveError saved (unknownFieldError key))
    | some name =>
      let r := storeString (get v name) x
      decodeStringFields names get set rest (set v name r.1)
        (match r.2 with
         | some err => saveError saved err
         | none => saved)

/-- The call `dec.Decode(&v)` with `DisallowUnknownFields` for such a struct: an object runs
the member loop, `null` changes nothing, any other kind is an `UnmarshalTypeError`.  The
result is the struct and the returned error. -/
def decodeStringStruct {σ : Type} (goType : String) (names : List String)
    (get : σ → String → String) (set : σ → String → String → σ) (buf : JSON) (v : σ) :
    σ × Option GoError :=
  match buf with
  | .object members => decodeStringFields names get set members v none
  | .null => (v, none)
  | other => (v, some (.UnmarshalTypeError other.kind goType))

/-! ## Images (`fanartapi.go`) -/

/-- Go `type Image struct`. -/
structure Image where
  ID : String := ""
  URL : String := ""
  Lang : String := ""
  Colour : String := ""
  DiscType : String := ""
  Likes : Int := 0
  Season : Int := 0
  Disc : Int := 0
  Size : Int := 0
  deriving DecidableEq, Repr

/-- The local `type image struct` of `Image.UnmarshalJSON`: every field is a string. -/
structure image where
  ID : String := ""
  URL : String := ""
  Lang : String := ""
  Colour : String := ""
  DiscType : String := ""
  Likes : String := ""
  Season : String := ""
  Disc : String := ""
  Size : String := ""
  deriving DecidableEq, Repr

/-- JSON names of the fields of `image`, from the struct tags. -/
def image.names : List String :=
  ["id", "url", "lang", "colour", "disc_type", "likes", "season", "disc", "size"]

/-- Read the field of `image` with the given JSON name. -/
def image.get (v : image) (name : String) : String :=
  if name = "id" then v.ID
  else if name = "url" then v.URL
  else if name = "lang" then v.Lang
  else if name = "colour" then v.Colour
  else if name = "disc_type" then v.DiscType
  else if name = "likes" then v.Likes
  else if name = "season" then v.Season
  else if name = "disc" then v.Disc
  else if name = "size" then v.Size
  else ""

/-- Write the field of `image` with the given JSON name. -/
def image.set (v : image) (name : String) (s : String) : image :=
  if name = "id" then { v with ID := s }
  else if name = "url" then { v with URL := s }
  else if name = "lang" then { v with Lang := s }
  else if name = "colour" then { v with Colour := s }
  else if name = "disc_type" then { v with DiscType := s }
  else if name = "likes" then { v with Likes := s }
  else if name = "season" then { v with Season := s }
  else if name = "disc" then { v with Disc := s }
  else if name = "size" then { v with Size := s }
  else v

/-- Method `(*Image).UnmarshalJSON`.  The result is the value of `*img` when the method
returns, which on an error return may already have been written to, and the error. -/
def Image.UnmarshalJSON (img : Image) (buf : JSON) : Image × Option GoError :=
  match decodeStringStruct "fanartapi.image" image.names image.get image.set buf ({} : image) with
  | (_, some err) => (img, some err)
  | (v, none) =>
    let img := { img with ID := v.ID, URL := v.URL, Lang := v.Lang, Colour := v.Colour,
                          DiscType := v.DiscType }
    let likes := if v.Likes ≠ "" then Atoi v.Likes else (img.Likes, none)
    let img := { img with Likes := likes.1 }
    match likes.2 with
    | some err => (img, some (.wrapError "invalid likes: " err))
    | none =>
    let season := if v.Season ≠ "" ∧ v.Season ≠ "all" then Atoi v.Season else (img.Season, none)
    let img := { img with Season := season.1 }
    match season.2 with
    | some err => (img, some (.wrapError "invalid season: " err))
    | none =>
    let disc := if v.Disc ≠ "" then Atoi v.Disc else (img.Disc, none)
    let img := { img with Disc := disc.1 }
    match disc.2 with
    | some err => (img, some (.wrapError "invalid disc: " err))
    | none =>
    let size := if v.Size ≠ "" then Atoi v.Size else (img.Size, none)
    let img := { img with Size := size.1 }
    match size.2 with
    | some err => (img, some (.wrapError "invalid size: " err))
    | none =>
    -- change all urls to https
    if HasPrefix img.URL "http://" then
      ({ img with URL := "https://" ++ TrimPrefix img.URL "http://" }, none)
    else (img, none)

/-! ## Latest (`fanartapi.go`) -/

/-- Go `type LatestResult struct`. -/
structure LatestResult where
  FanartID : String := ""
  TmdbID : String := ""
  ImdbID : String := ""
  Name : String := ""
  NewImages : Int := 0
  TotalImages : Int := 0
  deriving DecidableEq, Repr

/-- Method `(*LatestResult).ID`. -/
def LatestResult.ID (res : LatestResult) : String :=
  if res.ImdbID ≠ "" then res.ImdbID
  else if res.TmdbID ≠ "" then res.TmdbID
  else res.FanartID

/-- The local `type latest struct` of `LatestResult.UnmarshalJSON`. -/
structure latest where
  ID : String := ""
  TmdbID : String := ""
  ImdbID : String := ""
  Name : String := ""
  NewImages : String := ""
  TotalImages : String := ""
  deriving DecidableEq, Repr

/-- JSON names of the fields of `latest`, from the struct tags. -/
def latest.names : List String :=
  ["id", "tmdb_id", "imdb_id", "name", "new_images", "total_images"]

/-- Read the field of `latest` with the given JSON name. -/
def latest.get (v : latest) (name : String) : String :=
  if name = "id" then v.ID
  else if name = "tmdb_id" then v.TmdbID
  else if name = "imdb_id" then v.ImdbID
  else if name = "name" then v.Name
  else if name = "new_images" then v.NewImages
  else if name = "total_images" then v.TotalImages
  else ""

/-- Write the field of `latest` with the given JSON name. -/
def latest.set (v : latest) (name : String) (s : String) : latest :=
  if name = "id" then { v with ID := s }
  else if name = "tmdb_id" then { v with TmdbID := s }
  else if name = "imdb_id" then { v with ImdbID := s }
  else if name = "name" then { v with Name := s }
  else if name = "new_images" then { v with NewImages := s }
  else if name = "total_images" then { v with TotalImages := s }
  else v

/-- Method `(*LatestResult).UnmarshalJSON`, with the same conventions as
`Image.UnmarshalJSON`. -/
def LatestResult.UnmarshalJSON (res : LatestResult) (buf : JSON) :
    LatestResult × Option GoError :=
  match decodeStringStruct "fanartapi.latest" latest.names latest.get latest.set buf
      ({} : latest) with
  | (_, some err) => (res, some err)
  | (v, none) =>
    let res := { res with FanartID := v.ID, TmdbID := v.TmdbID, ImdbID := v.ImdbID,
                          Name := v.Name }
    let newImages := if v.NewImages ≠ "" then Atoi v.NewImages else (res.NewImages, none)
    let res := { res with NewImages := newImages.1 }
    match newImages.2 with
    | some err => (res, some (.wrapError "invalid new_images: " err))
    | none =>
    let totalImages :=
      if v.TotalImages ≠ "" then Atoi v.TotalImages else (res.TotalImages, none)
    let res := { res with TotalImages := totalImages.1 }
    match totalImages.2 with
    | some err => (res, some (.wrapError "invalid total_images: " err))
    | none => (res, none)

/-! ## Package encoding/json: slices and maps -/

/-- Outcome of decoding one value into a target (`decodeState.value`): the target afterwards,
the decoder's `savedError`, and the error the call returned.  A returned error stops the
whole decoding at once; a saved error lets it go on and is reported at the end. -/
structure Decoded (σ : Type) where
  val : σ
  saved : Option GoError
  err : Option GoError

/-- The element loop of the array decoder for a slice whose element type has a pointer
method `UnmarshalJSON`: element `i` of the JSON array is handed to `unmarshal` on element `i`
of the slice, on a zero value where the slice is shorter.  An error of `unmarshal` is returned
at once, leaving the elements behind it as they were; otherwise the slice ends up with one
element per array element.  A slice is a list and the nil slice is the empty list; the
capacity of the backing array is not part of the embedding. -/
def decodeElems {α : Type} (zero : α) (unmarshal : α → JSON → α × Option GoError) :
    List JSON → List α → List α × Option GoError
  | [], _ => ([], none)
  | x :: xs, cur =>
    let r := unmarshal (cur.headD zero) x
    match r.2 with
    | some err => (r.1 :: cur.tail, some err)
    | none =>
      let rs := decodeElems zero unmarshal xs cur.tail
      (r.1 :: rs.1, rs.2)

/-- Decoding a JSON value into such a slice: an array runs the element loop, `null` sets the
slice to nil, any other kind saves an `UnmarshalTypeError`. -/
def decodeSlice {α : Type} (goType : String) (zero : α)
    (unmarshal : α → JSON → α × Option GoError) (cur : List α) (x : JSON)
    (saved : Option GoError) : Decoded (List α) :=
  match x with
  | .array elems =>
    let r := decodeElems zero unmarshal elems cur
    ⟨r.1, saved, r.2⟩
  | .null => ⟨[], saved, none⟩
  | other => ⟨cur, saveError saved (.UnmarshalTypeError other.kind goType), none⟩

/-- Go map with string keys, as an association list with one entry per key. -/
abbrev GoMap (β : Type) : Type := List (String × β)

/-- Map assignment `m[k] = b`. -/
def GoMap.set {β : Type} (m : GoMap β) (k : String) (b : β) : GoMap β :=
  if m.any (fun e => e.1 = k) then m.map (fun e => if e.1 = k then (k, b) else e)
  else m ++ [(k, b)]

/-- The member loop of the object decoder for a map: each member value is decoded into a
fresh zero element, which is then stored under the member key. -/
def decodeMapMembers {β : Type} (zero : β) (decodeVal : β → JSON → Option GoError → Decoded β) :
    List (String × JSON) → GoMap β → Option GoError → Decoded (GoMap β)
  | [], m, saved => ⟨m, saved, none⟩
  | (key, x) :: rest, m, saved =>
    let r := decodeVal zero x saved
    match r.err with
    | some err => ⟨m, r.saved, some err⟩
    | none => decodeMapMembers zero decodeVal rest (m.set key r.val) r.saved

/-- Decoding a JSON value into a map: an object runs the member loop on the map (made when
nil), `null` sets the map to nil, any other kind saves an `UnmarshalTypeError`. -/
def decodeMap {β : Type} (goType : String) (zero : β)
    (decodeVal : β → JSON → Option GoError → Decoded β) (cur : GoMap β) (x : JSON)
    (saved : Option GoError) : Decoded (GoMap β) :=
  match x with
  | .object members => decodeMapMembers zero decodeVal members cur saved
  | .null => ⟨[], saved, none⟩
  | other => ⟨cur, saveError saved (.UnmarshalTypeError other.kind goType), none⟩

/-! ## Images result (`fanartapi.go`) -/

/-- Go `type ImagesResult struct`. -/
structure ImagesResult where
  Name : String := ""
  FanartID : String := ""
  ImdbID : String := ""
  TmdbID : String := ""
  TvdbID : String := ""
  MbID : String := ""
  ClearArt : List Image := []
  ClearLogo : List Image := []
  HdClearArt : List Image := []
  HdLogo : List Image := []
  HdMovieClearArt : List Image := []
  HdMovieLogo : List Image := []
  HdMusicLogo : List Image := []
  HdtvLogo : List Image := []
  MovieArt : List Image := []
  CharacterArt : List Image := []
  MovieBackground : List Image := []
  MovieBanner : List Image := []
  MovieDisc : List Image := []
  MovieLogo : List Image := []
  MoviePoster : List Image := []
  MovieThumb : List Image := []
  ArtistThumb : List Image := []
  SeasonBanner : List Image := []
  SeasonPoster : List Image := []
  SeasonThumb : List Image := []
  ShowBackground : List Image := []
  ArtistBackground : List Image := []
  TvBanner : List Image := []
  TvPoster : List Image := []
  TvThumb : List Image := []
  MusicLogo : List Image := []
  MusicBanner : List Image := []
  MusicLabel : List Image := []
  Albums : GoMap (GoMap (List Image)) := []
  deriving Repr

/-- Method `(*ImagesResult).ID`. -/
def ImagesResult.ID (res : ImagesResult) : String :=
  if res.MbID ≠ "" then res.MbID
  else if res.TvdbID ≠ "" then res.TvdbID
  else if res.ImdbID ≠ "" then res.ImdbID
  else if res.TmdbID ≠ "" then res.TmdbID
  else res.FanartID

/-- JSON names of the string fields of `ImagesResult`. -/
def ImagesResult.stringNames : List String :=
  ["name", "id", "imdb_id", "tmdb_id", "thetvdb_id", "mbid_id"]

/-- JSON names of the `[]Image` fields of `ImagesResult`. -/
def ImagesResult.imageNames : List String :=
  ["clearart", "clearlogo", "hdclearart", "hdlogo", "hdmovieclearart", "hdmovielogo",
   "hdmusiclogo", "hdtvlogo", "movieart", "characterart", "moviebackground", "moviebanner",
   "moviedisc", "movielogo", "movieposter", "moviethumb", "artistthumb", "seasonbanner",
   "seasonposter", "seasonthumb", "showbackground", "artistbackground", "tvbanner",
   "tvposter", "tvthumb", "musiclogo", "musicbanner", "musiclabel"]

/-- JSON names of all fields of `ImagesResult`, in declaration order. -/
def ImagesResult.names : List String :=
  ImagesResult.stringNames ++ ImagesResult.imageNames ++ ["albums"]

/-- Read the string field of `ImagesResult` with the given JSON name. -/
def ImagesResult.getString (v : ImagesResult) (name : String) : String :=
  if name = "name" then v.Name
  else if name = "id" then v.FanartID
  else if name = "imdb_id" then v.ImdbID
  else if name = "tmdb_id" then v.TmdbID
  else if name = "thetvdb_id" then v.TvdbID
  else if name = "mbid_id" then v.MbID
  else ""

/-- Write the string field of `ImagesResult` with the given JSON name. -/
def ImagesResult.setString (v : ImagesResult) (name : String) (s : String) : ImagesResult :=
  if name = "name" then { v with Name := s }
  else if name = "id" then { v with FanartID := s }
  else if name = "imdb_id" then { v with ImdbID := s }
  else if name = "tmdb_id" then { v with TmdbID := s }
  else if name = "thetvdb_id" then { v with TvdbID := s }
  else if name = "mbid_id" then { v with MbID := s }
  else v

/-- Read the `[]Image` field of `ImagesResult` with the given JSON name. -/
def ImagesResult.getImages (v : ImagesResult) (name : String) : List Image :=
  if name = "clearart" then v.ClearArt
  else if name = "clearlogo" then v.ClearLogo
  else if name = "hdclearart" then v.HdClearArt
  else if name = "hdlogo" then v.HdLogo
  else if name = "hdmovieclearart" then v.HdMovieClearArt
  else if name = "hdmovielogo" then v.HdMovieLogo
  else if name = "hdmusiclogo" then v.HdMusicLogo
  else if name = "hdtvlogo" then v.HdtvLogo
  else if name = "movieart" then v.MovieArt
  else if name = "characterart" then v.CharacterArt
  else if name = "moviebackground" then v.MovieBackground
  else if name = "moviebanner" then v.MovieBanner
  else if name = "moviedisc" then v.MovieDisc
  else if name = "movielogo" then v.MovieLogo
  else if name = "movieposter" then v.MoviePoster
  else if name = "moviethumb" then v.MovieThumb
  else if name = "artistthumb" then v.ArtistThumb
  else if name = "seasonbanner" then v.SeasonBanner
  else if name = "seasonposter" then v.SeasonPoster
  else if name = "seasonthumb" then v.SeasonThumb
  else if name = "showbackground" then v.ShowBackground
  else if name = "artistbackground" then v.ArtistBackground
  else if name = "tvbanner" then v.TvBanner
  else if name = "tvposter" then v.TvPoster
  else if name = "tvthumb" then v.TvThumb
  else if name = "musiclogo" then v.MusicLogo
  else if name = "musicbanner" then v.MusicBanner
  else if name = "musiclabel" then v.MusicLabel
  else []

/-- Write the `[]Image` field of `ImagesResult` with the given JSON name. -/
def ImagesResult.setImages (v : ImagesResult) (name : String) (l : List Image) :
    ImagesResult :=
  if name = "clearart" then { v with ClearArt := l }
  else if name = "clearlogo" then { v with ClearLogo := l }
  else if name = "hdclearart" then { v with HdClearArt := l }
  else if name = "hdlogo" then { v with HdLogo := l }
  else if name = "hdmovieclearart" then { v with HdMovieClearArt := l }
  else if name = "hdmovielogo" then { v with HdMovieLogo := l }
  else if name = "hdmusiclogo" then { v with HdMusicLogo := l }
  else if name = "hdtvlogo" then { v with HdtvLogo := l }
  else if name = "movieart" then { v with MovieArt := l }
  else if name = "characterart" then { v with CharacterArt := l }
  else if name = "moviebackground" then { v with MovieBackground := l }
  else if name = "moviebanner" then { v with MovieBanner := l }
  else if name = "moviedisc" then { v with MovieDisc := l }
  else if name = "movielogo" then { v with MovieLogo := l }
  else if name = "movieposter" then { v with MoviePoster := l }
  else if name = "moviethumb" then { v with MovieThumb := l }
  else if name = "artistthumb" then { v with ArtistThumb := l }
  else if name = "seasonbanner" then { v with SeasonBanner := l }
  else if name = "seasonposter" then { v with SeasonPoster := l }
  else if name = "seasonthumb" then { v with SeasonThumb := l }
  else if name = "showbackground" then { v with ShowBackground := l }
  else if name = "artistbackground" then { v with ArtistBackground := l }
  else if name = "tvbanner" then { v with TvBanner := l }
  else if name = "tvposter" then { v with TvPoster := l }
  else if name = "tvthumb" then { v with TvThumb := l }
  else if name = "musiclogo" then { v with MusicLogo := l }
  else if name = "musicbanner" then { v with MusicBanner := l }
  else if name = "musiclabel" then { v with MusicLabel := l }
  else v

/-- Decoding a JSON value into a field of type `[]Image`. -/
def decodeImages (cur : List Image) (x : JSON) (saved : Option GoError) :
    Decoded (List Image) :=
  decodeSlice "[]fanartapi.Image" ({} : Image) Image.UnmarshalJSON cur x saved

/-- Decoding a JSON value into the field `Albums`, of type
`map[string]map[string][]Image`. -/
def decodeAlbums (cur : GoMap (GoMap (List Image))) (x : JSON) (saved : Option GoError) :
    Decoded (GoMap (GoMap (List Image))) :=
  decodeMap "map[string]map[string][]fanartapi.Image" []
    (decodeMap "map[string][]fanartapi.Image" [] decodeImages) cur x saved

/-- The member loop of the struct decoder for `ImagesResult` with `DisallowUnknownFields`:
an unknown key is saved as an error, a known key decodes the member value into its field,
and an error returned by `Image.UnmarshalJSON` further down stops the loop. -/
def decodeImagesResultFields :
    List (String × JSON) → ImagesResult → Option GoError → Decoded ImagesResult
  | [], v, saved => ⟨v, saved, none⟩
  | (key, x) :: rest, v, saved =>
    match findField ImagesResult.names key with
    | none => decodeImagesResultFields rest v (saveError saved (unknownFieldError key))
    | some name =>
      if name = "albums" then
        let r := decodeAlbums v.Albums x saved
        match r.err with
        | some err => ⟨{ v with Albums := r.val }, r.saved, some err⟩
        | none => decodeImagesResultFields rest { v with Albums := r.val } r.saved
      else if name ∈ ImagesResult.stringNames then
        let r := storeString (v.getString name) x
        decodeImagesResultFields rest (v.setString name r.1)
          (match r.2 with
           | some err => saveError saved err
           | none => saved)
      else
        let r := decodeImages (v.getImages name) x saved
        match r.err with
        | some err => ⟨v.setImages name r.val, r.saved, some err⟩
        | none => decodeImagesResultFields rest (v.setImages name r.val) r.saved

/-- The call `dec.Decode(v)` of `Client.Do` for `v` of type `*ImagesResult`: the value of
`*v` afterwards and the error returned, which is the returned error of the member loop if
there is one and the saved error otherwise. -/
def decodeImagesResult (buf : JSON) (v : ImagesResult) : ImagesResult × Option GoError :=
  match buf with
  | .object members =>
    let r := decodeImagesResultFields members v none
    (r.val, match r.err with
            | some err => some err
            | none => r.saved)
  | .null => (v, none)
  | other => (v, some (.UnmarshalTypeError other.kind "fanartapi.ImagesResult"))

/-- The call `dec.Decode(v)` of `Client.Do` for `v` of type `*[]LatestResult`. -/
def decodeLatestResults (buf : JSON) (v : List LatestResult) :
    List LatestResult × Option GoError :=
  let r := decodeSlice "[]fanartapi.LatestResult" ({} : LatestResult)
    LatestResult.UnmarshalJSON v buf none
  (r.val, match r.err with
          | some err => some err
          | none => r.saved)

/-! ## Package net/http: requests and headers -/

/-- Go `http.Header`, a map from canonical header names to the values added under them, as an
association list with one entry per name. -/
abbrev Header : Type := List (String × List String)

/-- Bytes allowed in a header name (`validHeaderFieldByte`): the token characters of
RFC 7230, which are the ASCII letters and digits and fifteen punctuation marks. -/
def validHeaderFieldByte (c : Char) : Bool :=
  decide ((48 ≤ c.toNat ∧ c.toNat ≤ 57) ∨ (65 ≤ c.toNat ∧ c.toNat ≤ 90) ∨
    (97 ≤ c.toNat ∧ c.toNat ≤ 122) ∨
    c.toNat ∈ [33, 35, 36, 37, 38, 39, 42, 43, 45, 46, 94, 95, 96, 124, 126])

/-- The rewriting loop of `canonicalMIMEHeaderKey`: upper case for the first letter and for
a letter after a dash, lower case for the others. -/
def canonicalLoop : List Char → Bool → List Char
  | [], _ => []
  | c :: rest, upper =>
    let c1 : Char :=
      if upper ∧ 97 ≤ c.toNat ∧ c.toNat ≤ 122 then Char.ofNat (c.toNat - 32)
      else if ¬ upper ∧ 65 ≤ c.toNat ∧ c.toNat ≤ 90 then Char.ofNat (c.toNat + 32)
      else c
    c1 :: canonicalLoop rest (c1 = '-')

/-- Go `textproto.CanonicalMIMEHeaderKey`: a name holding a byte that is not allowed in a
header name is returned as it is, any other name in canonical form. -/
def CanonicalMIMEHeaderKey (s : String) : String :=
  if s.data.all validHeaderFieldByte then ⟨canonicalLoop s.data true⟩ else s

/-- Method `Header.Add`: appends the value to the values of the canonical form of `key`. -/
def Header.Add (h : Header) (key value : String) : Header :=
  if h.any (fun e => e.1 = CanonicalMIMEHeaderKey key) then
    h.map (fun e => if e.1 = CanonicalMIMEHeaderKey key then (e.1, e.2 ++ [value]) else e)
  else h ++ [(CanonicalMIMEHeaderKey key, [value])]

/-- Method `Header.Values`: the values added under the canonical form of `key`. -/
def Header.Values (h : Header) (key : String) : List String :=
  match h.find? (fun e => e.1 = CanonicalMIMEHeaderKey key) with
  | some e => e.2
  | none => []

/-- The part of `*http.Request` that `Client.Do` sets: method, URL as given to
`http.NewRequestWithContext`, and header. -/
structure Request where
  Method : String
  URL : String
  Header : Header
  deriving DecidableEq, Repr

/-- The part of `*http.Response` that `Client.Do` reads: the status code and the JSON value
in the body. -/
structure Response where
  StatusCode : Int
  Body : JSON

/-- Go interface `http.RoundTripper`. -/
structure RoundTripper where
  RoundTrip : Request → Except GoError Response

/-- The package `net/http` as far as `Client.Do` calls it.  The context argument of
`Client.Do` only reaches these two calls and is part of them. -/
structure Net where
  /-- Error of `http.NewRequestWithContext(ctx, method, url, nil)`, `none` when the request
  is built: the call fails for a nil context and for a URL that `url.Parse` rejects. -/
  newRequestError : String → String → Option GoError
  /-- Method `(*http.Client).Do` of a client with the given `Transport` (nil stands for
  `http.DefaultTransport`). -/
  clientDo : Option RoundTripper → Request → Except GoError Response

/-! ## Client (`client.go`) -/

/-- Go `type Client struct`. -/
structure Client where
  ApiKey : String := ""
  ClientKey : String := ""
  Transport : Option RoundTripper := none

/-- Go `type Option func(*Client)`, as the function from the client before the call to the
client after it.  (`Option` is taken in Lean.) -/
abbrev ClientOption : Type := Client → Client

/-- Function `New`. -/
def New (opts : List ClientOption) : Client :=
  opts.foldl (fun cl o => o cl) ({} : Client)

/-- Function `WithApiKey`. -/
def WithApiKey (apiKey : String) : ClientOption :=
  fun cl => { cl with ApiKey := apiKey }

/-- Function `WithClientKey`. -/
def WithClientKey (clientKey : String) : ClientOption :=
  fun cl => { cl with ClientKey := clientKey }

/-- Function `WithTransport`. -/
def WithTransport (transport : Option RoundTripper) : ClientOption :=
  fun cl => { cl with Transport := transport }

/-- What a call of `Client.Do` leaves behind: the requests it handed to the HTTP client, in
order, the value of the target `v` afterwards, and the returned error. -/
structure DoResult (α : Type) where
  sent : List Request
  v : α
  err : Option GoError

/-- Method `(*Client).Do`.  The target `v`, of the empty interface type, is a value of some type `α`
together with the behaviour `decode` of a `json.Decoder` with `DisallowUnknownFields` on a
pointer to that type. -/
def Client.Do {α : Type} (net : Net) (cl : Client) (typ : String)
    (decode : JSON → α → α × Option GoError) (v : α) : DoResult α :=
  match net.newRequestError "GET" ("https://webservice.fanart.tv/v3/" ++ typ) with
  | some err => ⟨[], v, some err⟩
  | none =>
    let req : Request := ⟨"GET", "https://webservice.fanart.tv/v3/" ++ typ, []⟩
    let req := { req with Header := req.Header.Add "Accept" "application/json" }
    let req := if cl.ApiKey ≠ "" then { req with Header := req.Header.Add "api-key" cl.ApiKey }
               else req
    let req := if cl.ClientKey ≠ "" then
                 { req with Header := req.Header.Add "client-key" cl.ClientKey }
               else req
    match net.clientDo cl.Transport req with
    | .error err => ⟨[req], v, some err⟩
    | .ok res =>
      if res.StatusCode ≠ 200 then
        ⟨[req], v, some (.errorString ("status " ++ toString res.StatusCode ++ " != 200"))⟩
      else
        let r := decode res.Body v
        ⟨[req], r.1, r.2⟩

/-! ## Requests (`fanartapi.go`, `client.go`) -/

/-- Go `type ImagesRequest struct`.  (The field `Type` is `Type'` here.) -/
structure ImagesRequest where
  Type' : Typ
  Query : String
  deriving DecidableEq, Repr

/-- Function `Images`. -/
def Images (typ : Typ) (query : String) : ImagesRequest :=
  { Type' := typ, Query := query }

/-- Method `(*ImagesRequest).Do`.  The result value is `none` for the nil pointer. -/
def ImagesRequest.Do (req : ImagesRequest) (net : Net) (cl : Client) :
    DoResult (Option ImagesResult) :=
  let r := cl.Do net (req.Type'.ApiType ++ "/" ++ req.Query) decodeImagesResult
    ({} : ImagesResult)
  match r.err with
  | some err => ⟨r.sent, none, some err⟩
  | none => ⟨r.sent, some r.v, none⟩

/-- Go `type LatestRequest struct`. -/
structure LatestRequest where
  Type' : Typ
  deriving DecidableEq, Repr

/-- Function `Latest`. -/
def Latest (typ : Typ) : LatestRequest :=
  { Type' := typ }

/-- Method `(*LatestRequest).Do`.  The nil slice is the empty list. -/
def LatestRequest.Do (req : LatestRequest) (net : Net) (cl : Client) :
    DoResult (List LatestResult) :=
  let r := cl.Do net (req.Type'.ApiType ++ "/latest") decodeLatestResults []
  match r.err with
  | some err => ⟨r.sent, [], some err⟩
  | none => ⟨r.sent, r.v, none⟩

/-- Method `(*Client).Images`. -/
def Client.Images (cl : Client) (net : Net) (typ : Typ) (id : String) :
    DoResult (Option ImagesResult) :=
  (Fanartapi.Images typ id).Do net cl

/-- Method `(*Client).Latest`. -/
def Client.Latest (cl : Client) (net : Net) (typ : Typ) : DoResult (List LatestResult) :=
  (Fanartapi.Latest typ).Do net cl

/-! ## Notions used to state the properties

These definitions are not part of the package: they say what a digit string, the number it
writes, and the text an object gives for a field are, independently of the code above. -/

/-- A non-empty string of decimal digits. -/
def isDigitString (s : String) : Bool :=
  !s.data.isEmpty && s.data.all Char.isDigit

/-- The natural number that a string of decimal digits writes in base 10. -/
def decimalValue (s : String) : Nat :=
  s.data.foldl (fun n c => n * 10 + (c.toNat - '0'.toNat)) 0

/-- The characters of `s` behind an optional leading sign. -/
def signBody (s : String) : List Char :=
  if s.data.head? = some '-' ∨ s.data.head? = some '+' then s.data.tail else s.data

/-- Base-10 integer notation: an optional sign, `+` or `-`, followed by at least one decimal
digit. -/
def isIntegerSyntax (s : String) : Bool :=
  !(signBody s).isEmpty && (signBody s).all Char.isDigit

/-- The integer written by a string in base-10 integer notation. -/
def integerValue (s : String) : Int :=
  if s.data.head? = some '-' then
    -((signBody s).foldl (fun n c => n * 10 + (c.toNat - '0'.toNat)) 0 : Nat)
  else ((signBody s).foldl (fun n c => n * 10 + (c.toNat - '0'.toNat)) 0 : Nat)

/-- The string is the base-10 notation of an integer that a Go `int` holds. -/
def isBase10Int (s : String) : Prop :=
  isIntegerSyntax s = true ∧ -(2 ^ 63) ≤ integerValue s ∧ integerValue s < 2 ^ 63

/-- The strings that the members of an object offer for the field called `name`: the values
of the members that are JSON strings and whose key the decoder resolves to that field, in
the order of the object. -/
def offered (names : List String) (members : List (String × JSON)) (name : String) :
    List String :=
  members.filterMap (fun m =>
    match m.2 with
    | .string s => if findField names m.1 = some name then some s else none
    | _ => none)

/-- The text an object gives for a field: the last string offered for it, `none` when no
member offers one. -/
def fieldText (names : List String) (members : List (String × JSON)) (name : String) :
    Option String :=
  (offered names members name).getLast?

/-- A JSON value that a Go string field accepts: a string or `null`. -/
def JSON.isStringOrNull : JSON → Bool
  | .string _ => true
  | .null => true
  | _ => false

/-- The JSON object with the given keys, all of whose values are JSON strings. -/
def stringObject (fields : List (String × String)) : JSON :=
  .object (fields.map (fun f => (f.1, JSON.string f.2)))

/-- A field text that the numeric stage of a decoder lets pass: empty, or accepted by
`strconv.Atoi`. -/
def numOK (s : String) : Prop := s = "" ∨ (Atoi s).2 = none

/-- A plain numeric field text: absent, empty, or a string of decimal digits that writes a
number below `2 ^ 63`. -/
def plainNumeric (t : Option String) : Prop :=
  t = none ∨ t = some "" ∨ ∃ s, t = some s ∧ isDigitString s = true ∧ decimalValue s < 2 ^ 63


/-- An image record with a key that matches no field of `Image`. -/
def unknownKeyImage (x : JSON) : Prop :=
  ∃ members, x = .object members ∧ ∃ m ∈ members, findField image.names m.1 = none


/-- The member loop of `ImagesResult` ends in an error, returned or saved. -/
def Decoded.failed {σ : Type} (r : Decoded σ) : Prop := r.err ≠ none ∨ r.saved ≠ none


/-- A member that makes the decoding of an `ImagesResult` fail: its key matches no field,
or it is an artwork list with an image record that has an unknown key, or it is the albums
map with such a record in one of its lists. -/
def failingMember (kv : String × JSON) : Prop :=
  findField ImagesResult.names kv.1 = none ∨
  (∃ name ∈ ImagesResult.imageNames, findField ImagesResult.names kv.1 = some name ∧
    ∃ elems, kv.2 = .array elems ∧ ∃ x ∈ elems, unknownKeyImage x) ∨
  (findField ImagesResult.names kv.1 = some "albums" ∧
    ∃ albums, kv.2 = .object albums ∧ ∃ a ∈ albums, ∃ cats, a.2 = .object cats ∧
      ∃ c ∈ cats, ∃ elems, c.2 = .array elems ∧ ∃ x ∈ elems, unknownKeyImage x)


/-- The header that the specification gives to a request: `Accept`, then the API key and the
client key when they are set, under their canonical names. -/
def expectedHeader (cl : Client) : Header :=
  [("Accept", ["application/json"])] ++
    (if cl.ApiKey ≠ "" then [("Api-Key", [cl.ApiKey])] else []) ++
    (if cl.ClientKey ≠ "" then [("Client-Key", [cl.ClientKey])] else [])

/-- The request that the specification describes for a relative path. -/
def expectedRequest (cl : Client) (typ : String) : Request :=
  { Method := "GET", URL := "https://webservice.fanart.tv/v3/" ++ typ,
    Header := expectedHeader cl }


/-- A network in which every request can be built and every request is answered by `res`. -/
def answering (res : Response) : Net :=
  { newRequestError := fun _ _ => none, clientDo := fun _ _ => .ok res }

/-- The JSON value of the text
`{"name":"Fight Club","imdb_id":"tt0137523","moviethumb":[{"id":"1","url":"http://x/img.jpg","likes":"12","disc":"","size":"500"}]}`. -/
def fightClub : JSON :=
  .object [("name", .string "Fight Club"), ("imdb_id", .string "tt0137523"),
    ("moviethumb", .array [.object [("id", .string "1"), ("url", .string "http://x/img.jpg"),
      ("likes", .string "12"), ("disc", .string ""), ("size", .string "500")]])]

/-! ## Lemmas on strconv -/

theorem isDigit_eq (c : Char) : isDigit c = c.isDigit := by
  unfold isDigit Char.isDigit Char.toNat
  have h1 : (c.val ≥ 48) ↔ 48 ≤ c.val.toNat := by
    rw [ge_iff_le, UInt32.le_def]; rfl
  have h2 : (c.val ≤ 57) ↔ c.val.toNat ≤ 57 := by
    rw [UInt32.le_def]; rfl
  simp only [h1, h2, Bool.decide_and]

theorem digitVal_fun :
    (fun (n : Nat) (c : Char) => n * 10 + (c.toNat - '0'.toNat)) =
      (fun n c => n * 10 + digitVal c) := rfl



theorem digitVal_le {c : Char} (h : isDigit c = true) : digitVal c ≤ 9 := by
  simp [isDigit] at h
  unfold digitVal; omega

theorem foldl_dec_ge (l : List Char) (n : Nat) :
    n ≤ l.foldl (fun n c => n * 10 + digitVal c) n := by
  induction l generalizing n with
  | nil => simp
  | cons c cs ih =>
    simp only [List.foldl_cons]
    have := ih (n * 10 + digitVal c)
    omega

theorem foldl_dec_eq (l : List Char) (n : Nat) :
    l.foldl (fun n c => n * 10 + digitVal c) n =
      n * 10 ^ l.length + l.foldl (fun n c => n * 10 + digitVal c) 0 := by
  induction l generalizing n with
  | nil => simp
  | cons c cs ih =>
    simp only [List.foldl_cons, List.length_cons]
    rw [ih (n * 10 + digitVal c), ih (0 * 10 + digitVal c)]
    ring

theorem decimalValue_lt (l : List Char) (h : ∀ c ∈ l, isDigit c = true) :
    l.foldl (fun n c => n * 10 + digitVal c) 0 < 10 ^ l.length := by
  induction l using List.reverseRecOn with
  | nil => simp
  | append_singleton cs c ih =>
    have hc := digitVal_le (h c (by simp))
    have := ih (fun c hc => h c (by simp [hc]))
    simp only [List.foldl_append, List.foldl_cons, List.foldl_nil, List.length_append, List.length_singleton] at *
    rw [pow_succ]
    omega

theorem atoiFast_digits (s0 : String) (l : List Char) (h : ∀ c ∈ l, isDigit c = true) (n : Nat) :
    atoiFast s0 l (n : Int) = (((l.foldl (fun n c => n * 10 + digitVal c) n : Nat) : Int), none) := by
  induction l generalizing n with
  | nil => simp [atoiFast]
  | cons c cs ih =>
    have hc : isDigit c = true := h c (by simp)
    simp only [atoiFast, hc, if_true, List.foldl_cons]
    have := ih (fun c hc => h c (by simp [hc])) (n * 10 + digitVal c)
    rw [← this]; push_cast; rfl

theorem atoiFast_nondigit (s0 : String) (l : List Char) (h : ∃ c ∈ l, isDigit c = false) (n : Int) :
    atoiFast s0 l n = (0, some (syntaxError "Atoi" s0)) := by
  induction l generalizing n with
  | nil => simp at h
  | cons c cs ih =>
    by_cases hc : isDigit c = true
    · simp only [atoiFast, hc, if_true]
      apply ih
      obtain ⟨d, hd, hd2⟩ := h
      simp at hd
      rcases hd with rfl | hd
      · simp [hc] at hd2
      · exact ⟨d, hd, hd2⟩
    · simp [atoiFast, hc]

theorem parseUintLoop_digits (s0 : String) (l : List Char) (h : ∀ c ∈ l, isDigit c = true) (n : Nat)
    (hn : n < 2 ^ 64) :
    parseUintLoop s0 l n =
      if l.foldl (fun n c => n * 10 + digitVal c) n < 2 ^ 64 then
        (l.foldl (fun n c => n * 10 + digitVal c) n, none)
      else (maxVal, some (rangeError "ParseUint" s0)) := by
  induction l generalizing n with
  | nil => simp only [parseUintLoop, List.foldl_nil, if_pos hn]
  | cons c cs ih =>
    have hc : isDigit c = true := h c (by simp)
    have hd := digitVal_le hc
    have hge := foldl_dec_ge cs (n * 10 + digitVal c)
    simp only [parseUintLoop, hc, if_true, List.foldl_cons]
    by_cases h1 : n ≥ cutoff10
    · have : ¬ (List.foldl (fun n c => n * 10 + digitVal c) (n * 10 + digitVal c) cs < 2 ^ 64) := by
        simp [cutoff10] at h1; omega
      rw [if_pos h1, if_neg this]
    · simp only [h1, if_false]
      have h10 : n * 10 < 2 ^ 64 := by simp [cutoff10] at h1; omega
      rw [Nat.mod_eq_of_lt h10]
      by_cases h2 : n * 10 + digitVal c < 2 ^ 64
      · rw [Nat.mod_eq_of_lt h2]
        have : ¬ (n * 10 + digitVal c < n * 10 ∨ n * 10 + digitVal c > maxVal) := by
          simp [maxVal, intSize]; omega
        simp only [this, if_false]
        exact ih (fun c hc => h c (by simp [hc])) _ h2
      · have e : (n * 10 + digitVal c) % 2 ^ 64 = n * 10 + digitVal c - 2 ^ 64 := by
          omega
        rw [e]
        have : (n * 10 + digitVal c - 2 ^ 64 < n * 10 ∨ n * 10 + digitVal c - 2 ^ 64 > maxVal) := by
          left; omega
        have h3 : ¬ (List.foldl (fun n c => n * 10 + digitVal c) (n * 10 + digitVal c) cs < 2 ^ 64) := by
          omega
        rw [if_pos this, if_neg h3]



theorem parseUintLoop_cases (s0 : String) (l : List Char) (n : Nat) :
    (parseUintLoop s0 l n).2 = none ∨
      parseUintLoop s0 l n = (maxVal, some (rangeError "ParseUint" s0)) ∨
      (parseUintLoop s0 l n).2 = some (syntaxError "ParseUint" s0) := by
  induction l generalizing n with
  | nil => simp [parseUintLoop]
  | cons c cs ih =>
    by_cases hc : isDigit c = true
    · by_cases h1 : n ≥ cutoff10
      · right; left
        simp only [parseUintLoop, if_pos hc, if_pos h1]
      · by_cases h2 : ((n * 10) % 2 ^ 64 + digitVal c) % 2 ^ 64 < (n * 10) % 2 ^ 64 ∨
            ((n * 10) % 2 ^ 64 + digitVal c) % 2 ^ 64 > maxVal
        · right; left
          simp only [parseUintLoop, if_pos hc, if_neg h1, if_pos h2]
        · simp only [parseUintLoop, if_pos hc, if_neg h1, if_neg h2]
          exact ih _
    · right; right
      simp only [parseUintLoop, if_neg hc]

theorem parseUintLoop_nondigit (s0 : String) (l : List Char) (h : ∃ c ∈ l, isDigit c = false)
    (n : Nat) : (parseUintLoop s0 l n).2 ≠ none := by
  induction l generalizing n with
  | nil => simp at h
  | cons c cs ih =>
    simp only [parseUintLoop]
    by_cases hc : isDigit c = true
    · simp only [hc, if_true]
      split
      · simp
      · split
        · simp
        · apply ih
          obtain ⟨d, hd, hd2⟩ := h
          simp at hd
          rcases hd with rfl | hd
          · simp [hc] at hd2
          · exact ⟨d, hd, hd2⟩
    · simp [hc]

theorem utf8ByteSize_go_ge (l : List Char) : l.length ≤ String.utf8ByteSize.go l := by
  induction l with
  | nil => simp [String.utf8ByteSize.go]
  | cons c cs ih =>
    simp only [String.utf8ByteSize.go, List.length_cons]
    have := Char.utf8Size_pos c
    omega

theorem utf8ByteSize_ge (s : String) : s.data.length ≤ s.utf8ByteSize := by
  cases s with
  | mk l => simpa [String.utf8ByteSize] using utf8ByteSize_go_ge l

theorem utf8ByteSize_pos_iff (s : String) : 0 < s.utf8ByteSize ↔ s.data ≠ [] := by
  cases s with
  | mk l =>
    cases l with
    | nil => simp [String.utf8ByteSize, String.utf8ByteSize.go]
    | cons c cs =>
      have := Char.utf8Size_pos c
      simp only [String.utf8ByteSize, String.utf8ByteSize.go]
      constructor
      · intro _ h; cases h
      · intro _; omega

theorem string_eq_empty_iff (s : String) : s = "" ↔ s.data = [] := by
  cases s with
  | mk l =>
    constructor
    · intro h; exact congrArg String.data h
    · intro h; simp at h; subst h; rfl



theorem ParseUint_digits (l : List Char) (hne : l ≠ []) (h : ∀ c ∈ l, isDigit c = true) :
    ParseUint ⟨l⟩ =
      if l.foldl (fun n c => n * 10 + digitVal c) 0 < 2 ^ 64 then
        (l.foldl (fun n c => n * 10 + digitVal c) 0, none)
      else (maxVal, some (rangeError "ParseUint" ⟨l⟩)) := by
  have hs : ¬ ((⟨l⟩ : String) = "") := by
    rw [string_eq_empty_iff]; exact hne
  unfold ParseUint
  rw [if_neg hs]
  exact parseUintLoop_digits ⟨l⟩ l h 0 (by norm_num)

theorem ParseUint_cases (s : String) :
    (ParseUint s).2 = none ∨
      ParseUint s = (maxVal, some (rangeError "ParseUint" s)) ∨
      (ParseUint s).2 = some (syntaxError "ParseUint" s) := by
  unfold ParseUint
  by_cases hs : s = ""
  · rw [if_pos hs]; right; right; rfl
  · rw [if_neg hs]; exact parseUintLoop_cases s s.data 0

theorem ParseUint_nondigit (s : String) (h : s.data = [] ∨ ∃ c ∈ s.data, isDigit c = false) :
    (ParseUint s).2 ≠ none := by
  unfold ParseUint
  by_cases hs : s = ""
  · rw [if_pos hs]; simp
  · rw [if_neg hs]
    rcases h with h | h
    · exact absurd ((string_eq_empty_iff s).2 h) hs
    · exact parseUintLoop_nondigit s s.data h 0

theorem parseInt_rest (s : String) :
    (if s.data.head? = some '+' then s.data.tail
      else if s.data.head? = some '-' then s.data.tail else s.data) = signBody s := by
  unfold signBody
  by_cases h1 : s.data.head? = some '+' <;> by_cases h2 : s.data.head? = some '-' <;> simp [h1, h2]

theorem errRange_ne_errSyntax : ErrSyntax ≠ ErrRange := by decide




theorem isIntegerSyntax_iff (s : String) :
    isIntegerSyntax s = true ↔ signBody s ≠ [] ∧ ∀ c ∈ signBody s, isDigit c = true := by
  unfold isIntegerSyntax
  cases h : signBody s <;> simp [isDigit_eq]

theorem signBody_ne_nil_data (s : String) (h : signBody s ≠ []) : s.data ≠ [] := by
  intro h2
  apply h
  unfold signBody
  simp [h2]

theorem toInt64_small (n : Nat) (h : n < 2 ^ 63) : toInt64 n = n := by
  unfold toInt64
  have : n % 2 ^ 64 = n := Nat.mod_eq_of_lt (by omega)
  rw [this, if_pos h]

theorem ParseInt_integer (s : String) (h : isIntegerSyntax s = true) :
    ParseInt s =
      if -(2 ^ 63) ≤ integerValue s ∧ integerValue s < 2 ^ 63 then (integerValue s, none)
      else (if s.data.head? = some '-' then -(2 ^ 63) else 2 ^ 63 - 1,
            some (rangeError "ParseInt" s)) := by
  rw [isIntegerSyntax_iff] at h
  obtain ⟨hne, hd⟩ := h
  have hs : ¬ (s = "") := by
    rw [string_eq_empty_iff]; exact signBody_ne_nil_data s hne
  have hr := ParseUint_digits (signBody s) hne hd
  unfold ParseInt
  rw [if_neg hs]
  simp only [parseInt_rest]
  rw [hr]
  unfold integerValue
  simp only [digitVal_fun]
  generalize (signBody s).foldl (fun n c => n * 10 + digitVal c) 0 = V
  have e63 : (2 : Nat) ^ (intSize - 1) = 9223372036854775808 := by norm_num [intSize]
  have hmax : maxVal = 18446744073709551615 := by norm_num [maxVal, intSize]
  by_cases hneg : s.data.head? = some '-'
  · simp only [hneg, if_true]
    by_cases hV : V < 2 ^ 64
    · simp only [hV, if_true, Option.filter, e63]
      by_cases h1 : V > 9223372036854775808
      · have h2 : ¬ (-(2 : Int) ^ 63 ≤ -(V : Int) ∧ -(V : Int) < 2 ^ 63) := by omega
        rw [if_neg h2]
        simp [h1]
      · have h2 : (-(2 : Int) ^ 63 ≤ -(V : Int) ∧ -(V : Int) < 2 ^ 63) := by omega
        rw [if_pos h2]
        simp only [h1, if_true, if_false, and_false, decide_True, Bool.not_true,
          Bool.false_eq_true, false_and, and_true]
        by_cases h3 : V < 2 ^ 63
        · rw [toInt64_small V h3]
          unfold negInt64
          rw [if_neg (by omega)]
        · have h4 : V = 9223372036854775808 := by omega
          subst h4
          simp [toInt64, negInt64]
    · have h2 : ¬ (-(2 : Int) ^ 63 ≤ -(V : Int) ∧ -(V : Int) < 2 ^ 63) := by omega
      rw [if_neg h2, if_neg hV]
      simp [Option.filter, e63, hmax, rangeError, GoError.Err]
  · simp only [hneg, if_false]
    by_cases hV : V < 2 ^ 64
    · simp only [hV, if_true, Option.filter, e63]
      by_cases h1 : V ≥ 9223372036854775808
      · have h2 : ¬ (-(2 : Int) ^ 63 ≤ (V : Int) ∧ (V : Int) < 2 ^ 63) := by omega
        rw [if_neg h2]
        simp [h1]
      · have h2 : (-(2 : Int) ^ 63 ≤ (V : Int) ∧ (V : Int) < 2 ^ 63) := by omega
        rw [if_pos h2]
        simp only [h1, if_true, if_false, and_false, decide_False, Bool.not_false,
          Bool.false_eq_true, false_and, and_true]
        rw [toInt64_small V (by omega)]
    · have h2 : ¬ (-(2 : Int) ^ 63 ≤ (V : Int) ∧ (V : Int) < 2 ^ 63) := by omega
      rw [if_neg h2, if_neg hV]
      simp [Option.filter, e63, hmax, rangeError, GoError.Err]



theorem not_isIntegerSyntax_iff (s : String) :
    isIntegerSyntax s = false ↔ signBody s = [] ∨ ∃ c ∈ signBody s, isDigit c = false := by
  unfold isIntegerSyntax
  cases h : signBody s with
  | nil => simp
  | cons c cs =>
    simp only [← isDigit_eq, List.isEmpty_cons, Bool.not_false, Bool.true_and, List.all_cons, Bool.and_eq_false_imp,
      List.all_eq_false, List.mem_cons, exists_eq_or_imp, reduceCtorEq, false_or]
    by_cases hc : isDigit c = true <;> simp [hc]

theorem ParseInt_noninteger (s : String) (h : isIntegerSyntax s = false) :
    ∃ k, (ParseInt s).2 = some (.NumError "ParseInt" s k) := by
  rw [not_isIntegerSyntax_iff] at h
  unfold ParseInt
  by_cases hs : s = ""
  · rw [if_pos hs]; exact ⟨ErrSyntax, rfl⟩
  · rw [if_neg hs]
    simp only [parseInt_rest]
    have hnd := ParseUint_nondigit ⟨signBody s⟩ h
    rcases ParseUint_cases ⟨signBody s⟩ with h1 | h1 | h1
    · exact absurd h1 hnd
    · rw [h1]
      have e63 : (2 : Nat) ^ (intSize - 1) = 9223372036854775808 := by norm_num [intSize]
      have hmax : maxVal = 18446744073709551615 := by norm_num [maxVal, intSize]
      simp only [Option.filter, rangeError, GoError.Err, e63, hmax]
      by_cases hneg : s.data.head? = some '-'
      · exact ⟨ErrRange, by simp [hneg]⟩
      · exact ⟨ErrRange, by simp [hneg]⟩
    · rw [h1]
      refine ⟨ErrSyntax, ?_⟩
      simp [Option.filter, syntaxError, GoError.Err, errRange_ne_errSyntax]




theorem atoi_body (s : String) :
    (if (decide (s.data.head? = some '-' ∨ s.data.head? = some '+')) = true then s.data.tail
      else s.data) = signBody s := by
  unfold signBody
  by_cases h : s.data.head? = some '-' ∨ s.data.head? = some '+' <;> simp [h]

theorem signBody_length_le (s : String) : (signBody s).length ≤ s.data.length := by
  unfold signBody
  split
  · simp
  · exact le_refl _

theorem Atoi_integer (s : String) (h : isIntegerSyntax s = true) :
    Atoi s =
      if -(2 ^ 63) ≤ integerValue s ∧ integerValue s < 2 ^ 63 then (integerValue s, none)
      else (if s.data.head? = some '-' then -(2 ^ 63) else 2 ^ 63 - 1,
            some (.NumError "Atoi" s ErrRange)) := by
  have hP := ParseInt_integer s h
  rw [isIntegerSyntax_iff] at h
  obtain ⟨hne, hd⟩ := h
  unfold Atoi
  by_cases hfast : 0 < s.utf8ByteSize ∧ s.utf8ByteSize < 19
  · simp only [hfast, and_self, if_true, atoi_body]
    have hlen : ¬ ((decide (s.data.head? = some '-' ∨ s.data.head? = some '+')) = true ∧
        (signBody s).length < 1) := by
      intro hh
      have := List.length_pos.2 hne
      omega
    rw [if_neg hlen]
    have hf := atoiFast_digits s (signBody s) hd 0
    simp only [Nat.cast_zero] at hf
    rw [hf]
    have hlt := decimalValue_lt (signBody s) hd
    have hl1 := signBody_length_le s
    have hl2 := utf8ByteSize_ge s
    have hpow : 10 ^ (signBody s).length ≤ 10 ^ 18 :=
      Nat.pow_le_pow_right (by norm_num) (by omega)
    unfold integerValue
    simp only [digitVal_fun]
    generalize (signBody s).foldl (fun n c => n * 10 + digitVal c) 0 = V at *
    by_cases hneg : s.data.head? = some '-'
    · have h2 : (-(2 : Int) ^ 63 ≤ -(V : Int) ∧ -(V : Int) < 2 ^ 63) := by omega
      simp only [hneg, if_true]
      rw [if_pos h2]
    · have h2 : (-(2 : Int) ^ 63 ≤ (V : Int) ∧ (V : Int) < 2 ^ 63) := by omega
      simp only [hneg, if_false]
      rw [if_pos h2]
  · rw [if_neg hfast, hP]
    by_cases hr : -(2 ^ 63) ≤ integerValue s ∧ integerValue s < 2 ^ 63
    · rw [if_pos hr, if_pos hr]
    · rw [if_neg hr, if_neg hr]
      simp only [rangeError, GoError.Num, GoError.Err]

theorem Atoi_noninteger (s : String) (h : isIntegerSyntax s = false) :
    ∃ k, (Atoi s).2 = some (.NumError "Atoi" s k) := by
  unfold Atoi
  by_cases hfast : 0 < s.utf8ByteSize ∧ s.utf8ByteSize < 19
  · simp only [hfast, and_self, if_true, atoi_body]
    by_cases hlen : ((decide (s.data.head? = some '-' ∨ s.data.head? = some '+')) = true ∧
        (signBody s).length < 1)
    · rw [if_pos hlen]; exact ⟨ErrSyntax, rfl⟩
    · rw [if_neg hlen]
      rw [not_isIntegerSyntax_iff] at h
      have hnd : ∃ c ∈ signBody s, isDigit c = false := by
        rcases h with h | h
        · exfalso
          have hdata : s.data ≠ [] := (utf8ByteSize_pos_iff s).1 hfast.1
          by_cases hsg : s.data.head? = some '-' ∨ s.data.head? = some '+'
          · apply hlen
            refine ⟨by simpa using hsg, ?_⟩
            rw [h]; simp
          · apply hdata
            have : signBody s = s.data := by unfold signBody; rw [if_neg hsg]
            rw [← this]; exact h
        · exact h
      rw [atoiFast_nondigit s (signBody s) hnd 0]
      exact ⟨ErrSyntax, rfl⟩
  · rw [if_neg hfast]
    obtain ⟨k, hk⟩ := ParseInt_noninteger s h
    refine ⟨k, ?_⟩
    simp [hk, GoError.Num, GoError.Err]

/-- `strconv.Atoi` succeeds exactly on the decimal notations of the 64-bit integers. -/
theorem Atoi_ok_iff (s : String) :
    (Atoi s).2 = none ↔
      isIntegerSyntax s = true ∧ -(2 ^ 63) ≤ integerValue s ∧ integerValue s < 2 ^ 63 := by
  by_cases h : isIntegerSyntax s = true
  · rw [Atoi_integer s h]
    by_cases hr : -(2 ^ 63) ≤ integerValue s ∧ integerValue s < 2 ^ 63
    · rw [if_pos hr]; exact ⟨fun _ => ⟨h, hr⟩, fun _ => rfl⟩
    · rw [if_neg hr]
      simp only [h, true_and]
      constructor
      · intro h2; simp at h2
      · intro h2; exact absurd h2 hr
  · have h' : isIntegerSyntax s = false := by simpa using h
    obtain ⟨k, hk⟩ := Atoi_noninteger s h'
    rw [hk]
    simp [h']

theorem Atoi_ok_val (s : String) (h : (Atoi s).2 = none) : (Atoi s).1 = integerValue s := by
  have h2 := (Atoi_ok_iff s).1 h
  rw [Atoi_integer s h2.1, if_pos h2.2]




theorem findField_mem {names : List String} {key n : String}
    (h : findField names key = some n) : n ∈ names := by
  unfold findField at h
  split at h
  · rename_i m hm
    cases h
    exact List.mem_of_find?_eq_some hm
  · exact List.mem_of_find?_eq_some h

theorem saveError_ne_none (saved : Option GoError) (e : GoError) : saveError saved e ≠ none := by
  cases saved <;> simp [saveError]

theorem saveError_some (e0 e : GoError) : saveError (some e0) e = some e0 := rfl

theorem storeString_fst (cur : String) (x : JSON) :
    (storeString cur x).1 = match x with
      | .string s => s
      | _ => cur := by
  cases x <;> rfl

theorem storeString_snd (cur : String) (x : JSON) :
    (storeString cur x).2 = none ↔ x.isStringOrNull = true := by
  cases x <;> simp [storeString, JSON.isStringOrNull]

section stringStruct

variable {σ : Type} (names : List String) (get : σ → String → String)
  (set : σ → String → String → σ)

theorem decodeStringFields_saved_some (members : List (String × JSON)) (v : σ) (e : GoError) :
    (decodeStringFields names get set members v (some e)).2 = some e := by
  induction members generalizing v with
  | nil => rfl
  | cons m rest ih =>
    obtain ⟨key, x⟩ := m
    simp only [decodeStringFields]
    split
    · rw [saveError_some]; exact ih _
    · split
      · rw [saveError_some]; exact ih _
      · exact ih _

theorem decodeStringFields_ok_iff (members : List (String × JSON)) (v : σ)
    (saved : Option GoError) :
    (decodeStringFields names get set members v saved).2 = none ↔
      saved = none ∧ ∀ m ∈ members, findField names m.1 ≠ none ∧ m.2.isStringOrNull = true := by
  induction members generalizing v saved with
  | nil => simp [decodeStringFields]
  | cons m rest ih =>
    obtain ⟨key, x⟩ := m
    simp only [decodeStringFields, List.mem_cons, forall_eq_or_imp]
    cases hf : findField names key with
    | none =>
      simp only [ne_eq, not_true_eq_false, false_and, and_false, iff_false]
      cases saved with
      | none => simp only [saveError]; rw [decodeStringFields_saved_some]; simp
      | some e => rw [saveError_some, decodeStringFields_saved_some]; simp
    | some name =>
      simp only [ne_eq, reduceCtorEq, not_false_eq_true, true_and]
      cases hs : (storeString (get v name) x).2 with
      | none =>
        have hx := (storeString_snd (get v name) x).1 hs
        simp only [hx, true_and]
        exact ih _ _
      | some e =>
        have hx : ¬ (x.isStringOrNull = true) := by
          intro hx
          rw [(storeString_snd (get v name) x).2 hx] at hs
          cases hs
        simp only [hx, false_and, and_false, iff_false]
        cases saved with
        | none => simp only [saveError]; rw [decodeStringFields_saved_some]; simp
        | some e0 => rw [saveError_some, decodeStringFields_saved_some]; simp

theorem decodeStringFields_get
    (hlaw : ∀ v n s m, n ∈ names → m ∈ names →
      get (set v n s) m = if m = n then s else get v m)
    (members : List (String × JSON)) (v : σ) (saved : Option GoError) (name : String)
    (hname : name ∈ names) :
    get (decodeStringFields names get set members v saved).1 name =
      (fieldText names members name).getD (get v name) := by
  unfold fieldText offered
  induction members generalizing v saved with
  | nil => simp [decodeStringFields]
  | cons m rest ih =>
    obtain ⟨key, x⟩ := m
    simp only [decodeStringFields, List.filterMap_cons]
    cases hf : findField names key with
    | none =>
      have : (match x with
          | .string s => if (none : Option String) = some name then some s else none
          | _ => none) = none := by
        cases x <;> simp
      simp only [this]
      exact ih _ _
    | some n =>
      have hn := findField_mem hf
      simp only []
      rw [ih]
      rw [hlaw v n _ name hn hname, storeString_fst]
      cases x with
      | string s =>
        simp only [Option.some.injEq]
        by_cases e : n = name
        · subst e
          simp [List.getLast?_cons]
        · have e' : ¬ (name = n) := fun h => e h.symm
          simp [e, e']
      | null => by_cases e : name = n <;> simp [e]
      | bool b => by_cases e : name = n <;> simp [e]
      | number l => by_cases e : name = n <;> simp [e]
      | array l => by_cases e : name = n <;> simp [e]
      | object l => by_cases e : name = n <;> simp [e]

end stringStruct




theorem image_law (v : image) (n s m : String) (hn : n ∈ image.names) (hm : m ∈ image.names) :
    image.get (image.set v n s) m = if m = n then s else image.get v m := by
  simp only [image.names, List.mem_cons, List.mem_singleton, List.not_mem_nil, or_false] at hn hm
  rcases hn with rfl | rfl | rfl | rfl | rfl | rfl | rfl | rfl | rfl <;>
    rcases hm with rfl | rfl | rfl | rfl | rfl | rfl | rfl | rfl | rfl <;>
    simp [image.get, image.set]

/-- The first stage of `Image.UnmarshalJSON`: the local struct after `dec.Decode(&v)`. -/
theorem image_stage1_object (members : List (String × JSON)) :
    decodeStringStruct "fanartapi.image" image.names image.get image.set (.object members)
        ({} : image) =
      decodeStringFields image.names image.get image.set members ({} : image) none := rfl

theorem image_stage1_get (members : List (String × JSON)) (name : String)
    (hname : name ∈ image.names) :
    image.get (decodeStringFields image.names image.get image.set members ({} : image) none).1
        name = (fieldText image.names members name).getD "" := by
  rw [decodeStringFields_get image.names image.get image.set image_law members _ _ name hname]
  simp only [image.names, List.mem_cons, List.mem_singleton, List.not_mem_nil, or_false] at hname
  rcases hname with rfl | rfl | rfl | rfl | rfl | rfl | rfl | rfl | rfl <;> rfl

theorem Image_UnmarshalJSON_stage1_err (img : Image) (buf : JSON) (v : image) (e : GoError)
    (h : decodeStringStruct "fanartapi.image" image.names image.get image.set buf
      ({} : image) = (v, some e)) :
    Image.UnmarshalJSON img buf = (img, some e) := by
  unfold Image.UnmarshalJSON
  rw [h]

theorem Image_UnmarshalJSON_likes_err (img : Image) (buf : JSON) (v : image) (e : GoError)
    (h : decodeStringStruct "fanartapi.image" image.names image.get image.set buf
      ({} : image) = (v, none))
    (hl : v.Likes ≠ "") (he : (Atoi v.Likes).2 = some e) :
    (Image.UnmarshalJSON img buf).2 = some (.wrapError "invalid likes: " e) := by
  unfold Image.UnmarshalJSON
  rw [h]
  simp only [hl, ne_eq, not_false_eq_true, if_true, he]

theorem if_atoi_snd_none (c : Prop) [Decidable c] (s : String) (d : Int)
    (h : ¬ c ∨ (Atoi s).2 = none) : (if c then Atoi s else (d, none)).2 = none := by
  by_cases hc : c
  · rw [if_pos hc]; rcases h with h | h
    · exact absurd hc h
    · exact h
  · rw [if_neg hc]

theorem numOK_iff (s : String) : numOK s ↔ (¬ (s ≠ "") ∨ (Atoi s).2 = none) := by
  unfold numOK; simp

theorem Image_UnmarshalJSON_season_err (img : Image) (buf : JSON) (v : image) (e : GoError)
    (h : decodeStringStruct "fanartapi.image" image.names image.get image.set buf
      ({} : image) = (v, none))
    (hl : numOK v.Likes)
    (hs : v.Season ≠ "" ∧ v.Season ≠ "all") (he : (Atoi v.Season).2 = some e) :
    (Image.UnmarshalJSON img buf).2 = some (.wrapError "invalid season: " e) := by
  unfold Image.UnmarshalJSON
  rw [h]
  have h1 := if_atoi_snd_none (v.Likes ≠ "") v.Likes img.Likes ((numOK_iff _).1 hl)
  simp only [h1, hs, ne_eq, not_false_eq_true, and_self, if_true, he]

theorem Image_UnmarshalJSON_disc_err (img : Image) (buf : JSON) (v : image) (e : GoError)
    (h : decodeStringStruct "fanartapi.image" image.names image.get image.set buf
      ({} : image) = (v, none))
    (hl : numOK v.Likes) (hs : v.Season = "all" ∨ numOK v.Season)
    (hd : v.Disc ≠ "") (he : (Atoi v.Disc).2 = some e) :
    (Image.UnmarshalJSON img buf).2 = some (.wrapError "invalid disc: " e) := by
  unfold Image.UnmarshalJSON
  rw [h]
  have h1 := if_atoi_snd_none (v.Likes ≠ "") v.Likes img.Likes ((numOK_iff _).1 hl)
  have h2 := if_atoi_snd_none (v.Season ≠ "" ∧ v.Season ≠ "all") v.Season img.Season
    (by unfold numOK at hs; tauto)
  simp only [h1, h2, hd, ne_eq, not_false_eq_true, if_true, he]

theorem Image_UnmarshalJSON_size_err (img : Image) (buf : JSON) (v : image) (e : GoError)
    (h : decodeStringStruct "fanartapi.image" image.names image.get image.set buf
      ({} : image) = (v, none))
    (hl : numOK v.Likes) (hs : v.Season = "all" ∨ numOK v.Season) (hd : numOK v.Disc)
    (hz : v.Size ≠ "") (he : (Atoi v.Size).2 = some e) :
    (Image.UnmarshalJSON img buf).2 = some (.wrapError "invalid size: " e) := by
  unfold Image.UnmarshalJSON
  rw [h]
  have h1 := if_atoi_snd_none (v.Likes ≠ "") v.Likes img.Likes ((numOK_iff _).1 hl)
  have h2 := if_atoi_snd_none (v.Season ≠ "" ∧ v.Season ≠ "all") v.Season img.Season
    (by unfold numOK at hs; tauto)
  have h3 := if_atoi_snd_none (v.Disc ≠ "") v.Disc img.Disc ((numOK_iff _).1 hd)
  simp only [h1, h2, h3, hz, ne_eq, not_false_eq_true, if_true, he]

theorem Image_UnmarshalJSON_ok (img : Image) (buf : JSON) (v : image)
    (h : decodeStringStruct "fanartapi.image" image.names image.get image.set buf
      ({} : image) = (v, none))
    (hl : numOK v.Likes) (hs : v.Season = "all" ∨ numOK v.Season) (hd : numOK v.Disc)
    (hz : numOK v.Size) :
    Image.UnmarshalJSON img buf =
      ({ ID := v.ID,
         URL := if HasPrefix v.URL "http://" then "https://" ++ TrimPrefix v.URL "http://"
                else v.URL,
         Lang := v.Lang, Colour := v.Colour, DiscType := v.DiscType,
         Likes := if v.Likes ≠ "" then (Atoi v.Likes).1 else img.Likes,
         Season := if v.Season ≠ "" ∧ v.Season ≠ "all" then (Atoi v.Season).1 else img.Season,
         Disc := if v.Disc ≠ "" then (Atoi v.Disc).1 else img.Disc,
         Size := if v.Size ≠ "" then (Atoi v.Size).1 else img.Size }, none) := by
  unfold Image.UnmarshalJSON
  rw [h]
  have h1 := if_atoi_snd_none (v.Likes ≠ "") v.Likes img.Likes ((numOK_iff _).1 hl)
  have h2 := if_atoi_snd_none (v.Season ≠ "" ∧ v.Season ≠ "all") v.Season img.Season
    (by unfold numOK at hs; tauto)
  have h3 := if_atoi_snd_none (v.Disc ≠ "") v.Disc img.Disc ((numOK_iff _).1 hd)
  have h4 := if_atoi_snd_none (v.Size ≠ "") v.Size img.Size ((numOK_iff _).1 hz)
  simp only [h1, h2, h3, h4, apply_ite Prod.fst]
  by_cases hu : HasPrefix v.URL "http://" = true
  · rw [if_pos hu, if_pos hu]
  · rw [if_neg hu, if_neg hu]

theorem Image_UnmarshalJSON_ok_iff (img : Image) (buf : JSON) :
    (Image.UnmarshalJSON img buf).2 = none ↔
      ∃ v, decodeStringStruct "fanartapi.image" image.names image.get image.set buf
          ({} : image) = (v, none) ∧
        numOK v.Likes ∧ (v.Season = "all" ∨ numOK v.Season) ∧ numOK v.Disc ∧ numOK v.Size := by
  constructor
  · intro hok
    cases h : decodeStringStruct "fanartapi.image" image.names image.get image.set buf
      ({} : image) with
    | mk v e =>
      cases e with
      | some e =>
        rw [Image_UnmarshalJSON_stage1_err img buf v e h] at hok
        cases hok
      | none =>
        refine ⟨v, rfl, ?_⟩
        have key : ∀ s : String, ¬ numOK s → s ≠ "" ∧ ∃ e, (Atoi s).2 = some e := by
          intro s hs
          unfold numOK at hs
          push_neg at hs
          refine ⟨hs.1, ?_⟩
          cases h2 : (Atoi s).2 with
          | none => exact absurd h2 hs.2
          | some e => exact ⟨e, rfl⟩
        by_contra hcon
        by_cases hl : numOK v.Likes
        · by_cases hs : v.Season = "all" ∨ numOK v.Season
          · by_cases hd : numOK v.Disc
            · by_cases hz : numOK v.Size
              · exact hcon ⟨hl, hs, hd, hz⟩
              · obtain ⟨hz1, e, he⟩ := key _ hz
                rw [Image_UnmarshalJSON_size_err img buf v e h hl hs hd hz1 he] at hok
                cases hok
            · obtain ⟨hd1, e, he⟩ := key _ hd
              rw [Image_UnmarshalJSON_disc_err img buf v e h hl hs hd1 he] at hok
              cases hok
          · push_neg at hs
            obtain ⟨hs1, e, he⟩ := key _ hs.2
            rw [Image_UnmarshalJSON_season_err img buf v e h hl ⟨hs1, hs.1⟩ he] at hok
            cases hok
        · obtain ⟨hl1, e, he⟩ := key _ hl
          rw [Image_UnmarshalJSON_likes_err img buf v e h hl1 he] at hok
          cases hok
  · rintro ⟨v, h, hl, hs, hd, hz⟩
    rw [Image_UnmarshalJSON_ok img buf v h hl hs hd hz]




theorem Image_UnmarshalJSON_likes_frame (img : Image) (buf : JSON) (v : image)
    (h : decodeStringStruct "fanartapi.image" image.names image.get image.set buf
      ({} : image) = (v, none)) (hl : v.Likes = "") :
    (Image.UnmarshalJSON img buf).1.Likes = img.Likes := by
  unfold Image.UnmarshalJSON
  rw [h]
  simp only [hl, ne_eq, not_true_eq_false, if_false]
  repeat' split
  all_goals rfl

theorem Image_UnmarshalJSON_season_frame (img : Image) (buf : JSON) (v : image)
    (h : decodeStringStruct "fanartapi.image" image.names image.get image.set buf
      ({} : image) = (v, none)) (hl : v.Season = "" ∨ v.Season = "all") :
    (Image.UnmarshalJSON img buf).1.Season = img.Season := by
  unfold Image.UnmarshalJSON
  rw [h]
  have : ¬ (v.Season ≠ "" ∧ v.Season ≠ "all") := by tauto
  simp only [this, if_false]
  repeat' split
  all_goals rfl

theorem Image_UnmarshalJSON_disc_frame (img : Image) (buf : JSON) (v : image)
    (h : decodeStringStruct "fanartapi.image" image.names image.get image.set buf
      ({} : image) = (v, none)) (hl : v.Disc = "") :
    (Image.UnmarshalJSON img buf).1.Disc = img.Disc := by
  unfold Image.UnmarshalJSON
  rw [h]
  simp only [hl, ne_eq, not_true_eq_false, if_false]
  repeat' split
  all_goals rfl

theorem Image_UnmarshalJSON_size_frame (img : Image) (buf : JSON) (v : image)
    (h : decodeStringStruct "fanartapi.image" image.names image.get image.set buf
      ({} : image) = (v, none)) (hl : v.Size = "") :
    (Image.UnmarshalJSON img buf).1.Size = img.Size := by
  unfold Image.UnmarshalJSON
  rw [h]
  simp only [hl, ne_eq, not_true_eq_false, if_false]
  repeat' split
  all_goals rfl

theorem digitString_facts (s : String) (h : isDigitString s = true) :
    s ≠ "" ∧ isIntegerSyntax s = true ∧ integerValue s = (decimalValue s : Int) := by
  unfold isDigitString at h
  simp only [Bool.and_eq_true, Bool.not_eq_true', List.isEmpty_eq_false, List.all_eq_true] at h
  obtain ⟨hne, hd⟩ := h
  have hhead : ¬ (s.data.head? = some '-' ∨ s.data.head? = some '+') := by
    cases hdat : s.data with
    | nil => simp
    | cons c cs =>
      have hc : c.isDigit = true := hd c (by rw [hdat]; simp)
      simp only [List.head?_cons, Option.some.injEq]
      rintro (rfl | rfl) <;> simp [Char.isDigit] at hc
  have hbody : signBody s = s.data := by unfold signBody; rw [if_neg hhead]
  refine ⟨?_, ?_, ?_⟩
  · intro h0; apply hne; rw [h0]
  · unfold isIntegerSyntax
    rw [hbody]
    simp only [Bool.and_eq_true, Bool.not_eq_true', List.isEmpty_eq_false, List.all_eq_true]
    exact ⟨hne, hd⟩
  · unfold integerValue decimalValue
    rw [hbody, if_neg (fun h => hhead (Or.inl h))]

theorem Atoi_digitString (s : String) (h : isDigitString s = true)
    (hr : decimalValue s < 2 ^ 63) : Atoi s = ((decimalValue s : Int), none) := by
  obtain ⟨_, h1, h2⟩ := digitString_facts s h
  rw [Atoi_integer s h1, h2, if_pos (by constructor <;> omega)]

theorem Atoi_digitString_val (s : String) (h : isDigitString s = true)
    (hok : (Atoi s).2 = none) : (Atoi s).1 = (decimalValue s : Int) := by
  obtain ⟨_, _, h2⟩ := digitString_facts s h
  rw [Atoi_ok_val s hok, h2]



/-- Field values of the local struct after the first stage, for an object. -/
theorem image_stage1_fields (members : List (String × JSON)) (v : image) (e : Option GoError)
    (h : decodeStringStruct "fanartapi.image" image.names image.get image.set (.object members)
      ({} : image) = (v, e)) :
    v.ID = (fieldText image.names members "id").getD "" ∧
    v.URL = (fieldText image.names members "url").getD "" ∧
    v.Lang = (fieldText image.names members "lang").getD "" ∧
    v.Colour = (fieldText image.names members "colour").getD "" ∧
    v.DiscType = (fieldText image.names members "disc_type").getD "" ∧
    v.Likes = (fieldText image.names members "likes").getD "" ∧
    v.Season = (fieldText image.names members "season").getD "" ∧
    v.Disc = (fieldText image.names members "disc").getD "" ∧
    v.Size = (fieldText image.names members "size").getD "" := by
  rw [image_stage1_object] at h
  have hv : v = (decodeStringFields image.names image.get image.set members ({} : image)
      none).1 := by rw [h]
  have key := fun name hname => image_stage1_get members name hname
  rw [← hv] at key
  refine ⟨?_, ?_, ?_, ?_, ?_, ?_, ?_, ?_, ?_⟩
  · exact key "id" (by decide)
  · exact key "url" (by decide)
  · exact key "lang" (by decide)
  · exact key "colour" (by decide)
  · exact key "disc_type" (by decide)
  · exact key "likes" (by decide)
  · exact key "season" (by decide)
  · exact key "disc" (by decide)
  · exact key "size" (by decide)

theorem image_stage1_ok_iff (members : List (String × JSON)) :
    (decodeStringStruct "fanartapi.image" image.names image.get image.set (.object members)
      ({} : image)).2 = none ↔
      ∀ m ∈ members, findField image.names m.1 ≠ none ∧ m.2.isStringOrNull = true := by
  rw [image_stage1_object, decodeStringFields_ok_iff]
  simp

theorem plainNumeric_numOK (t : Option String) (h : plainNumeric t) : numOK (t.getD "") := by
  rcases h with h | h | ⟨s, h, hd, hr⟩
  · subst h; left; rfl
  · subst h; left; rfl
  · subst h; right
    simp only [Option.getD_some]
    rw [Atoi_digitString s hd hr]

theorem numOK_atoi {s : String} (h : numOK s) (hne : s ≠ "") : (Atoi s).2 = none := by
  rcases h with h | h
  · exact absurd h hne
  · exact h

theorem numOK_iff_base10 (s : String) : numOK s ↔ (s = "" ∨ isBase10Int s) := by
  unfold numOK isBase10Int
  rw [Atoi_ok_iff]

theorem wrapError_starts (t p : String) (e : GoError) (h : p.data <+: t.data) :
    p.data <+: (GoError.wrapError t e).Error.data := by
  obtain ⟨r, hr⟩ := h
  refine ⟨r ++ e.Error.data, ?_⟩
  simp only [GoError.Error, String.data_append, ← hr, List.append_assoc]

theorem Atoi_err_form (s : String) (h : (Atoi s).2 ≠ none) :
    ∃ k, (Atoi s).2 = some (.NumError "Atoi" s k) := by
  by_cases hi : isIntegerSyntax s = true
  · rw [Atoi_integer s hi] at h ⊢
    by_cases hr : -(2 ^ 63) ≤ integerValue s ∧ integerValue s < 2 ^ 63
    · rw [if_pos hr] at h; exact absurd rfl h
    · rw [if_neg hr]; exact ⟨ErrRange, rfl⟩
  · exact Atoi_noninteger s (by simpa using hi)

theorem Image_UnmarshalJSON_unknown (img : Image) (members : List (String × JSON))
    (h : ∃ m ∈ members, findField image.names m.1 = none) :
    (Image.UnmarshalJSON img (.object members)).2 ≠ none := by
  intro hok
  obtain ⟨v, hst, -⟩ := (Image_UnmarshalJSON_ok_iff _ _).1 hok
  have h2 := (image_stage1_ok_iff members).1 (by rw [hst])
  obtain ⟨m, hm, hnone⟩ := h
  exact (h2 m hm).1 hnone

theorem LatestResult_UnmarshalJSON_stage1_err (res : LatestResult) (buf : JSON) (v : latest)
    (e : GoError)
    (h : decodeStringStruct "fanartapi.latest" latest.names latest.get latest.set buf
      ({} : latest) = (v, some e)) :
    LatestResult.UnmarshalJSON res buf = (res, some e) := by
  unfold LatestResult.UnmarshalJSON
  rw [h]

theorem LatestResult_UnmarshalJSON_unknown (res : LatestResult)
    (members : List (String × JSON)) (h : ∃ m ∈ members, findField latest.names m.1 = none) :
    (LatestResult.UnmarshalJSON res (.object members)).2 ≠ none := by
  cases hst : decodeStringStruct "fanartapi.latest" latest.names latest.get latest.set
      (.object members) ({} : latest) with
  | mk v e =>
    cases e with
    | some e => rw [LatestResult_UnmarshalJSON_stage1_err res _ v e hst]; simp
    | none =>
      exfalso
      have h1 : (decodeStringFields latest.names latest.get latest.set members ({} : latest)
          none).2 = none := by
        have : decodeStringStruct "fanartapi.latest" latest.names latest.get latest.set
            (.object members) ({} : latest) =
          decodeStringFields latest.names latest.get latest.set members ({} : latest) none := rfl
        rw [← this, hst]
      have h2 := (decodeStringFields_ok_iff latest.names latest.get latest.set members _ _).1 h1
      obtain ⟨m, hm, hnone⟩ := h
      exact (h2.2 m hm).1 hnone

theorem decodeElems_err {α : Type} (zero : α) (unmarshal : α → JSON → α × Option GoError)
    (elems : List JSON) (cur : List α)
    (h : ∃ x ∈ elems, ∀ a, (unmarshal a x).2 ≠ none) :
    (decodeElems zero unmarshal elems cur).2 ≠ none := by
  induction elems generalizing cur with
  | nil => simp at h
  | cons x xs ih =>
    simp only [decodeElems]
    cases hu : (unmarshal (cur.headD zero) x).2 with
    | some e => simp
    | none =>
      simp only []
      apply ih
      obtain ⟨y, hy, hy2⟩ := h
      simp only [List.mem_cons] at hy
      rcases hy with rfl | hy
      · exact absurd hu (hy2 _)
      · exact ⟨y, hy, hy2⟩

theorem decodeImages_err (cur : List Image) (elems : List JSON) (saved : Option GoError)
    (h : ∃ x ∈ elems, unknownKeyImage x) :
    (decodeImages cur (.array elems) saved).err ≠ none := by
  unfold decodeImages decodeSlice
  simp only []
  apply decodeElems_err
  obtain ⟨x, hx, members, rfl, hm⟩ := h
  exact ⟨_, hx, fun a => Image_UnmarshalJSON_unknown a members hm⟩

theorem decodeMapMembers_err {β : Type} (zero : β)
    (decodeVal : β → JSON → Option GoError → Decoded β) (members : List (String × JSON))
    (m : GoMap β) (saved : Option GoError)
    (h : ∃ kv ∈ members, ∀ b s, (decodeVal b kv.2 s).err ≠ none) :
    (decodeMapMembers zero decodeVal members m saved).err ≠ none := by
  induction members generalizing m saved with
  | nil => simp at h
  | cons kv rest ih =>
    obtain ⟨key, x⟩ := kv
    simp only [decodeMapMembers]
    cases hd : (decodeVal zero x saved).err with
    | some e => simp
    | none =>
      simp only []
      apply ih
      obtain ⟨y, hy, hy2⟩ := h
      simp only [List.mem_cons] at hy
      rcases hy with rfl | hy
      · exact absurd hd (hy2 _ _)
      · exact ⟨y, hy, hy2⟩

theorem decodeAlbums_err (cur : GoMap (GoMap (List Image))) (saved : Option GoError)
    (albums : List (String × JSON))
    (h : ∃ a ∈ albums, ∃ cats, a.2 = .object cats ∧
      ∃ c ∈ cats, ∃ elems, c.2 = .array elems ∧ ∃ x ∈ elems, unknownKeyImage x) :
    (decodeAlbums cur (.object albums) saved).err ≠ none := by
  unfold decodeAlbums decodeMap
  simp only []
  apply decodeMapMembers_err
  obtain ⟨a, ha, cats, hcats, c, hc, elems, helems, hx⟩ := h
  refine ⟨a, ha, fun b s => ?_⟩
  rw [hcats]
  simp only []
  apply decodeMapMembers_err
  refine ⟨c, hc, fun b s => ?_⟩
  rw [helems]
  exact decodeImages_err b elems s hx

theorem decodeSlice_saved {α : Type} (goType : String) (zero : α)
    (unmarshal : α → JSON → α × Option GoError) (cur : List α) (x : JSON)
    (saved : Option GoError) (h : saved ≠ none) :
    (decodeSlice goType zero unmarshal cur x saved).saved ≠ none := by
  unfold decodeSlice
  cases x <;> simp only [] <;> first | exact h | exact saveError_ne_none _ _

theorem decodeMapMembers_saved {β : Type} (zero : β)
    (decodeVal : β → JSON → Option GoError → Decoded β)
    (hval : ∀ b x s, s ≠ none → (decodeVal b x s).saved ≠ none)
    (members : List (String × JSON)) (m : GoMap β) (saved : Option GoError)
    (h : saved ≠ none) :
    (decodeMapMembers zero decodeVal members m saved).saved ≠ none := by
  induction members generalizing m saved with
  | nil => exact h
  | cons kv rest ih =>
    obtain ⟨key, x⟩ := kv
    simp only [decodeMapMembers]
    cases hd : (decodeVal zero x saved).err with
    | some e => exact hval _ _ _ h
    | none => exact ih _ _ (hval _ _ _ h)

theorem decodeMap_saved {β : Type} (goType : String) (zero : β)
    (decodeVal : β → JSON → Option GoError → Decoded β)
    (hval : ∀ b x s, s ≠ none → (decodeVal b x s).saved ≠ none)
    (cur : GoMap β) (x : JSON) (saved : Option GoError) (h : saved ≠ none) :
    (decodeMap goType zero decodeVal cur x saved).saved ≠ none := by
  unfold decodeMap
  cases x <;> simp only [] <;>
    first
    | exact h
    | exact saveError_ne_none _ _
    | exact decodeMapMembers_saved zero decodeVal hval _ _ _ h

theorem decodeImages_saved (cur : List Image) (x : JSON) (saved : Option GoError)
    (h : saved ≠ none) : (decodeImages cur x saved).saved ≠ none :=
  decodeSlice_saved _ _ _ _ _ _ h

theorem decodeAlbums_saved (cur : GoMap (GoMap (List Image))) (x : JSON)
    (saved : Option GoError) (h : saved ≠ none) : (decodeAlbums cur x saved).saved ≠ none :=
  decodeMap_saved _ _ _
    (fun b x s hs => decodeMap_saved _ _ _ (fun b x s hs => decodeImages_saved b x s hs) b x s hs)
    _ _ _ h

theorem decodeImagesResultFields_saved (members : List (String × JSON)) (v : ImagesResult)
    (saved : Option GoError) (h : saved ≠ none) :
    (decodeImagesResultFields members v saved).failed := by
  induction members generalizing v saved with
  | nil => right; exact h
  | cons kv rest ih =>
    obtain ⟨key, x⟩ := kv
    simp only [decodeImagesResultFields]
    cases hf : findField ImagesResult.names key with
    | none => exact ih _ _ (saveError_ne_none _ _)
    | some name =>
      simp only []
      by_cases ha : name = "albums"
      · rw [if_pos ha]
        cases hd : (decodeAlbums v.Albums x saved).err with
        | some e => left; simp
        | none => exact ih _ _ (decodeAlbums_saved _ _ _ h)
      · rw [if_neg ha]
        by_cases hs : name ∈ ImagesResult.stringNames
        · rw [if_pos hs]
          apply ih
          cases (storeString (v.getString name) x).2 with
          | some e => exact saveError_ne_none _ _
          | none => exact h
        · rw [if_neg hs]
          cases hd : (decodeImages (v.getImages name) x saved).err with
          | some e => left; simp
          | none => exact ih _ _ (decodeImages_saved _ _ _ h)

theorem imageNames_disjoint :
    ∀ name ∈ ImagesResult.imageNames, name ≠ "albums" ∧ name ∉ ImagesResult.stringNames := by
  decide

theorem decodeImagesResultFields_failing (members : List (String × JSON)) (v : ImagesResult)
    (saved : Option GoError) (h : ∃ kv ∈ members, failingMember kv) :
    (decodeImagesResultFields members v saved).failed := by
  induction members generalizing v saved with
  | nil => simp at h
  | cons kv rest ih =>
    obtain ⟨key, x⟩ := kv
    obtain ⟨y, hy, hy2⟩ := h
    simp only [List.mem_cons] at hy
    rcases hy with rfl | hy
    · simp only [decodeImagesResultFields]
      rcases hy2 with hnone | ⟨name, hname, hf, elems, hx, hbad⟩ | ⟨hf, albums, hx, hbad⟩
      · simp only [] at hnone
        rw [hnone]
        exact decodeImagesResultFields_saved _ _ _ (saveError_ne_none _ _)
      · simp only [] at hf hx
        obtain ⟨h1, h2⟩ := imageNames_disjoint name hname
        rw [hf]
        simp only []
        rw [if_neg h1, if_neg h2, hx]
        cases hd : (decodeImages (v.getImages name) (.array elems) saved).err with
        | some e => left; simp
        | none => exact absurd hd (decodeImages_err _ _ _ hbad)
      · simp only [] at hf hx
        rw [hf]
        simp only [if_true, hx]
        cases hd : (decodeAlbums v.Albums (.object albums) saved).err with
        | some e => left; simp
        | none => exact absurd hd (decodeAlbums_err _ _ _ hbad)
    · have hrest : ∃ kv ∈ rest, failingMember kv := ⟨y, hy, hy2⟩
      simp only [decodeImagesResultFields]
      cases hf : findField ImagesResult.names key with
      | none => exact ih _ _ hrest
      | some name =>
        simp only []
        by_cases ha : name = "albums"
        · rw [if_pos ha]
          cases hd : (decodeAlbums v.Albums x saved).err with
          | some e => left; simp
          | none => exact ih _ _ hrest
        · rw [if_neg ha]
          by_cases hs : name ∈ ImagesResult.stringNames
          · rw [if_pos hs]
            exact ih _ _ hrest
          · rw [if_neg hs]
            cases hd : (decodeImages (v.getImages name) x saved).err with
            | some e => left; simp
            | none => exact ih _ _ hrest

theorem decodeImagesResult_failing (members : List (String × JSON)) (v : ImagesResult)
    (h : ∃ kv ∈ members, failingMember kv) :
    (decodeImagesResult (.object members) v).2 ≠ none := by
  have := decodeImagesResultFields_failing members v none h
  unfold decodeImagesResult
  simp only []
  rcases this with h1 | h1
  · cases hd : (decodeImagesResultFields members v none).err with
    | some e => simp
    | none => exact absurd hd h1
  · cases hd : (decodeImagesResultFields members v none).err with
    | some e => simp
    | none => exact h1

theorem findField_eq_none_iff (names : List String) (key : String) :
    findField names key = none ↔ ∀ n ∈ names, n ≠ key ∧ foldName n ≠ foldName key := by
  unfold findField
  constructor
  · intro h
    split at h
    · cases h
    · rename_i h1
      intro n hn
      rw [List.find?_eq_none] at h1 h
      exact ⟨by simpa using h1 n hn, by simpa using h n hn⟩
  · intro h
    have h1 : names.find? (fun n => decide (n = key)) = none := by
      rw [List.find?_eq_none]
      intro n hn; simpa using (h n hn).1
    rw [h1]
    simp only []
    rw [List.find?_eq_none]
    intro n hn; simpa using (h n hn).2

theorem HasPrefix_iff (s p : String) : HasPrefix s p = true ↔ ∃ r, s = p ++ r := by
  unfold HasPrefix
  rw [List.isPrefixOf_iff_prefix]
  constructor
  · rintro ⟨t, ht⟩
    refine ⟨⟨t⟩, ?_⟩
    apply String.ext
    rw [String.data_append, ht]
  · rintro ⟨r, rfl⟩
    exact ⟨r.data, by rw [String.data_append]⟩

theorem TrimPrefix_append (p r : String) : TrimPrefix (p ++ r) p = r := by
  unfold TrimPrefix
  rw [if_pos ((HasPrefix_iff _ _).2 ⟨r, rfl⟩)]
  apply String.ext
  simp [String.data_append]

theorem https_not_http (rest : String) : ¬ ∃ r, "https://" ++ rest = "http://" ++ r := by
  rintro ⟨r, h⟩
  have := congrArg String.data h
  simp [String.data_append] at this

theorem canonical_accept : CanonicalMIMEHeaderKey "Accept" = "Accept" := by decide

theorem canonical_api_key : CanonicalMIMEHeaderKey "api-key" = "Api-Key" := by decide

theorem canonical_client_key : CanonicalMIMEHeaderKey "client-key" = "Client-Key" := by decide

theorem Client_Do_request_error {α : Type} (net : Net) (cl : Client) (typ : String)
    (decode : JSON → α → α × Option GoError) (v : α) (e : GoError)
    (h : net.newRequestError "GET" ("https://webservice.fanart.tv/v3/" ++ typ) = some e) :
    cl.Do net typ decode v = ⟨[], v, some e⟩ := by
  unfold Client.Do
  rw [h]

theorem Client_Do_built {α : Type} (net : Net) (cl : Client) (typ : String)
    (decode : JSON → α → α × Option GoError) (v : α)
    (h : net.newRequestError "GET" ("https://webservice.fanart.tv/v3/" ++ typ) = none) :
    cl.Do net typ decode v =
      match net.clientDo cl.Transport (expectedRequest cl typ) with
      | .error err => ⟨[expectedRequest cl typ], v, some err⟩
      | .ok res =>
        if res.StatusCode ≠ 200 then
          ⟨[expectedRequest cl typ], v,
            some (.errorString ("status " ++ toString res.StatusCode ++ " != 200"))⟩
        else ⟨[expectedRequest cl typ], (decode res.Body v).1, (decode res.Body v).2⟩ := by
  unfold Client.Do expectedRequest expectedHeader
  rw [h]
  by_cases ha : cl.ApiKey = "" <;> by_cases hc : cl.ClientKey = "" <;>
    simp [ha, hc, Header.Add, canonical_accept, canonical_api_key, canonical_client_key]

theorem decodeLatestResults_unknown (v : List LatestResult) (elems : List JSON)
    (h : ∃ x ∈ elems, ∃ members, x = .object members ∧
      ∃ m ∈ members, findField latest.names m.1 = none) :
    (decodeLatestResults (.array elems) v).2 ≠ none := by
  unfold decodeLatestResults decodeSlice
  simp only []
  have : (decodeElems ({} : LatestResult) LatestResult.UnmarshalJSON elems v).2 ≠ none := by
    apply decodeElems_err
    obtain ⟨x, hx, members, rfl, hm⟩ := h
    exact ⟨_, hx, fun a => LatestResult_UnmarshalJSON_unknown a members hm⟩
  cases hd : (decodeElems ({} : LatestResult) LatestResult.UnmarshalJSON elems v).2 with
  | some e => simp
  | none => exact absurd hd this

theorem Client_Do_sent {α : Type} (net : Net) (cl : Client) (typ : String)
    (decode : JSON → α → α × Option GoError) (v : α) :
    (cl.Do net typ decode v).sent =
      if net.newRequestError "GET" ("https://webservice.fanart.tv/v3/" ++ typ) = none then
        [expectedRequest cl typ]
      else [] := by
  cases hn : net.newRequestError "GET" ("https://webservice.fanart.tv/v3/" ++ typ) with
  | some e => rw [Client_Do_request_error net cl typ decode v e hn]; simp
  | none =>
    rw [Client_Do_built net cl typ decode v hn]
    cases hc : net.clientDo cl.Transport (expectedRequest cl typ) with
    | error err => simp
    | ok res =>
      simp only []
      by_cases hs : res.StatusCode ≠ 200
      · rw [if_pos hs]; simp
      · rw [if_neg hs]; simp

theorem Client_Do_ok_response {α : Type} (net : Net) (cl : Client) (typ : String)
    (decode : JSON → α → α × Option GoError) (v : α) (req : Request) (res : Response)
    (hsent : req ∈ (cl.Do net typ decode v).sent)
    (hres : net.clientDo cl.Transport req = .ok res) :
    cl.Do net typ decode v =
      if res.StatusCode ≠ 200 then
        ⟨[req], v, some (.errorString ("status " ++ toString res.StatusCode ++ " != 200"))⟩
      else ⟨[req], (decode res.Body v).1, (decode res.Body v).2⟩ := by
  rw [Client_Do_sent] at hsent
  cases hn : net.newRequestError "GET" ("https://webservice.fanart.tv/v3/" ++ typ) with
  | some e => rw [hn] at hsent; simp at hsent
  | none =>
    rw [hn] at hsent
    have hreq : req = expectedRequest cl typ := by simpa using hsent
    rw [Client_Do_built net cl typ decode v hn, ← hreq, hres]

theorem Client_Do_sent_mem {α : Type} (net : Net) (cl : Client) (typ : String)
    (decode : JSON → α → α × Option GoError) (v : α) (req : Request)
    (h : req ∈ (cl.Do net typ decode v).sent) : req = expectedRequest cl typ := by
  rw [Client_Do_sent] at h
  split at h
  · simpa using h
  · simp at h

theorem ImagesRequest_Do_sent (ireq : ImagesRequest) (net : Net) (cl : Client) :
    (ireq.Do net cl).sent =
      (cl.Do net (ireq.Type'.ApiType ++ "/" ++ ireq.Query) decodeImagesResult
        ({} : ImagesResult)).sent := by
  unfold ImagesRequest.Do
  simp only []
  split <;> rfl

theorem LatestRequest_Do_sent (lreq : LatestRequest) (net : Net) (cl : Client) :
    (lreq.Do net cl).sent =
      (cl.Do net (lreq.Type'.ApiType ++ "/latest") decodeLatestResults []).sent := by
  unfold LatestRequest.Do
  simp only []
  split <;> rfl

theorem ImagesRequest_Do_err (ireq : ImagesRequest) (net : Net) (cl : Client) :
    (ireq.Do net cl).err =
      (cl.Do net (ireq.Type'.ApiType ++ "/" ++ ireq.Query) decodeImagesResult
        ({} : ImagesResult)).err := by
  unfold ImagesRequest.Do
  simp only []
  split
  · rename_i e he; rw [he]
  · rename_i he; rw [he]

theorem LatestRequest_Do_err (lreq : LatestRequest) (net : Net) (cl : Client) :
    (lreq.Do net cl).err =
      (cl.Do net (lreq.Type'.ApiType ++ "/latest") decodeLatestResults []).err := by
  unfold LatestRequest.Do
  simp only []
  split
  · rename_i e he; rw [he]
  · rename_i he; rw [he]

/-! ## Properties of the specification -/

/-- C1. `Image.UnmarshalJSON` on a fresh `Image` and an object whose values are all JSON
strings.  A numeric field (likes, season, disc, size) whose text is absent or empty stays 0,
and so does the season for the text `all`, whatever the outcome of the call.  When the call
succeeds, a numeric field whose text is a string of decimal digits holds the number the
digits write, and ID, Lang, Colour and DiscType hold the texts of id, lang, colour and
disc_type.  The call succeeds when every key is a field of the record and every numeric
text is absent, empty, `all` for the season, or digits writing a number below `2 ^ 63`. -/
theorem C1_decode_fresh_image (fields : List (String × String)) :
    let members := fields.map (fun f => (f.1, JSON.string f.2))
    let r := Image.UnmarshalJSON ({} : Image) (stringObject fields)
    let txt := fieldText image.names members
    ((txt "likes" = none ∨ txt "likes" = some "") → r.1.Likes = 0) ∧
    ((txt "season" = none ∨ txt "season" = some "" ∨ txt "season" = some "all") →
      r.1.Season = 0) ∧
    ((txt "disc" = none ∨ txt "disc" = some "") → r.1.Disc = 0) ∧
    ((txt "size" = none ∨ txt "size" = some "") → r.1.Size = 0) ∧
    (r.2 = none → ∀ s, isDigitString s = true →
      (txt "likes" = some s → r.1.Likes = decimalValue s) ∧
      (txt "season" = some s → r.1.Season = decimalValue s) ∧
      (txt "disc" = some s → r.1.Disc = decimalValue s) ∧
      (txt "size" = some s → r.1.Size = decimalValue s)) ∧
    (r.2 = none → ∀ s,
      (txt "id" = some s → r.1.ID = s) ∧
      (txt "lang" = some s → r.1.Lang = s) ∧
      (txt "colour" = some s → r.1.Colour = s) ∧
      (txt "disc_type" = some s → r.1.DiscType = s)) ∧
    ((∀ f ∈ fields, findField image.names f.1 ≠ none) →
      plainNumeric (txt "likes") → (txt "season" = some "all" ∨ plainNumeric (txt "season")) →
      plainNumeric (txt "disc") → plainNumeric (txt "size") → r.2 = none) := by
  intro members r txt
  have hobj : stringObject fields = .object members := rfl
  cases hst : decodeStringStruct "fanartapi.image" image.names image.get image.set
      (.object members) ({} : image) with
  | mk v e =>
  obtain ⟨hID, hURL, hLang, hColour, hDiscType, hLikes, hSeason, hDisc, hSize⟩ :=
    image_stage1_fields members v e hst
  have hr : r = Image.UnmarshalJSON ({} : Image) (.object members) := rfl
  have hgetD : ∀ (t : Option String), (t = none ∨ t = some "") → t.getD "" = "" := by
    rintro t (h | h) <;> subst h <;> rfl
  refine ⟨?_, ?_, ?_, ?_, ?_, ?_, ?_⟩
  · intro h
    cases e with
    | some e => rw [hr, Image_UnmarshalJSON_stage1_err _ _ v e hst]
    | none =>
      rw [hr, Image_UnmarshalJSON_likes_frame _ _ v hst (by rw [hLikes]; exact hgetD _ h)]
  · intro h
    cases e with
    | some e => rw [hr, Image_UnmarshalJSON_stage1_err _ _ v e hst]
    | none =>
      rw [hr, Image_UnmarshalJSON_season_frame _ _ v hst]
      rw [hSeason]
      rcases h with h | h | h
      · left; exact hgetD _ (Or.inl h)
      · left; exact hgetD _ (Or.inr h)
      · right; show (txt "season").getD "" = "all"; rw [h]; rfl
  · intro h
    cases e with
    | some e => rw [hr, Image_UnmarshalJSON_stage1_err _ _ v e hst]
    | none =>
      rw [hr, Image_UnmarshalJSON_disc_frame _ _ v hst (by rw [hDisc]; exact hgetD _ h)]
  · intro h
    cases e with
    | some e => rw [hr, Image_UnmarshalJSON_stage1_err _ _ v e hst]
    | none =>
      rw [hr, Image_UnmarshalJSON_size_frame _ _ v hst (by rw [hSize]; exact hgetD _ h)]
  · intro hok s hs
    obtain ⟨v', hst', hl, hse, hd, hz⟩ := (Image_UnmarshalJSON_ok_iff _ _).1 (hr ▸ hok)
    have hv : v' = v := by rw [hst] at hst'; cases hst'; rfl
    subst hv
    have hres := Image_UnmarshalJSON_ok ({} : Image) _ v' hst' hl hse hd hz
    obtain ⟨hne, _, _⟩ := digitString_facts s hs
    have hall : s ≠ "all" := by
      intro h; subst h; revert hs; decide
    refine ⟨?_, ?_, ?_, ?_⟩
    · intro ht
      have hv : v'.Likes = s := by rw [hLikes]; show (txt "likes").getD "" = s; rw [ht]; rfl
      rw [hr, hres]
      simp only [hv, hne, ne_eq, not_false_eq_true, if_true]
      exact Atoi_digitString_val s hs (numOK_atoi (hv ▸ hl) hne)
    · intro ht
      have hv : v'.Season = s := by rw [hSeason]; show (txt "season").getD "" = s; rw [ht]; rfl
      rw [hr, hres]
      simp only [hv, hne, hall, ne_eq, not_false_eq_true, and_self, if_true]
      have : numOK s := by
        rcases hse with h | h
        · rw [hv] at h; exact absurd h hall
        · exact hv ▸ h
      exact Atoi_digitString_val s hs (numOK_atoi this hne)
    · intro ht
      have hv : v'.Disc = s := by rw [hDisc]; show (txt "disc").getD "" = s; rw [ht]; rfl
      rw [hr, hres]
      simp only [hv, hne, ne_eq, not_false_eq_true, if_true]
      exact Atoi_digitString_val s hs (numOK_atoi (hv ▸ hd) hne)
    · intro ht
      have hv : v'.Size = s := by rw [hSize]; show (txt "size").getD "" = s; rw [ht]; rfl
      rw [hr, hres]
      simp only [hv, hne, ne_eq, not_false_eq_true, if_true]
      exact Atoi_digitString_val s hs (numOK_atoi (hv ▸ hz) hne)
  · intro hok s
    obtain ⟨v', hst', hl, hse, hd, hz⟩ := (Image_UnmarshalJSON_ok_iff _ _).1 (hr ▸ hok)
    have hv : v' = v := by rw [hst] at hst'; cases hst'; rfl
    subst hv
    have hres := Image_UnmarshalJSON_ok ({} : Image) _ v' hst' hl hse hd hz
    refine ⟨?_, ?_, ?_, ?_⟩
    · intro ht
      rw [hr, hres]; show v'.ID = s; rw [hID]; show (txt "id").getD "" = s; rw [ht]; rfl
    · intro ht
      rw [hr, hres]; show v'.Lang = s; rw [hLang]; show (txt "lang").getD "" = s; rw [ht]; rfl
    · intro ht
      rw [hr, hres]; show v'.Colour = s; rw [hColour]
      show (txt "colour").getD "" = s; rw [ht]; rfl
    · intro ht
      rw [hr, hres]; show v'.DiscType = s; rw [hDiscType]
      show (txt "disc_type").getD "" = s; rw [ht]; rfl
  · intro hkeys pl ps pd pz
    rw [hr, Image_UnmarshalJSON_ok_iff]
    have he : e = none := by
      have := (image_stage1_ok_iff members).2 (by
        intro m hm
        simp only [members, List.mem_map] at hm
        obtain ⟨f, hf, rfl⟩ := hm
        exact ⟨hkeys f hf, rfl⟩)
      rw [hst] at this; exact this
    subst he
    refine ⟨v, hst, ?_, ?_, ?_, ?_⟩
    · rw [hLikes]; exact plainNumeric_numOK _ pl
    · rw [hSeason]
      rcases ps with h | h
      · left; show (txt "season").getD "" = "all"; rw [h]; rfl
      · right; exact plainNumeric_numOK _ h
    · rw [hDisc]; exact plainNumeric_numOK _ pd
    · rw [hSize]; exact plainNumeric_numOK _ pz

/-- C1 at the object with id 1, lang en, likes 7, season all and an empty disc. -/
theorem C1_decode_fresh_image_witness :
    (Image.UnmarshalJSON ({} : Image) (stringObject
      [("id", "1"), ("lang", "en"), ("likes", "7"), ("season", "all"), ("disc", "")])).2 =
      none ∧
    (Image.UnmarshalJSON ({} : Image) (stringObject
      [("id", "1"), ("lang", "en"), ("likes", "7"), ("season", "all"), ("disc", "")])).1.Likes =
      7 ∧
    (Image.UnmarshalJSON ({} : Image) (stringObject
      [("id", "1"), ("lang", "en"), ("likes", "7"), ("season", "all"), ("disc", "")])).1.Season =
      0 ∧
    (Image.UnmarshalJSON ({} : Image) (stringObject
      [("id", "1"), ("lang", "en"), ("likes", "7"), ("season", "all"), ("disc", "")])).1.Disc =
      0 ∧
    (Image.UnmarshalJSON ({} : Image) (stringObject
      [("id", "1"), ("lang", "en"), ("likes", "7"), ("season", "all"), ("disc", "")])).1.Size =
      0 ∧
    (Image.UnmarshalJSON ({} : Image) (stringObject
      [("id", "1"), ("lang", "en"), ("likes", "7"), ("season", "all"), ("disc", "")])).1.ID =
      "1" ∧
    (Image.UnmarshalJSON ({} : Image) (stringObject
      [("id", "1"), ("lang", "en"), ("likes", "7"), ("season", "all"), ("disc", "")])).1.Lang =
      "en" := by
  obtain ⟨-, h2, h3, h4, h5, h6, h7⟩ := C1_decode_fresh_image
    [("id", "1"), ("lang", "en"), ("likes", "7"), ("season", "all"), ("disc", "")]
  have hok := h7 (by decide) (Or.inr (Or.inr ⟨"7", by decide, by decide, by decide⟩))
    (Or.inl (by decide)) (Or.inr (Or.inl (by decide))) (Or.inl (by decide))
  exact ⟨hok, (h5 hok "7" (by decide)).1 (by decide), h2 (Or.inr (Or.inr (by decide))),
    h3 (Or.inr (by decide)), h4 (Or.inl (by decide)), (h6 hok "1").1 (by decide),
    (h6 hok "en").2.1 (by decide)⟩

/-- C2. `Image.UnmarshalJSON` on an object fails whenever the text of likes, season, disc or
size is non-empty, is not `all` in the case of the season, and is not the base-10 notation
of an integer that a Go `int` holds.  For an object that the first stage accepts (every key
a field, every value a string or `null`) the message of the error starts with
`invalid likes`, `invalid season`, `invalid disc` or `invalid size`, for the first field in
this order whose text is of that kind.  The texts `abc`, `all` and ` 7` are of that kind;
`7` and the empty text are not. -/
theorem C2_invalid_numeric_field (img : Image) (members : List (String × JSON)) :
    let r := Image.UnmarshalJSON img (.object members)
    let txt := fun name => (fieldText image.names members name).getD ""
    let bad := fun (s : String) => s ≠ "" ∧ ¬ isBase10Int s
    ((bad (txt "likes") ∨ (txt "season" ≠ "all" ∧ bad (txt "season")) ∨ bad (txt "disc") ∨
        bad (txt "size")) → r.2 ≠ none) ∧
    ((∀ m ∈ members, findField image.names m.1 ≠ none ∧ m.2.isStringOrNull = true) →
      (bad (txt "likes") →
        ∃ e, r.2 = some e ∧ "invalid likes".data <+: e.Error.data) ∧
      (¬ bad (txt "likes") → txt "season" ≠ "all" ∧ bad (txt "season") →
        ∃ e, r.2 = some e ∧ "invalid season".data <+: e.Error.data) ∧
      (¬ bad (txt "likes") → ¬ (txt "season" ≠ "all" ∧ bad (txt "season")) →
        bad (txt "disc") →
        ∃ e, r.2 = some e ∧ "invalid disc".data <+: e.Error.data) ∧
      (¬ bad (txt "likes") → ¬ (txt "season" ≠ "all" ∧ bad (txt "season")) →
        ¬ bad (txt "disc") → bad (txt "size") →
        ∃ e, r.2 = some e ∧ "invalid size".data <+: e.Error.data)) ∧
    (bad "abc" ∧ bad "all" ∧ bad " 7" ∧ ¬ bad "7" ∧ ¬ bad "") := by
  intro r txt bad
  have hbad : ∀ s, bad s ↔ ¬ numOK s := by
    intro s
    rw [numOK_iff_base10]
    show (s ≠ "" ∧ ¬ isBase10Int s) ↔ _
    tauto
  have hbadE : ∀ s, bad s → s ≠ "" ∧ ∃ k, (Atoi s).2 = some (.NumError "Atoi" s k) := by
    intro s hs
    have h1 := (hbad s).1 hs
    unfold numOK at h1
    push_neg at h1
    exact ⟨h1.1, Atoi_err_form s h1.2⟩
  cases hst : decodeStringStruct "fanartapi.image" image.names image.get image.set
      (.object members) ({} : image) with
  | mk v e =>
  obtain ⟨-, -, -, -, -, hLikes, hSeason, hDisc, hSize⟩ := image_stage1_fields members v e hst
  have hr : r = Image.UnmarshalJSON img (.object members) := rfl
  have tL : txt "likes" = v.Likes := hLikes.symm
  have tS : txt "season" = v.Season := hSeason.symm
  have tD : txt "disc" = v.Disc := hDisc.symm
  have tZ : txt "size" = v.Size := hSize.symm
  rw [tL, tS, tD, tZ]
  refine ⟨?_, ?_, ?_⟩
  · intro hb hok
    obtain ⟨v', hst', hl, hse, hd, hz⟩ := (Image_UnmarshalJSON_ok_iff _ _).1 hok
    have hv : v' = v := by rw [hst] at hst'; cases hst'; rfl
    subst hv
    rcases hb with hb | ⟨hne, hb⟩ | hb | hb
    · exact (hbad _).1 hb hl
    · rcases hse with h | h
      · exact hne h
      · exact (hbad _).1 hb h
    · exact (hbad _).1 hb hd
    · exact (hbad _).1 hb hz
  · intro hmem
    have he : e = none := by
      have := (image_stage1_ok_iff members).2 hmem
      rw [hst] at this; exact this
    subst he
    refine ⟨?_, ?_, ?_, ?_⟩
    · intro hb
      obtain ⟨hne, k, hk⟩ := hbadE _ hb
      exact ⟨_, Image_UnmarshalJSON_likes_err img _ v _ hst hne hk,
        wrapError_starts _ _ _ ⟨": ".data, rfl⟩⟩
    · intro hl hb
      obtain ⟨hne, k, hk⟩ := hbadE _ hb.2
      have hl' : numOK v.Likes := by
        by_contra h; exact hl ((hbad _).2 h)
      exact ⟨_, Image_UnmarshalJSON_season_err img _ v _ hst hl' ⟨hne, hb.1⟩ hk,
        wrapError_starts _ _ _ ⟨": ".data, rfl⟩⟩
    · intro hl hs hb
      obtain ⟨hne, k, hk⟩ := hbadE _ hb
      have hl' : numOK v.Likes := by
        by_contra h; exact hl ((hbad _).2 h)
      have hs' : v.Season = "all" ∨ numOK v.Season := by
        by_contra h
        push_neg at h
        exact hs ⟨h.1, (hbad _).2 h.2⟩
      exact ⟨_, Image_UnmarshalJSON_disc_err img _ v _ hst hl' hs' hne hk,
        wrapError_starts _ _ _ ⟨": ".data, rfl⟩⟩
    · intro hl hs hd hb
      obtain ⟨hne, k, hk⟩ := hbadE _ hb
      have hl' : numOK v.Likes := by
        by_contra h; exact hl ((hbad _).2 h)
      have hs' : v.Season = "all" ∨ numOK v.Season := by
        by_contra h
        push_neg at h
        exact hs ⟨h.1, (hbad _).2 h.2⟩
      have hd' : numOK v.Disc := by
        by_contra h; exact hd ((hbad _).2 h)
      exact ⟨_, Image_UnmarshalJSON_size_err img _ v _ hst hl' hs' hd' hne hk,
        wrapError_starts _ _ _ ⟨": ".data, rfl⟩⟩
  · refine ⟨⟨by decide, ?_⟩, ⟨by decide, ?_⟩, ⟨by decide, ?_⟩, ?_, ?_⟩
    · unfold isBase10Int; decide
    · unfold isBase10Int; decide
    · unfold isBase10Int; decide
    · show ¬ (_ ∧ ¬ isBase10Int "7"); unfold isBase10Int; decide
    · exact fun h => h.1 rfl

/-- C2 at an object with likes 7, season abc and disc all: the season is named. -/
theorem C2_invalid_numeric_field_witness :
    ∃ e, (Image.UnmarshalJSON ({} : Image)
        (.object [("likes", .string "7"), ("season", .string "abc"),
          ("disc", .string "all")])).2 = some e ∧
      "invalid season".data <+: e.Error.data := by
  have h := (C2_invalid_numeric_field ({} : Image)
    [("likes", .string "7"), ("season", .string "abc"), ("disc", .string "all")]).2.1
    (by decide)
  refine h.2.1 ?_ ?_
  · show ¬ (_ ∧ ¬ isBase10Int "7")
    unfold isBase10Int; decide
  · refine ⟨by decide, by decide, ?_⟩
    show ¬ isBase10Int "abc"
    unfold isBase10Int; decide

/-- C3. Strict schema at every level.  A key matches no field when it differs from every
field name, also under the case folding of `encoding/json`.  Such a key makes decoding
fail, whatever else the object holds: in an `Image` record, in a `LatestResult`
record (alone or in the list that `Client.Do` decodes), in the top-level `ImagesResult`
object, and in an `Image` record nested in an artwork list or in the albums map
(`failingMember` lists the three cases).  A successful response with such a body makes
`Client.Do` return an error. -/
theorem C3_strict_schema :
    (∀ (names : List String) (key : String),
      findField names key = none ↔ ∀ n ∈ names, n ≠ key ∧ foldName n ≠ foldName key) ∧
    (∀ (img : Image) (members : List (String × JSON)),
      (∃ m ∈ members, findField image.names m.1 = none) →
      (Image.UnmarshalJSON img (.object members)).2 ≠ none) ∧
    (∀ (res : LatestResult) (members : List (String × JSON)),
      (∃ m ∈ members, findField latest.names m.1 = none) →
      (LatestResult.UnmarshalJSON res (.object members)).2 ≠ none) ∧
    (∀ (v : List LatestResult) (elems : List JSON),
      (∃ x ∈ elems, ∃ members, x = .object members ∧
        ∃ m ∈ members, findField latest.names m.1 = none) →
      (decodeLatestResults (.array elems) v).2 ≠ none) ∧
    (∀ (v : ImagesResult) (members : List (String × JSON)),
      (∃ kv ∈ members, failingMember kv) →
      (decodeImagesResult (.object members) v).2 ≠ none) ∧
    (∀ (net : Net) (cl : Client) (typ : String) (v : ImagesResult) (req : Request)
      (res : Response) (members : List (String × JSON)),
      req ∈ (cl.Do net typ decodeImagesResult v).sent →
      net.clientDo cl.Transport req = .ok res → res.StatusCode = 200 →
      res.Body = .object members → (∃ kv ∈ members, failingMember kv) →
      (cl.Do net typ decodeImagesResult v).err ≠ none) := by
  refine ⟨findField_eq_none_iff, Image_UnmarshalJSON_unknown, LatestResult_UnmarshalJSON_unknown,
    decodeLatestResults_unknown, fun v members h => decodeImagesResult_failing members v h, ?_⟩
  intro net cl typ v req res members hsent hres hstatus hbody hfail
  rw [Client_Do_ok_response net cl typ decodeImagesResult v req res hsent hres,
    if_neg (by simp [hstatus]), hbody]
  exact decodeImagesResult_failing members v hfail

/-- C3 at an image record, an artwork list, an albums map and a top-level object, each with
a key of no field. -/
theorem C3_strict_schema_witness :
    (Image.UnmarshalJSON ({} : Image)
        (.object [("id", .string "1"), ("width", .string "1000")])).2 ≠ none ∧
    (decodeImagesResult (.object [("name", .string "Fight Club"),
        ("moviethumb", .array [.object [("id", .string "1"), ("width", .string "1000")]])])
      ({} : ImagesResult)).2 ≠ none ∧
    (decodeImagesResult (.object [("albums", .object [("a", .object [("cdart",
        .array [.object [("id", .string "1"), ("width", .string "1000")]])])])])
      ({} : ImagesResult)).2 ≠ none ∧
    (decodeImagesResult (.object [("name", .string "Fight Club"), ("year", .string "1999")])
      ({} : ImagesResult)).2 ≠ none :=
  ⟨C3_strict_schema.2.1 _ _ ⟨("width", .string "1000"), by simp, by decide⟩,
   C3_strict_schema.2.2.2.2.1 _ _ ⟨("moviethumb", _), List.mem_cons_of_mem _ (List.mem_singleton_self _),
     Or.inr (Or.inl ⟨"moviethumb", by decide, by decide, _, rfl, _, List.mem_singleton_self _,
       _, rfl, ("width", .string "1000"), by simp, by decide⟩)⟩,
   C3_strict_schema.2.2.2.2.1 _ _ ⟨("albums", _), List.mem_singleton_self _,
     Or.inr (Or.inr ⟨by decide, _, rfl, ("a", _), List.mem_singleton_self _, _, rfl,
       ("cdart", _), List.mem_singleton_self _, _, rfl, _, List.mem_singleton_self _,
       _, rfl, ("width", .string "1000"), by simp, by decide⟩)⟩,
   C3_strict_schema.2.2.2.2.1 _ _ ⟨("year", .string "1999"), by simp, Or.inl (by decide)⟩⟩

/-- C4. URL rewriting in `Image.UnmarshalJSON`: when decoding an object succeeds, a url text
`"http://" ++ rest` is decoded as `"https://" ++ rest`, a text that starts with `"https://"`
is decoded unchanged, and so is every text that does not start with `"http://"` (the empty
text of an absent field included). -/
theorem C4_url_rewriting (img : Image) (members : List (String × JSON)) :
    let r := Image.UnmarshalJSON img (.object members)
    let url := (fieldText image.names members "url").getD ""
    r.2 = none →
      (∀ rest, url = "http://" ++ rest → r.1.URL = "https://" ++ rest) ∧
      ((∃ rest, url = "https://" ++ rest) → r.1.URL = url) ∧
      ((¬ ∃ rest, url = "http://" ++ rest) → r.1.URL = url) := by
  intro r url hok
  obtain ⟨v, hst, hl, hse, hd, hz⟩ := (Image_UnmarshalJSON_ok_iff _ _).1 hok
  obtain ⟨-, hURL, -⟩ := image_stage1_fields members v none hst
  have hres := Image_UnmarshalJSON_ok img _ v hst hl hse hd hz
  have hu : url = v.URL := hURL.symm
  have hr : r = Image.UnmarshalJSON img (.object members) := rfl
  have h3 : (¬ ∃ rest, url = "http://" ++ rest) → r.1.URL = url := by
    intro hno
    rw [hr, hres, hu]
    have : ¬ (HasPrefix v.URL "http://" = true) := by
      rw [HasPrefix_iff, ← hu]; exact hno
    show (if HasPrefix v.URL "http://" = true then _ else v.URL) = v.URL
    rw [if_neg this]
  refine ⟨?_, ?_, h3⟩
  · intro rest hrest
    rw [hr, hres]
    have hv : v.URL = "http://" ++ rest := by rw [← hu, hrest]
    show (if HasPrefix v.URL "http://" = true then "https://" ++ TrimPrefix v.URL "http://"
      else v.URL) = "https://" ++ rest
    rw [hv, if_pos ((HasPrefix_iff _ _).2 ⟨rest, rfl⟩), TrimPrefix_append]
  · rintro ⟨rest, hrest⟩
    apply h3
    rw [hrest]
    exact https_not_http rest

/-- C4 at the url `http://x/img.jpg`. -/
theorem C4_url_rewriting_witness :
    (Image.UnmarshalJSON ({} : Image) (.object [("url", .string "http://x/img.jpg")])).1.URL =
      "https://x/img.jpg" :=
  (C4_url_rewriting ({} : Image) [("url", .string "http://x/img.jpg")] (by decide)).1
    "x/img.jpg" (by decide)

/-- C5. `ImagesResult.ID` returns the first non-empty field in the order MbID, TvdbID, ImdbID,
TmdbID, and FanartID (possibly empty) when these four are all empty. -/
theorem C5_images_result_id (res : ImagesResult) :
    (res.MbID ≠ "" → res.ID = res.MbID) ∧
    (res.MbID = "" → res.TvdbID ≠ "" → res.ID = res.TvdbID) ∧
    (res.MbID = "" → res.TvdbID = "" → res.ImdbID ≠ "" → res.ID = res.ImdbID) ∧
    (res.MbID = "" → res.TvdbID = "" → res.ImdbID = "" → res.TmdbID ≠ "" →
      res.ID = res.TmdbID) ∧
    (res.MbID = "" → res.TvdbID = "" → res.ImdbID = "" → res.TmdbID = "" →
      res.ID = res.FanartID) := by
  unfold ImagesResult.ID
  refine ⟨?_, ?_, ?_, ?_, ?_⟩
  · intro h; simp [h]
  · intro h1 h2; simp [h1, h2]
  · intro h1 h2 h3; simp [h1, h2, h3]
  · intro h1 h2 h3 h4; simp [h1, h2, h3, h4]
  · intro h1 h2 h3 h4; simp [h1, h2, h3, h4]

/-- C5 at three results: all ids set, only IMDb and internal id set, only internal id. -/
theorem C5_images_result_id_witness :
    ({ MbID := "mb", TvdbID := "tv", ImdbID := "tt", TmdbID := "10", FanartID := "f" } :
      ImagesResult).ID = "mb" ∧
    ({ ImdbID := "tt0137523", FanartID := "f" } : ImagesResult).ID = "tt0137523" ∧
    ({ FanartID := "f" } : ImagesResult).ID = "f" :=
  ⟨(C5_images_result_id _).1 (by decide),
   (C5_images_result_id _).2.2.1 rfl rfl (by decide),
   (C5_images_result_id _).2.2.2.2 rfl rfl rfl rfl⟩

/-- C6. `LatestResult.ID` returns ImdbID when it is non-empty, otherwise TmdbID when that is
non-empty, otherwise FanartID. -/
theorem C6_latest_result_id (res : LatestResult) :
    (res.ImdbID ≠ "" → res.ID = res.ImdbID) ∧
    (res.ImdbID = "" → res.TmdbID ≠ "" → res.ID = res.TmdbID) ∧
    (res.ImdbID = "" → res.TmdbID = "" → res.ID = res.FanartID) := by
  unfold LatestResult.ID
  refine ⟨?_, ?_, ?_⟩
  · intro h; simp [h]
  · intro h1 h2; simp [h1, h2]
  · intro h1 h2; simp [h1, h2]

/-- C6 at three results: all ids set, TMDb and internal id set, only internal id. -/
theorem C6_latest_result_id_witness :
    ({ ImdbID := "tt1", TmdbID := "2", FanartID := "3" } : LatestResult).ID = "tt1" ∧
    ({ TmdbID := "2", FanartID := "3" } : LatestResult).ID = "2" ∧
    ({ FanartID := "3" } : LatestResult).ID = "3" :=
  ⟨(C6_latest_result_id _).1 (by decide), (C6_latest_result_id _).2.1 rfl (by decide),
   (C6_latest_result_id _).2.2 rfl rfl⟩

/-- C7. `Type.ApiType` sends the five query types to the five path segments, and no two of
the five types share a segment. -/
theorem C7_api_type :
    Movie.ApiType = "movies" ∧ Series.ApiType = "tv" ∧ MusicArtist.ApiType = "music" ∧
    MusicAlbum.ApiType = "music/albums" ∧ MusicLabel.ApiType = "music/labels" ∧
    (∀ a ∈ [Movie, Series, MusicArtist, MusicAlbum, MusicLabel],
      ∀ b ∈ [Movie, Series, MusicArtist, MusicAlbum, MusicLabel],
      a.ApiType = b.ApiType → a = b) ∧
    (∀ seg ∈ ["movies", "tv", "music", "music/albums", "music/labels"],
      ∃ a ∈ [Movie, Series, MusicArtist, MusicAlbum, MusicLabel], a.ApiType = seg) := by
  refine ⟨by decide, by decide, by decide, by decide, by decide, by decide, by decide⟩

/-- C8. Endpoint construction.  `Images(typ, id)` runs `Client.Do` on the relative path
`typ.ApiType() ++ "/" ++ id` and `Latest(typ)` on `typ.ApiType() ++ "/latest"`; `Client.Do`
builds its request with method GET for the URL `"https://webservice.fanart.tv/v3/" ++ path`,
so that every request handed to the HTTP client has this method and URL, and exactly one
request is handed over whenever `net/http` builds the request. -/
theorem C8_endpoint_construction (net : Net) (cl : Client) (typ : Typ) (id : String) :
    ((Images typ id).Do net cl).sent =
      (cl.Do net (typ.ApiType ++ "/" ++ id) decodeImagesResult ({} : ImagesResult)).sent ∧
    ((Images typ id).Do net cl).err =
      (cl.Do net (typ.ApiType ++ "/" ++ id) decodeImagesResult ({} : ImagesResult)).err ∧
    ((Latest typ).Do net cl).sent =
      (cl.Do net (typ.ApiType ++ "/latest") decodeLatestResults []).sent ∧
    ((Latest typ).Do net cl).err =
      (cl.Do net (typ.ApiType ++ "/latest") decodeLatestResults []).err ∧
    (∀ (α : Type) (path : String) (decode : JSON → α → α × Option GoError) (v : α),
      (∀ req ∈ (cl.Do net path decode v).sent,
        req.Method = "GET" ∧ req.URL = "https://webservice.fanart.tv/v3/" ++ path) ∧
      (net.newRequestError "GET" ("https://webservice.fanart.tv/v3/" ++ path) = none →
        (cl.Do net path decode v).sent.length = 1) ∧
      (∀ e, net.newRequestError "GET" ("https://webservice.fanart.tv/v3/" ++ path) = some e →
        (cl.Do net path decode v).sent = [] ∧ (cl.Do net path decode v).err = some e)) ∧
    (∀ req ∈ ((Images typ id).Do net cl).sent,
      req.Method = "GET" ∧
      req.URL = "https://webservice.fanart.tv/v3/" ++ (typ.ApiType ++ "/" ++ id)) ∧
    (∀ req ∈ ((Latest typ).Do net cl).sent,
      req.Method = "GET" ∧
      req.URL = "https://webservice.fanart.tv/v3/" ++ (typ.ApiType ++ "/latest")) := by
  have hgen : ∀ (α : Type) (path : String) (decode : JSON → α → α × Option GoError) (v : α),
      ∀ req ∈ (cl.Do net path decode v).sent,
        req.Method = "GET" ∧ req.URL = "https://webservice.fanart.tv/v3/" ++ path := by
    intro α path decode v req hreq
    rw [Client_Do_sent_mem net cl path decode v req hreq]
    exact ⟨rfl, rfl⟩
  refine ⟨ImagesRequest_Do_sent _ net cl, ImagesRequest_Do_err _ net cl,
    LatestRequest_Do_sent _ net cl, LatestRequest_Do_err _ net cl, ?_, ?_, ?_⟩
  · intro α path decode v
    refine ⟨hgen α path decode v, ?_, ?_⟩
    · intro h; rw [Client_Do_sent, if_pos h]; rfl
    · intro e h; rw [Client_Do_request_error net cl path decode v e h]; exact ⟨rfl, rfl⟩
  · intro req hreq
    rw [ImagesRequest_Do_sent] at hreq
    exact hgen _ _ _ _ req hreq
  · intro req hreq
    rw [LatestRequest_Do_sent] at hreq
    exact hgen _ _ _ _ req hreq

/-- C8 at `Images(Movie, "tt0137523")`: one GET request, for
`https://webservice.fanart.tv/v3/movies/tt0137523`. -/
theorem C8_endpoint_construction_witness :
    ∃ req, ((Images Movie "tt0137523").Do (answering ⟨200, .null⟩) ({} : Client)).sent = [req] ∧
      req.Method = "GET" ∧ req.URL = "https://webservice.fanart.tv/v3/movies/tt0137523" := by
  have h := C8_endpoint_construction (answering ⟨200, .null⟩) ({} : Client) Movie "tt0137523"
  have hlen := (h.2.2.2.2.1 ImagesResult (Movie.ApiType ++ "/" ++ "tt0137523")
    decodeImagesResult ({} : ImagesResult)).2.1 rfl
  rw [← h.1] at hlen
  obtain ⟨req, hreq⟩ := List.length_eq_one.1 hlen
  have hurl : "https://webservice.fanart.tv/v3/" ++ (Movie.ApiType ++ "/" ++ "tt0137523") =
      "https://webservice.fanart.tv/v3/movies/tt0137523" := by decide
  have hm := h.2.2.2.2.2.1 req (by rw [hreq]; exact List.mem_singleton_self _)
  rw [hurl] at hm
  exact ⟨req, hreq, hm⟩

/-- C9. Status check in `Client.Do`.  When the HTTP client answers the request with a
response whose status code `n` is not 200, `Client.Do` returns the error with message
`status n != 200`, leaves the target as it was and does not depend on the decoder (the body
is not decoded); `ImagesRequest.Do` and `LatestRequest.Do` then return a nil result with
that error.  When the status is 200 the target and the error are those of decoding the
body. -/
theorem C9_status_check :
    (∀ (α : Type) (net : Net) (cl : Client) (typ : String)
      (decode : JSON → α → α × Option GoError) (v : α) (req : Request) (res : Response),
      req ∈ (cl.Do net typ decode v).sent → net.clientDo cl.Transport req = .ok res →
      (res.StatusCode ≠ 200 →
        (cl.Do net typ decode v).err.map GoError.Error =
          some ("status " ++ toString res.StatusCode ++ " != 200") ∧
        (cl.Do net typ decode v).v = v ∧
        (∀ decode', cl.Do net typ decode' v = cl.Do net typ decode v)) ∧
      (res.StatusCode = 200 →
        (cl.Do net typ decode v).v = (decode res.Body v).1 ∧
        (cl.Do net typ decode v).err = (decode res.Body v).2)) ∧
    (∀ (net : Net) (cl : Client) (ireq : ImagesRequest) (req : Request) (res : Response),
      req ∈ (ireq.Do net cl).sent → net.clientDo cl.Transport req = .ok res →
      res.StatusCode ≠ 200 →
      (ireq.Do net cl).v = none ∧
      (ireq.Do net cl).err.map GoError.Error =
        some ("status " ++ toString res.StatusCode ++ " != 200")) ∧
    (∀ (net : Net) (cl : Client) (lreq : LatestRequest) (req : Request) (res : Response),
      req ∈ (lreq.Do net cl).sent → net.clientDo cl.Transport req = .ok res →
      res.StatusCode ≠ 200 →
      (lreq.Do net cl).v = [] ∧
      (lreq.Do net cl).err.map GoError.Error =
        some ("status " ++ toString res.StatusCode ++ " != 200")) ∧
    (∀ (net : Net) (cl : Client) (ireq : ImagesRequest) (req : Request) (res : Response),
      req ∈ (ireq.Do net cl).sent → net.clientDo cl.Transport req = .ok res →
      res.StatusCode = 200 →
      (ireq.Do net cl).err = (decodeImagesResult res.Body ({} : ImagesResult)).2 ∧
      ((decodeImagesResult res.Body ({} : ImagesResult)).2 = none →
        (ireq.Do net cl).v = some (decodeImagesResult res.Body ({} : ImagesResult)).1) ∧
      ((decodeImagesResult res.Body ({} : ImagesResult)).2 ≠ none →
        (ireq.Do net cl).v = none)) ∧
    (∀ (net : Net) (cl : Client) (lreq : LatestRequest) (req : Request) (res : Response),
      req ∈ (lreq.Do net cl).sent → net.clientDo cl.Transport req = .ok res →
      res.StatusCode = 200 →
      (lreq.Do net cl).err = (decodeLatestResults res.Body []).2 ∧
      ((decodeLatestResults res.Body []).2 = none →
        (lreq.Do net cl).v = (decodeLatestResults res.Body []).1) ∧
      ((decodeLatestResults res.Body []).2 ≠ none → (lreq.Do net cl).v = [])) := by
  have hbad : ∀ (α : Type) (net : Net) (cl : Client) (typ : String)
      (decode : JSON → α → α × Option GoError) (v : α) (req : Request) (res : Response),
      req ∈ (cl.Do net typ decode v).sent → net.clientDo cl.Transport req = .ok res →
      res.StatusCode ≠ 200 →
      cl.Do net typ decode v =
        ⟨[req], v, some (.errorString ("status " ++ toString res.StatusCode ++ " != 200"))⟩ := by
    intro α net cl typ decode v req res hsent hres hs
    rw [Client_Do_ok_response net cl typ decode v req res hsent hres, if_pos hs]
  have hgood : ∀ (α : Type) (net : Net) (cl : Client) (typ : String)
      (decode : JSON → α → α × Option GoError) (v : α) (req : Request) (res : Response),
      req ∈ (cl.Do net typ decode v).sent → net.clientDo cl.Transport req = .ok res →
      res.StatusCode = 200 →
      cl.Do net typ decode v = ⟨[req], (decode res.Body v).1, (decode res.Body v).2⟩ := by
    intro α net cl typ decode v req res hsent hres hs
    rw [Client_Do_ok_response net cl typ decode v req res hsent hres, if_neg (by simp [hs])]
  refine ⟨?_, ?_, ?_, ?_, ?_⟩
  · intro α net cl typ decode v req res hsent hres
    refine ⟨?_, ?_⟩
    · intro hs
      have h := hbad α net cl typ decode v req res hsent hres hs
      refine ⟨by rw [h]; rfl, by rw [h], ?_⟩
      intro decode'
      have hsent' : req ∈ (cl.Do net typ decode' v).sent := by
        rw [Client_Do_sent] at hsent ⊢; exact hsent
      rw [h, hbad α net cl typ decode' v req res hsent' hres hs]
    · intro hs
      rw [Client_Do_ok_response net cl typ decode v req res hsent hres,
        if_neg (by simp [hs])]
      exact ⟨rfl, rfl⟩
  · intro net cl ireq req res hsent hres hs
    rw [ImagesRequest_Do_sent] at hsent
    have h := hbad _ net cl _ decodeImagesResult ({} : ImagesResult) req res hsent hres hs
    unfold ImagesRequest.Do
    rw [h]
    exact ⟨rfl, rfl⟩
  · intro net cl lreq req res hsent hres hs
    rw [LatestRequest_Do_sent] at hsent
    have h := hbad _ net cl _ decodeLatestResults [] req res hsent hres hs
    unfold LatestRequest.Do
    rw [h]
    exact ⟨rfl, rfl⟩
  · intro net cl ireq req res hsent hres hs
    rw [ImagesRequest_Do_sent] at hsent
    have h := hgood _ net cl _ decodeImagesResult ({} : ImagesResult) req res hsent hres hs
    unfold ImagesRequest.Do
    rw [h]
    simp only []
    cases hd : (decodeImagesResult res.Body ({} : ImagesResult)).2 with
    | none => simp
    | some e => simp
  · intro net cl lreq req res hsent hres hs
    rw [LatestRequest_Do_sent] at hsent
    have h := hgood _ net cl _ decodeLatestResults [] req res hsent hres hs
    unfold LatestRequest.Do
    rw [h]
    simp only []
    cases hd : (decodeLatestResults res.Body []).2 with
    | none => simp
    | some e => simp

/-- C9 at a response with status 404. -/
theorem C9_status_check_witness :
    ((Images Movie "tt0137523").Do (answering ⟨404, .null⟩) ({} : Client)).v = none ∧
    ((Images Movie "tt0137523").Do (answering ⟨404, .null⟩) ({} : Client)).err.map
      GoError.Error = some "status 404 != 200" :=
  C9_status_check.2.1 (answering ⟨404, .null⟩) ({} : Client) (Images Movie "tt0137523")
    (expectedRequest ({} : Client) "movies/tt0137523") ⟨404, .null⟩ (by decide) rfl (by decide)

/-- C10. Request headers built by `Client.Do`.  Every request handed to the HTTP client
carries `Accept: application/json`; it carries `api-key` with value `ApiKey` exactly when
`ApiKey` is non-empty and `client-key` with value `ClientKey` exactly when `ClientKey` is
non-empty; and its header holds no other name. -/
theorem C10_request_headers (α : Type) (net : Net) (cl : Client) (typ : String)
    (decode : JSON → α → α × Option GoError) (v : α) (req : Request)
    (h : req ∈ (cl.Do net typ decode v).sent) :
    req.Header.Values "Accept" = ["application/json"] ∧
    (cl.ApiKey ≠ "" → req.Header.Values "api-key" = [cl.ApiKey]) ∧
    (cl.ApiKey = "" → req.Header.Values "api-key" = []) ∧
    (cl.ClientKey ≠ "" → req.Header.Values "client-key" = [cl.ClientKey]) ∧
    (cl.ClientKey = "" → req.Header.Values "client-key" = []) ∧
    (∀ e ∈ req.Header, e.1 = CanonicalMIMEHeaderKey "Accept" ∨
      (e.1 = CanonicalMIMEHeaderKey "api-key" ∧ cl.ApiKey ≠ "") ∨
      (e.1 = CanonicalMIMEHeaderKey "client-key" ∧ cl.ClientKey ≠ "")) ∧
    req.Header =
      [("Accept", ["application/json"])] ++
        (if cl.ApiKey ≠ "" then [("Api-Key", [cl.ApiKey])] else []) ++
        (if cl.ClientKey ≠ "" then [("Client-Key", [cl.ClientKey])] else []) := by
  rw [Client_Do_sent_mem net cl typ decode v req h]
  unfold expectedRequest expectedHeader
  refine ⟨?_, ?_, ?_, ?_, ?_, ?_, rfl⟩
  · simp [Header.Values, canonical_accept]
  · intro ha
    by_cases hc : cl.ClientKey = "" <;>
      simp [Header.Values, canonical_api_key, ha, hc]
  · intro ha
    by_cases hc : cl.ClientKey = "" <;>
      simp [Header.Values, canonical_api_key, ha, hc]
  · intro hc
    by_cases ha : cl.ApiKey = "" <;>
      simp [Header.Values, canonical_client_key, ha, hc]
  · intro hc
    by_cases ha : cl.ApiKey = "" <;>
      simp [Header.Values, canonical_client_key, ha, hc]
  · intro e he
    rw [canonical_accept, canonical_api_key, canonical_client_key]
    by_cases ha : cl.ApiKey = "" <;> by_cases hc : cl.ClientKey = "" <;>
      simp [ha, hc] at he ⊢ <;> aesop

/-- C10 at a client with API key `k` and no client key. -/
theorem C10_request_headers_witness :
    expectedRequest { ApiKey := "k" } "movies/1" ∈
      (Client.Do (answering ⟨200, .null⟩) { ApiKey := "k" } "movies/1" decodeImagesResult
        ({} : ImagesResult)).sent ∧
    (expectedRequest { ApiKey := "k" } "movies/1").Header.Values "Accept" =
      ["application/json"] ∧
    (expectedRequest { ApiKey := "k" } "movies/1").Header.Values "api-key" = ["k"] ∧
    (expectedRequest { ApiKey := "k" } "movies/1").Header.Values "client-key" = [] :=
  have h := C10_request_headers ImagesResult (answering ⟨200, .null⟩) { ApiKey := "k" }
    "movies/1" decodeImagesResult ({} : ImagesResult)
    (expectedRequest { ApiKey := "k" } "movies/1") (by decide)
  ⟨by decide, h.1, h.2.1 (by decide), h.2.2.2.2.1 rfl⟩

/-- C11. End-to-end decode scenario: strict decoding of the Fight Club object into a fresh
`ImagesResult` succeeds and gives the name `Fight Club`, the id `tt0137523` and exactly one
movie thumb, with 12 likes, disc 0, size 500 and the URL `https://x/img.jpg`. -/
theorem C11_fight_club :
    (decodeImagesResult fightClub ({} : ImagesResult)).2 = none ∧
    (decodeImagesResult fightClub ({} : ImagesResult)).1.Name = "Fight Club" ∧
    (decodeImagesResult fightClub ({} : ImagesResult)).1.ID = "tt0137523" ∧
    (decodeImagesResult fightClub ({} : ImagesResult)).1.MovieThumb.length = 1 ∧
    (decodeImagesResult fightClub ({} : ImagesResult)).1.MovieThumb.map
        (fun img => (img.Likes, img.Disc, img.Size, img.URL)) =
      [(12, 0, 500, "https://x/img.jpg")] ∧
    (decodeImagesResult fightClub ({} : ImagesResult)).1.MovieThumb =
      [{ ID := "1", URL := "https://x/img.jpg", Likes := 12, Disc := 0, Size := 500 }] := by
  refine ⟨by decide, by decide, by decide, by decide, by decide, by decide⟩

theorem https_no_http_start (rest : String) (r : String) :
    "https://" ++ rest ≠ "http://" ++ r := by
  intro h
  have := congrArg String.data h
  simp [String.data_append] at this

/-- C16. URL invariant: whenever `Image.UnmarshalJSON` succeeds, on any receiver and any
input, the resulting URL does not begin with `http://`.  The url text `http://http://x` is
decoded as `https://http://x`. -/
theorem C16_url_invariant :
    (∀ (img : Image) (buf : JSON), (Image.UnmarshalJSON img buf).2 = none →
      ¬ ∃ rest, (Image.UnmarshalJSON img buf).1.URL = "http://" ++ rest) ∧
    (∀ (img : Image) (buf : JSON), (Image.UnmarshalJSON img buf).2 = none →
      HasPrefix (Image.UnmarshalJSON img buf).1.URL "http://" = false) ∧
    Image.UnmarshalJSON ({} : Image) (.object [("url", .string "http://http://x")]) =
      ({ URL := "https://http://x" }, none) := by
  have key : ∀ (img : Image) (buf : JSON), (Image.UnmarshalJSON img buf).2 = none →
      ¬ ∃ rest, (Image.UnmarshalJSON img buf).1.URL = "http://" ++ rest := by
    intro img buf hok
    obtain ⟨v, hst, hl, hse, hd, hz⟩ := (Image_UnmarshalJSON_ok_iff _ _).1 hok
    rw [Image_UnmarshalJSON_ok img buf v hst hl hse hd hz]
    show ¬ ∃ rest, (if HasPrefix v.URL "http://" = true then
      "https://" ++ TrimPrefix v.URL "http://" else v.URL) = "http://" ++ rest
    by_cases hp : HasPrefix v.URL "http://" = true
    · rw [if_pos hp]
      rintro ⟨rest, h⟩
      exact https_no_http_start _ _ h
    · rw [if_neg hp]
      rw [HasPrefix_iff] at hp
      exact hp
  refine ⟨key, ?_, by decide⟩
  intro img buf hok
  have := key img buf hok
  rw [← HasPrefix_iff] at this
  simpa using this

/-- C16 at the url `http://http://x`. -/
theorem C16_url_invariant_witness :
    ¬ ∃ rest, (Image.UnmarshalJSON ({} : Image)
      (.object [("url", .string "http://http://x")])).1.URL = "http://" ++ rest :=
  C16_url_invariant.1 ({} : Image) (.object [("url", .string "http://http://x")]) (by decide)

/-- C17. Client construction: `New` without options gives the zero client; `WithApiKey`,
`WithClientKey` and `WithTransport` each set their own field and leave the other two as they
were; options are applied in argument order, so the last option that writes a field decides
its value. -/
theorem C17_client_construction :
    ((New []).ApiKey = "" ∧ (New []).ClientKey = "" ∧ (New []).Transport.isNone = true) ∧
    (∀ (cl : Client) (k : String),
      (WithApiKey k cl).ApiKey = k ∧ (WithApiKey k cl).ClientKey = cl.ClientKey ∧
      (WithApiKey k cl).Transport = cl.Transport) ∧
    (∀ (cl : Client) (k : String),
      (WithClientKey k cl).ClientKey = k ∧ (WithClientKey k cl).ApiKey = cl.ApiKey ∧
      (WithClientKey k cl).Transport = cl.Transport) ∧
    (∀ (cl : Client) (t : Option RoundTripper),
      (WithTransport t cl).Transport = t ∧ (WithTransport t cl).ApiKey = cl.ApiKey ∧
      (WithTransport t cl).ClientKey = cl.ClientKey) ∧
    (∀ (opts : List ClientOption) (o : ClientOption), New (opts ++ [o]) = o (New opts)) ∧
    (∀ (o1 o2 : ClientOption), New [o1, o2] = o2 (o1 (New []))) ∧
    (∀ (pre post : List ClientOption) (k : String),
      (∀ o ∈ post, ∀ cl, (o cl).ApiKey = cl.ApiKey) →
      (New (pre ++ WithApiKey k :: post)).ApiKey = k) ∧
    (∀ (pre post : List ClientOption) (k : String),
      (∀ o ∈ post, ∀ cl, (o cl).ClientKey = cl.ClientKey) →
      (New (pre ++ WithClientKey k :: post)).ClientKey = k) ∧
    (∀ (pre post : List ClientOption) (t : Option RoundTripper),
      (∀ o ∈ post, ∀ cl, (o cl).Transport = cl.Transport) →
      (New (pre ++ WithTransport t :: post)).Transport = t) := by
  have frame : ∀ {β : Type} (f : Client → β) (post : List ClientOption),
      (∀ o ∈ post, ∀ cl, f (o cl) = f cl) →
      ∀ cl, f (post.foldl (fun cl o => o cl) cl) = f cl := by
    intro β f post
    induction post with
    | nil => intro _ cl; rfl
    | cons o os ih =>
      intro h cl
      simp only [List.foldl_cons]
      rw [ih (fun o' ho' => h o' (List.mem_cons_of_mem _ ho')) (o cl)]
      exact h o (List.mem_cons_self _ _) cl
  refine ⟨⟨rfl, rfl, rfl⟩, fun cl k => ⟨rfl, rfl, rfl⟩, fun cl k => ⟨rfl, rfl, rfl⟩,
    fun cl t => ⟨rfl, rfl, rfl⟩, ?_, fun o1 o2 => rfl, ?_, ?_, ?_⟩
  · intro opts o
    simp [New, List.foldl_append]
  · intro pre post k h
    simp only [New, List.foldl_append, List.foldl_cons]
    rw [frame Client.ApiKey post h]
    rfl
  · intro pre post k h
    simp only [New, List.foldl_append, List.foldl_cons]
    rw [frame Client.ClientKey post h]
    rfl
  · intro pre post t h
    simp only [New, List.foldl_append, List.foldl_cons]
    rw [frame Client.Transport post h]
    rfl

/-- C17 at `New(WithApiKey("a"), WithClientKey("c"), WithApiKey("b"))`. -/
theorem C17_client_construction_witness :
    (New [WithApiKey "a", WithClientKey "c", WithApiKey "b"]).ApiKey = "b" :=
  C17_client_construction.2.2.2.2.2.2.1 [WithApiKey "a", WithClientKey "c"] [] "b"
    (fun _ h => absurd h (List.not_mem_nil _))

theorem append_left_cancel_string (a b c : String) : a ++ b = a ++ c ↔ b = c := by
  constructor
  · intro h
    have := congrArg String.data h
    simp only [String.data_append, List.append_cancel_left_eq] at this
    exact String.ext this
  · intro h; rw [h]

theorem path_latest_iff (a id : String) : a ++ "/" ++ id = a ++ "/latest" ↔ id = "latest" := by
  have e : a ++ "/latest" = a ++ "/" ++ "latest" := by
    apply String.ext
    simp [String.data_append]
  rw [e, append_left_cancel_string]

theorem Client_Do_sent_congr {α β : Type} (net : Net) (cl : Client) (typ : String)
    (d1 : JSON → α → α × Option GoError) (v1 : α) (d2 : JSON → β → β × Option GoError)
    (v2 : β) : (cl.Do net typ d1 v1).sent = (cl.Do net typ d2 v2).sent := by
  rw [Client_Do_sent, Client_Do_sent]

/-- C19. The mapping from requests to endpoint paths is not injective.  The requests
`Images(MusicArtist, "albums/" ++ x)` and `Images(MusicAlbum, x)` have the same path
`"music/albums/" ++ x` and the same outcome; `Images(typ, "latest")` hands the HTTP client
the same requests as `Latest(typ)`; and the path of `Images(typ, id)` is the path of
`Latest(typ)` exactly when `id` is `latest`. -/
theorem C19_paths_not_injective :
    (∀ x : String,
      MusicArtist.ApiType ++ "/" ++ ("albums/" ++ x) = "music/albums/" ++ x ∧
      MusicAlbum.ApiType ++ "/" ++ x = "music/albums/" ++ x) ∧
    (∀ (net : Net) (cl : Client) (x : String),
      (Images MusicArtist ("albums/" ++ x)).Do net cl = (Images MusicAlbum x).Do net cl) ∧
    (∀ (net : Net) (cl : Client) (typ : Typ),
      ((Images typ "latest").Do net cl).sent = ((Latest typ).Do net cl).sent) ∧
    (∀ (typ : Typ) (id : String),
      typ.ApiType ++ "/" ++ id = typ.ApiType ++ "/latest" ↔ id = "latest") ∧
    (∀ (net : Net) (cl : Client) (typ : Typ) (id : String) (r1 r2 : Request),
      r1 ∈ ((Images typ id).Do net cl).sent → r2 ∈ ((Latest typ).Do net cl).sent →
      (r1.URL = r2.URL ↔ id = "latest")) := by
  have hpath : ∀ x : String,
      MusicArtist.ApiType ++ "/" ++ ("albums/" ++ x) = "music/albums/" ++ x ∧
      MusicAlbum.ApiType ++ "/" ++ x = "music/albums/" ++ x := by
    intro x
    have h1 : MusicArtist.ApiType = "music" := by decide
    have h2 : MusicAlbum.ApiType = "music/albums" := by decide
    rw [h1, h2]
    constructor <;> apply String.ext <;> simp [String.data_append]
  refine ⟨hpath, ?_, ?_, fun typ id => path_latest_iff _ _, ?_⟩
  · intro net cl x
    unfold ImagesRequest.Do Images
    simp only []
    rw [(hpath x).1, (hpath x).2]
  · intro net cl typ
    rw [ImagesRequest_Do_sent, LatestRequest_Do_sent]
    have e : (Images typ "latest").Type'.ApiType ++ "/" ++ (Images typ "latest").Query =
        (Latest typ).Type'.ApiType ++ "/latest" := (path_latest_iff typ.ApiType "latest").2 rfl
    rw [e]
    exact Client_Do_sent_congr _ _ _ _ _ _ _
  · intro net cl typ id r1 r2 h1 h2
    rw [ImagesRequest_Do_sent] at h1
    rw [LatestRequest_Do_sent] at h2
    rw [Client_Do_sent_mem _ _ _ _ _ _ h1, Client_Do_sent_mem _ _ _ _ _ _ h2]
    show "https://webservice.fanart.tv/v3/" ++ (typ.ApiType ++ "/" ++ id) =
      "https://webservice.fanart.tv/v3/" ++ (typ.ApiType ++ "/latest") ↔ id = "latest"
    rw [append_left_cancel_string]
    exact path_latest_iff _ _

/-- C19 at the album `x1`: the artist request for `albums/x1` and the album request for `x1`
both ask for `https://webservice.fanart.tv/v3/music/albums/x1`. -/
theorem C19_paths_not_injective_witness :
    ((Images MusicArtist "albums/x1").Do (answering ⟨200, .null⟩) ({} : Client)).sent =
      ((Images MusicAlbum "x1").Do (answering ⟨200, .null⟩) ({} : Client)).sent ∧
    ((Images MusicAlbum "x1").Do (answering ⟨200, .null⟩) ({} : Client)).sent.map
      (fun r => r.URL) = ["https://webservice.fanart.tv/v3/music/albums/x1"] :=
  ⟨congrArg DoResult.sent
      (C19_paths_not_injective.2.1 (answering ⟨200, .null⟩) ({} : Client) "x1"),
    by decide⟩

theorem Typ_eq_iff (a b : Typ) : a = b ↔ a.val = b.val := by
  cases a; cases b; simp

/-- C20. `Type` is an open integer type.  For every value outside `0..4`, `ApiType` returns
`unknown` and `String` returns `Type(n)` with `n` written in decimal; `Images` and `Latest`
accept such a type and run `Client.Do` on the paths `"unknown/" ++ id` and
`unknown/latest`, with no error of their own.  For the five constants `String` returns
`movie`, `series`, `artist`, `album` and `label`. -/
theorem C20_open_type :
    (∀ typ : Typ, ¬ (0 ≤ typ.val ∧ typ.val ≤ 4) →
      typ.ApiType = "unknown" ∧ typ.String = "Type(" ++ toString typ.val ++ ")") ∧
    (∀ (typ : Typ) (net : Net) (cl : Client) (id : String), ¬ (0 ≤ typ.val ∧ typ.val ≤ 4) →
      ((Images typ id).Do net cl).sent =
        (cl.Do net ("unknown" ++ "/" ++ id) decodeImagesResult ({} : ImagesResult)).sent ∧
      ((Images typ id).Do net cl).err =
        (cl.Do net ("unknown" ++ "/" ++ id) decodeImagesResult ({} : ImagesResult)).err ∧
      ((Latest typ).Do net cl).sent =
        (cl.Do net "unknown/latest" decodeLatestResults []).sent ∧
      ((Latest typ).Do net cl).err =
        (cl.Do net "unknown/latest" decodeLatestResults []).err ∧
      (∀ req ∈ ((Images typ id).Do net cl).sent,
        req.URL = "https://webservice.fanart.tv/v3/" ++ ("unknown" ++ "/" ++ id)) ∧
      (∀ req ∈ ((Latest typ).Do net cl).sent,
        req.URL = "https://webservice.fanart.tv/v3/unknown/latest")) ∧
    (Movie.String = "movie" ∧ Series.String = "series" ∧ MusicArtist.String = "artist" ∧
      MusicAlbum.String = "album" ∧ MusicLabel.String = "label") ∧
    (Movie.val = 0 ∧ Series.val = 1 ∧ MusicArtist.val = 2 ∧ MusicAlbum.val = 3 ∧
      MusicLabel.val = 4) := by
  have h1 : ∀ typ : Typ, ¬ (0 ≤ typ.val ∧ typ.val ≤ 4) →
      typ.ApiType = "unknown" ∧ typ.String = "Type(" ++ toString typ.val ++ ")" := by
    intro typ h
    have n0 : typ ≠ Movie := by rw [Ne, Typ_eq_iff]; simp only [Movie]; omega
    have n1 : typ ≠ Series := by rw [Ne, Typ_eq_iff]; simp only [Series]; omega
    have n2 : typ ≠ MusicArtist := by rw [Ne, Typ_eq_iff]; simp only [MusicArtist]; omega
    have n3 : typ ≠ MusicAlbum := by rw [Ne, Typ_eq_iff]; simp only [MusicAlbum]; omega
    have n4 : typ ≠ MusicLabel := by rw [Ne, Typ_eq_iff]; simp only [MusicLabel]; omega
    unfold Typ.ApiType Typ.String
    simp only [n0, n1, n2, n3, n4, if_false, and_self]
  refine ⟨h1, ?_, by decide, by decide⟩
  intro typ net cl id h
  have ha := (h1 typ h).1
  have e1 : (Images typ id).Type'.ApiType ++ "/" ++ (Images typ id).Query =
      "unknown" ++ "/" ++ id := by
    show typ.ApiType ++ "/" ++ id = _
    rw [ha]
  have e2 : (Latest typ).Type'.ApiType ++ "/latest" = "unknown/latest" := by
    show typ.ApiType ++ "/latest" = _
    rw [ha]; decide
  refine ⟨?_, ?_, ?_, ?_, ?_, ?_⟩
  · rw [ImagesRequest_Do_sent, e1]
  · rw [ImagesRequest_Do_err, e1]
  · rw [LatestRequest_Do_sent, e2]
  · rw [LatestRequest_Do_err, e2]
  · intro req hreq
    rw [ImagesRequest_Do_sent, e1] at hreq
    rw [Client_Do_sent_mem _ _ _ _ _ _ hreq]
    rfl
  · intro req hreq
    rw [LatestRequest_Do_sent, e2] at hreq
    rw [Client_Do_sent_mem _ _ _ _ _ _ hreq]
    show "https://webservice.fanart.tv/v3/" ++ "unknown/latest" = _
    decide

/-- C20 at the values 7 and -3. -/
theorem C20_open_type_witness :
    (Typ.mk 7).ApiType = "unknown" ∧ (Typ.mk 7).String = "Type(7)" ∧
    (Typ.mk (-3)).ApiType = "unknown" ∧ (Typ.mk (-3)).String = "Type(-3)" :=
  ⟨(C20_open_type.1 ⟨7⟩ (by decide)).1, (C20_open_type.1 ⟨7⟩ (by decide)).2,
   (C20_open_type.1 ⟨-3⟩ (by decide)).1, (C20_open_type.1 ⟨-3⟩ (by decide)).2⟩

theorem latest_law (v : latest) (n s m : String) (hn : n ∈ latest.names)
    (hm : m ∈ latest.names) :
    latest.get (latest.set v n s) m = if m = n then s else latest.get v m := by
  simp only [latest.names, List.mem_cons, List.mem_singleton, List.not_mem_nil, or_false] at hn hm
  rcases hn with rfl | rfl | rfl | rfl | rfl | rfl <;>
    rcases hm with rfl | rfl | rfl | rfl | rfl | rfl <;>
    simp [latest.get, latest.set]

theorem latest_stage1_object (members : List (String × JSON)) :
    decodeStringStruct "fanartapi.latest" latest.names latest.get latest.set (.object members)
        ({} : latest) =
      decodeStringFields latest.names latest.get latest.set members ({} : latest) none := rfl

theorem latest_stage1_get (members : List (String × JSON)) (name : String)
    (hname : name ∈ latest.names) :
    latest.get (decodeStringFields latest.names latest.get latest.set members ({} : latest)
        none).1 name = (fieldText latest.names members name).getD "" := by
  rw [decodeStringFields_get latest.names latest.get latest.set latest_law members _ _ name
    hname]
  simp only [latest.names, List.mem_cons, List.mem_singleton, List.not_mem_nil, or_false] at hname
  rcases hname with rfl | rfl | rfl | rfl | rfl | rfl <;> rfl

/-- Field values of the local struct of `LatestResult.UnmarshalJSON` after the first stage,
for an object. -/
theorem latest_stage1_fields (members : List (String × JSON)) (v : latest)
    (e : Option GoError)
    (h : decodeStringStruct "fanartapi.latest" latest.names latest.get latest.set
      (.object members) ({} : latest) = (v, e)) :
    v.ID = (fieldText latest.names members "id").getD "" ∧
    v.TmdbID = (fieldText latest.names members "tmdb_id").getD "" ∧
    v.ImdbID = (fieldText latest.names members "imdb_id").getD "" ∧
    v.Name = (fieldText latest.names members "name").getD "" ∧
    v.NewImages = (fieldText latest.names members "new_images").getD "" ∧
    v.TotalImages = (fieldText latest.names members "total_images").getD "" := by
  rw [latest_stage1_object] at h
  have hv : v = (decodeStringFields latest.names latest.get latest.set members ({} : latest)
      none).1 := by rw [h]
  have key := fun name hname => latest_stage1_get members name hname
  rw [← hv] at key
  exact ⟨key "id" (by decide), key "tmdb_id" (by decide), key "imdb_id" (by decide),
    key "name" (by decide), key "new_images" (by decide), key "total_images" (by decide)⟩

theorem latest_stage1_ok_iff (members : List (String × JSON)) :
    (decodeStringStruct "fanartapi.latest" latest.names latest.get latest.set
      (.object members) ({} : latest)).2 = none ↔
      ∀ m ∈ members, findField latest.names m.1 ≠ none ∧ m.2.isStringOrNull = true := by
  rw [latest_stage1_object, decodeStringFields_ok_iff]
  simp

theorem LatestResult_UnmarshalJSON_new_err (res : LatestResult) (buf : JSON) (v : latest)
    (e : GoError)
    (h : decodeStringStruct "fanartapi.latest" latest.names latest.get latest.set buf
      ({} : latest) = (v, none))
    (hn : v.NewImages ≠ "") (he : (Atoi v.NewImages).2 = some e) :
    (LatestResult.UnmarshalJSON res buf).2 = some (.wrapError "invalid new_images: " e) := by
  unfold LatestResult.UnmarshalJSON
  rw [h]
  simp only [hn, ne_eq, not_false_eq_true, if_true, he]

theorem LatestResult_UnmarshalJSON_total_err (res : LatestResult) (buf : JSON) (v : latest)
    (e : GoError)
    (h : decodeStringStruct "fanartapi.latest" latest.names latest.get latest.set buf
      ({} : latest) = (v, none))
    (hn : numOK v.NewImages) (ht : v.TotalImages ≠ "") (he : (Atoi v.TotalImages).2 = some e) :
    (LatestResult.UnmarshalJSON res buf).2 = some (.wrapError "invalid total_images: " e) := by
  unfold LatestResult.UnmarshalJSON
  rw [h]
  have h1 := if_atoi_snd_none (v.NewImages ≠ "") v.NewImages res.NewImages
    ((numOK_iff _).1 hn)
  simp only [h1, ht, ne_eq, not_false_eq_true, if_true, he]

theorem LatestResult_UnmarshalJSON_ok (res : LatestResult) (buf : JSON) (v : latest)
    (h : decodeStringStruct "fanartapi.latest" latest.names latest.get latest.set buf
      ({} : latest) = (v, none))
    (hn : numOK v.NewImages) (ht : numOK v.TotalImages) :
    LatestResult.UnmarshalJSON res buf =
      ({ FanartID := v.ID, TmdbID := v.TmdbID, ImdbID := v.ImdbID, Name := v.Name,
         NewImages := if v.NewImages ≠ "" then (Atoi v.NewImages).1 else res.NewImages,
         TotalImages :=
           if v.TotalImages ≠ "" then (Atoi v.TotalImages).1 else res.TotalImages },
       none) := by
  unfold LatestResult.UnmarshalJSON
  rw [h]
  have h1 := if_atoi_snd_none (v.NewImages ≠ "") v.NewImages res.NewImages
    ((numOK_iff _).1 hn)
  have h2 := if_atoi_snd_none (v.TotalImages ≠ "") v.TotalImages res.TotalImages
    ((numOK_iff _).1 ht)
  simp only [h1, h2, apply_ite Prod.fst]

theorem LatestResult_UnmarshalJSON_ok_iff (res : LatestResult) (buf : JSON) :
    (LatestResult.UnmarshalJSON res buf).2 = none ↔
      ∃ v, decodeStringStruct "fanartapi.latest" latest.names latest.get latest.set buf
          ({} : latest) = (v, none) ∧ numOK v.NewImages ∧ numOK v.TotalImages := by
  constructor
  · intro hok
    cases h : decodeStringStruct "fanartapi.latest" latest.names latest.get latest.set buf
      ({} : latest) with
    | mk v e =>
      cases e with
      | some e =>
        rw [LatestResult_UnmarshalJSON_stage1_err res buf v e h] at hok
        cases hok
      | none =>
        refine ⟨v, rfl, ?_⟩
        have key : ∀ s : String, ¬ numOK s → s ≠ "" ∧ ∃ e, (Atoi s).2 = some e := by
          intro s hs
          unfold numOK at hs
          push_neg at hs
          refine ⟨hs.1, ?_⟩
          cases h2 : (Atoi s).2 with
          | none => exact absurd h2 hs.2
          | some e => exact ⟨e, rfl⟩
        by_cases hn : numOK v.NewImages
        · by_cases ht : numOK v.TotalImages
          · exact ⟨hn, ht⟩
          · obtain ⟨ht1, e, he⟩ := key _ ht
            rw [LatestResult_UnmarshalJSON_total_err res buf v e h hn ht1 he] at hok
            cases hok
        · obtain ⟨hn1, e, he⟩ := key _ hn
          rw [LatestResult_UnmarshalJSON_new_err res buf v e h hn1 he] at hok
          cases hok
  · rintro ⟨v, h, hn, ht⟩
    rw [LatestResult_UnmarshalJSON_ok res buf v h hn ht]

/-- What `LatestResult.UnmarshalJSON` has written once the first stage is through, whatever
the outcome of the numeric stage. -/
theorem LatestResult_UnmarshalJSON_written (res : LatestResult) (buf : JSON) (v : latest)
    (h : decodeStringStruct "fanartapi.latest" latest.names latest.get latest.set buf
      ({} : latest) = (v, none)) :
    (LatestResult.UnmarshalJSON res buf).1.FanartID = v.ID ∧
    (LatestResult.UnmarshalJSON res buf).1.TmdbID = v.TmdbID ∧
    (LatestResult.UnmarshalJSON res buf).1.ImdbID = v.ImdbID ∧
    (LatestResult.UnmarshalJSON res buf).1.Name = v.Name ∧
    (LatestResult.UnmarshalJSON res buf).1.NewImages =
      (if v.NewImages ≠ "" then (Atoi v.NewImages).1 else res.NewImages) := by
  unfold LatestResult.UnmarshalJSON
  rw [h]
  simp only []
  refine ⟨?_, ?_, ?_, ?_, ?_⟩ <;> (repeat' split) <;> rfl

/-- What `Image.UnmarshalJSON` has written once the first stage is through, whatever the
outcome of the numeric stage: the string fields, with the URL not yet rewritten when the
call fails. -/
theorem Image_UnmarshalJSON_written (img : Image) (buf : JSON) (v : image)
    (h : decodeStringStruct "fanartapi.image" image.names image.get image.set buf
      ({} : image) = (v, none)) :
    (Image.UnmarshalJSON img buf).1.ID = v.ID ∧
    (Image.UnmarshalJSON img buf).1.Lang = v.Lang ∧
    (Image.UnmarshalJSON img buf).1.Colour = v.Colour ∧
    (Image.UnmarshalJSON img buf).1.DiscType = v.DiscType ∧
    ((Image.UnmarshalJSON img buf).2 ≠ none → (Image.UnmarshalJSON img buf).1.URL = v.URL) ∧
    (Image.UnmarshalJSON img buf).1.Likes =
      (if v.Likes ≠ "" then (Atoi v.Likes).1 else img.Likes) := by
  unfold Image.UnmarshalJSON
  rw [h]
  simp only []
  refine ⟨?_, ?_, ?_, ?_, ?_, ?_⟩ <;> (repeat' split) <;> first | rfl | (intro hh; first | rfl | exact absurd rfl hh)

theorem decodeStringStruct_first_stage_fails {σ : Type} (goType : String) (names : List String)
    (get : σ → String → String) (set : σ → String → String → σ) (buf : JSON) (v : σ)
    (h : (∃ members, buf = .object members ∧
        ∃ m ∈ members, findField names m.1 = none ∨ m.2.isStringOrNull = false) ∨
      ((∀ members, buf ≠ .object members) ∧ buf ≠ .null)) :
    (decodeStringStruct goType names get set buf v).2 ≠ none := by
  rcases h with ⟨members, rfl, m, hm, hbad⟩ | ⟨h1, h2⟩
  · intro hok
    have := ((decodeStringFields_ok_iff names get set members v none).1 hok).2 m hm
    rcases hbad with hb | hb
    · exact this.1 hb
    · rw [this.2] at hb; cases hb
  · cases buf with
    | object members => exact absurd rfl (h1 members)
    | null => exact absurd rfl h2
    | bool b => simp [decodeStringStruct]
    | number l => simp [decodeStringStruct]
    | string s => simp [decodeStringStruct]
    | array l => simp [decodeStringStruct]

/-- C12, as the code has it.  A record decode that fails in its first stage (the input is
neither an object nor `null`, or is an object with a key of no field or with a value that
is neither a string nor `null`) leaves the receiver as it was.  A decode of an object that
passes the first stage has overwritten the string fields with the new texts even when it
then fails at a numeric field (the URL not yet rewritten).  `ImagesRequest.Do` and
`LatestRequest.Do` return a nil result together with every error. -/
theorem C12_failure_effects :
    (∀ (img : Image) (buf : JSON),
      ((∃ members, buf = .object members ∧
          ∃ m ∈ members, findField image.names m.1 = none ∨ m.2.isStringOrNull = false) ∨
        ((∀ members, buf ≠ .object members) ∧ buf ≠ .null)) →
      (Image.UnmarshalJSON img buf).2 ≠ none ∧ (Image.UnmarshalJSON img buf).1 = img) ∧
    (∀ (res : LatestResult) (buf : JSON),
      ((∃ members, buf = .object members ∧
          ∃ m ∈ members, findField latest.names m.1 = none ∨ m.2.isStringOrNull = false) ∨
        ((∀ members, buf ≠ .object members) ∧ buf ≠ .null)) →
      (LatestResult.UnmarshalJSON res buf).2 ≠ none ∧
      (LatestResult.UnmarshalJSON res buf).1 = res) ∧
    (∀ (img : Image) (members : List (String × JSON)),
      (∀ m ∈ members, findField image.names m.1 ≠ none ∧ m.2.isStringOrNull = true) →
      (Image.UnmarshalJSON img (.object members)).2 ≠ none →
      (Image.UnmarshalJSON img (.object members)).1.ID =
        (fieldText image.names members "id").getD "" ∧
      (Image.UnmarshalJSON img (.object members)).1.URL =
        (fieldText image.names members "url").getD "" ∧
      (Image.UnmarshalJSON img (.object members)).1.Lang =
        (fieldText image.names members "lang").getD "" ∧
      (Image.UnmarshalJSON img (.object members)).1.Colour =
        (fieldText image.names members "colour").getD "" ∧
      (Image.UnmarshalJSON img (.object members)).1.DiscType =
        (fieldText image.names members "disc_type").getD "") ∧
    (∀ (res : LatestResult) (members : List (String × JSON)),
      (∀ m ∈ members, findField latest.names m.1 ≠ none ∧ m.2.isStringOrNull = true) →
      (LatestResult.UnmarshalJSON res (.object members)).1.FanartID =
        (fieldText latest.names members "id").getD "" ∧
      (LatestResult.UnmarshalJSON res (.object members)).1.TmdbID =
        (fieldText latest.names members "tmdb_id").getD "" ∧
      (LatestResult.UnmarshalJSON res (.object members)).1.ImdbID =
        (fieldText latest.names members "imdb_id").getD "" ∧
      (LatestResult.UnmarshalJSON res (.object members)).1.Name =
        (fieldText latest.names members "name").getD "") ∧
    (∀ (net : Net) (cl : Client) (ireq : ImagesRequest),
      (ireq.Do net cl).err ≠ none → (ireq.Do net cl).v = none) ∧
    (∀ (net : Net) (cl : Client) (lreq : LatestRequest),
      (lreq.Do net cl).err ≠ none → (lreq.Do net cl).v = []) := by
  refine ⟨?_, ?_, ?_, ?_, ?_, ?_⟩
  · intro img buf h
    have h1 := decodeStringStruct_first_stage_fails "fanartapi.image" image.names image.get
      image.set buf ({} : image) h
    cases hst : decodeStringStruct "fanartapi.image" image.names image.get image.set buf
        ({} : image) with
    | mk v e =>
      cases e with
      | none => rw [hst] at h1; exact absurd rfl h1
      | some e =>
        rw [Image_UnmarshalJSON_stage1_err img buf v e hst]
        exact ⟨by simp, rfl⟩
  · intro res buf h
    have h1 := decodeStringStruct_first_stage_fails "fanartapi.latest" latest.names latest.get
      latest.set buf ({} : latest) h
    cases hst : decodeStringStruct "fanartapi.latest" latest.names latest.get latest.set buf
        ({} : latest) with
    | mk v e =>
      cases e with
      | none => rw [hst] at h1; exact absurd rfl h1
      | some e =>
        rw [LatestResult_UnmarshalJSON_stage1_err res buf v e hst]
        exact ⟨by simp, rfl⟩
  · intro img members hmem hfail
    have hok := (image_stage1_ok_iff members).2 hmem
    cases hst : decodeStringStruct "fanartapi.image" image.names image.get image.set
        (.object members) ({} : image) with
    | mk v e =>
      rw [hst] at hok
      simp only at hok
      subst hok
      obtain ⟨hID, hURL, hLang, hColour, hDiscType, -⟩ := image_stage1_fields members v none hst
      obtain ⟨w1, w2, w3, w4, w5, -⟩ := Image_UnmarshalJSON_written img _ v hst
      rw [w1, w2, w3, w4, w5 hfail]
      exact ⟨hID, hURL, hLang, hColour, hDiscType⟩
  · intro res members hmem
    have hok := (latest_stage1_ok_iff members).2 hmem
    cases hst : decodeStringStruct "fanartapi.latest" latest.names latest.get latest.set
        (.object members) ({} : latest) with
    | mk v e =>
      rw [hst] at hok
      simp only at hok
      subst hok
      obtain ⟨hID, hT, hI, hN, -⟩ := latest_stage1_fields members v none hst
      obtain ⟨w1, w2, w3, w4, -⟩ := LatestResult_UnmarshalJSON_written res _ v hst
      rw [w1, w2, w3, w4]
      exact ⟨hID, hT, hI, hN⟩
  · intro net cl ireq h
    unfold ImagesRequest.Do at h ⊢
    simp only [] at h ⊢
    split
    · rfl
    · rename_i he
      rw [he] at h
      exact absurd rfl h
  · intro net cl lreq h
    unfold LatestRequest.Do at h ⊢
    simp only [] at h ⊢
    split
    · rfl
    · rename_i he
      rw [he] at h
      exact absurd rfl h

/-- C12 fails as stated: decoding an object with id `new` and likes `abc` into an image
with id `old` returns an error and leaves the id `new` in the image; likewise for a latest
record with new_images `abc`. -/
theorem C12_atomicity_counterexample :
    ¬ (∀ (img : Image) (buf : JSON), (Image.UnmarshalJSON img buf).2 ≠ none →
        (Image.UnmarshalJSON img buf).1 = img) ∧
    (Image.UnmarshalJSON { ID := "old" }
        (.object [("id", .string "new"), ("likes", .string "abc")])).2 ≠ none ∧
    (Image.UnmarshalJSON { ID := "old" }
        (.object [("id", .string "new"), ("likes", .string "abc")])).1 = { ID := "new" } ∧
    (LatestResult.UnmarshalJSON { FanartID := "old" }
        (.object [("id", .string "new"), ("new_images", .string "abc")])).2 ≠ none ∧
    (LatestResult.UnmarshalJSON { FanartID := "old" }
        (.object [("id", .string "new"), ("new_images", .string "abc")])).1 =
      { FanartID := "new" } := by
  refine ⟨?_, by decide, by decide, by decide, by decide⟩
  intro h
  have := h { ID := "old" } (.object [("id", .string "new"), ("likes", .string "abc")])
    (by decide)
  revert this
  decide

/-- C12 at an image record with a key of no field, at a numeric failure, and at a request
answered with status 404. -/
theorem C12_failure_effects_witness :
    (Image.UnmarshalJSON { ID := "old" }
        (.object [("id", .string "new"), ("width", .string "1")])).1 = { ID := "old" } ∧
    (Image.UnmarshalJSON { ID := "old" }
        (.object [("id", .string "new"), ("likes", .string "abc")])).1.ID = "new" ∧
    ((Images Movie "1").Do (answering ⟨404, .null⟩) ({} : Client)).v = none :=
  ⟨(C12_failure_effects.1 { ID := "old" } _
      (Or.inl ⟨_, rfl, ("width", .string "1"), by simp, Or.inl (by decide)⟩)).2,
   (C12_failure_effects.2.2.1 { ID := "old" }
      [("id", .string "new"), ("likes", .string "abc")] (by decide) (by decide)).1,
   C12_failure_effects.2.2.2.2.1 (answering ⟨404, .null⟩) ({} : Client) (Images Movie "1")
      (by decide)⟩

/-- C13, as the code has it.  A record one of whose members is a JSON number is rejected:
`Image.UnmarshalJSON` and `LatestResult.UnmarshalJSON` return an error and leave the
receiver as it was, whatever the key of the member; a key that selects a field gives a type
error for the Go type `string`.  Only the string form of a number is decoded. -/
theorem C13_numbers_rejected :
    (∀ (img : Image) (members : List (String × JSON)),
      (∃ m ∈ members, ∃ lit, m.2 = .number lit) →
      (Image.UnmarshalJSON img (.object members)).2 ≠ none ∧
      (Image.UnmarshalJSON img (.object members)).1 = img) ∧
    (∀ (res : LatestResult) (members : List (String × JSON)),
      (∃ m ∈ members, ∃ lit, m.2 = .number lit) →
      (LatestResult.UnmarshalJSON res (.object members)).2 ≠ none ∧
      (LatestResult.UnmarshalJSON res (.object members)).1 = res) ∧
    (∀ (cur lit : String),
      storeString cur (.number lit) = (cur, some (.UnmarshalTypeError "number" "string"))) ∧
    (∀ (img : Image) (key lit : String), findField image.names key ≠ none →
      (Image.UnmarshalJSON img (.object [(key, .number lit)])).2 =
        some (.UnmarshalTypeError "number" "string")) ∧
    (∀ (res : LatestResult) (key lit : String), findField latest.names key ≠ none →
      (LatestResult.UnmarshalJSON res (.object [(key, .number lit)])).2 =
        some (.UnmarshalTypeError "number" "string")) ∧
    Image.UnmarshalJSON ({} : Image) (.object [("likes", .string "12")]) =
      ({ Likes := 12 }, none) ∧
    LatestResult.UnmarshalJSON ({} : LatestResult) (.object [("new_images", .string "12")]) =
      ({ NewImages := 12 }, none) := by
  refine ⟨?_, ?_, fun cur lit => rfl, ?_, ?_, by decide, by decide⟩
  · intro img members ⟨m, hm, lit, hlit⟩
    have h1 := decodeStringStruct_first_stage_fails "fanartapi.image" image.names image.get
      image.set (.object members) ({} : image)
      (Or.inl ⟨members, rfl, m, hm, Or.inr (by rw [hlit]; rfl)⟩)
    cases hst : decodeStringStruct "fanartapi.image" image.names image.get image.set
        (.object members) ({} : image) with
    | mk v e =>
      cases e with
      | none => rw [hst] at h1; exact absurd rfl h1
      | some e =>
        rw [Image_UnmarshalJSON_stage1_err img _ v e hst]
        exact ⟨by simp, rfl⟩
  · intro res members ⟨m, hm, lit, hlit⟩
    have h1 := decodeStringStruct_first_stage_fails "fanartapi.latest" latest.names latest.get
      latest.set (.object members) ({} : latest)
      (Or.inl ⟨members, rfl, m, hm, Or.inr (by rw [hlit]; rfl)⟩)
    cases hst : decodeStringStruct "fanartapi.latest" latest.names latest.get latest.set
        (.object members) ({} : latest) with
    | mk v e =>
      cases e with
      | none => rw [hst] at h1; exact absurd rfl h1
      | some e =>
        rw [LatestResult_UnmarshalJSON_stage1_err res _ v e hst]
        exact ⟨by simp, rfl⟩
  · intro img key lit hkey
    cases hf : findField image.names key with
    | none => exact absurd hf hkey
    | some name =>
      have hst : decodeStringStruct "fanartapi.image" image.names image.get image.set
          (.object [(key, .number lit)]) ({} : image) =
          (image.set {} name (image.get {} name),
            some (.UnmarshalTypeError "number" "string")) := by
        simp [decodeStringStruct, decodeStringFields, hf, storeString, saveError, JSON.kind]
      rw [Image_UnmarshalJSON_stage1_err img _ _ _ hst]
  · intro res key lit hkey
    cases hf : findField latest.names key with
    | none => exact absurd hf hkey
    | some name =>
      have hst : decodeStringStruct "fanartapi.latest" latest.names latest.get latest.set
          (.object [(key, .number lit)]) ({} : latest) =
          (latest.set {} name (latest.get {} name),
            some (.UnmarshalTypeError "number" "string")) := by
        simp [decodeStringStruct, decodeStringFields, hf, storeString, saveError, JSON.kind]
      rw [LatestResult_UnmarshalJSON_stage1_err res _ _ _ hst]

/-- C13 fails as stated: an image record with the JSON number 12 for likes is a decode
error, while the string form decodes to 12; likewise for new_images in a latest record. -/
theorem C13_number_counterexample :
    (Image.UnmarshalJSON ({} : Image) (.object [("likes", .number "12")])).2 =
      some (.UnmarshalTypeError "number" "string") ∧
    (Image.UnmarshalJSON ({} : Image) (.object [("likes", .string "12")])) =
      ({ Likes := 12 }, none) ∧
    (LatestResult.UnmarshalJSON ({} : LatestResult)
      (.object [("new_images", .number "12")])).2 =
      some (.UnmarshalTypeError "number" "string") := by
  refine ⟨by decide, by decide, by decide⟩

/-- C13 at an image record with `"likes": 12` next to a valid id. -/
theorem C13_numbers_rejected_witness :
    (Image.UnmarshalJSON ({} : Image)
      (.object [("id", .string "1"), ("likes", .number "12")])).2 ≠ none :=
  (C13_numbers_rejected.1 ({} : Image) [("id", .string "1"), ("likes", .number "12")]
    ⟨("likes", .number "12"), by simp, "12", rfl⟩).1

theorem LatestResult_UnmarshalJSON_total_frame (res : LatestResult) (buf : JSON) (v : latest)
    (h : decodeStringStruct "fanartapi.latest" latest.names latest.get latest.set buf
      ({} : latest) = (v, none)) (ht : v.TotalImages = "") :
    (LatestResult.UnmarshalJSON res buf).1.TotalImages = res.TotalImages := by
  unfold LatestResult.UnmarshalJSON
  rw [h]
  simp only [ht, ne_eq, not_true_eq_false, if_false]
  repeat' split
  all_goals rfl

theorem LatestResult_UnmarshalJSON_total_written (res : LatestResult) (buf : JSON)
    (v : latest)
    (h : decodeStringStruct "fanartapi.latest" latest.names latest.get latest.set buf
      ({} : latest) = (v, none)) (hn : numOK v.NewImages) :
    (LatestResult.UnmarshalJSON res buf).1.TotalImages =
      (if v.TotalImages ≠ "" then (Atoi v.TotalImages).1 else res.TotalImages) := by
  unfold LatestResult.UnmarshalJSON
  rw [h]
  have h1 := if_atoi_snd_none (v.NewImages ≠ "") v.NewImages res.NewImages
    ((numOK_iff _).1 hn)
  simp only [h1]
  repeat' split
  all_goals rfl

theorem base10_atoi (s : String) (h : isBase10Int s) : Atoi s = (integerValue s, none) := by
  rw [Atoi_integer s h.1, if_pos h.2]

theorem base10_ne_empty (s : String) (h : isBase10Int s) : s ≠ "" := by
  intro h0
  subst h0
  revert h
  unfold isBase10Int
  decide

/-- C14. `LatestResult.UnmarshalJSON` on a fresh `LatestResult` and an object whose keys are
fields of the record and whose values are JSON strings.  FanartID, TmdbID, ImdbID and Name
hold the texts of id, tmdb_id, imdb_id and name.  NewImages and TotalImages are 0 for an
absent or empty text and the integer written for a base-10 notation of a Go `int`; any
other text is a decode error whose message starts with `invalid new_images` or
`invalid total_images`, new_images being looked at first.  The call succeeds when neither
text is of that kind.  The text `all` is of that kind. -/
theorem C14_decode_fresh_latest (fields : List (String × String))
    (hkeys : ∀ f ∈ fields, findField latest.names f.1 ≠ none) :
    let members := fields.map (fun f => (f.1, JSON.string f.2))
    let r := LatestResult.UnmarshalJSON ({} : LatestResult) (stringObject fields)
    let txt := fieldText latest.names members
    let bad := fun (t : Option String) => ∃ s, t = some s ∧ s ≠ "" ∧ ¬ isBase10Int s
    r.1.FanartID = (txt "id").getD "" ∧ r.1.TmdbID = (txt "tmdb_id").getD "" ∧
    r.1.ImdbID = (txt "imdb_id").getD "" ∧ r.1.Name = (txt "name").getD "" ∧
    ((txt "new_images" = none ∨ txt "new_images" = some "") → r.1.NewImages = 0) ∧
    (∀ s, txt "new_images" = some s → isBase10Int s → r.1.NewImages = integerValue s) ∧
    (bad (txt "new_images") →
      ∃ e, r.2 = some e ∧ "invalid new_images".data <+: e.Error.data) ∧
    ((txt "total_images" = none ∨ txt "total_images" = some "") → r.1.TotalImages = 0) ∧
    (¬ bad (txt "new_images") → ∀ s, txt "total_images" = some s → isBase10Int s →
      r.1.TotalImages = integerValue s) ∧
    (¬ bad (txt "new_images") → bad (txt "total_images") →
      ∃ e, r.2 = some e ∧ "invalid total_images".data <+: e.Error.data) ∧
    (¬ bad (txt "new_images") → ¬ bad (txt "total_images") → r.2 = none) ∧
    (bad (some "all") ∧ bad (some "abc") ∧ ¬ bad (some "7") ∧ ¬ bad (some "-7")) := by
  intro members r txt bad
  have hr : r = LatestResult.UnmarshalJSON ({} : LatestResult) (.object members) := rfl
  have hmem : ∀ m ∈ members, findField latest.names m.1 ≠ none ∧ m.2.isStringOrNull = true := by
    intro m hm
    simp only [members, List.mem_map] at hm
    obtain ⟨f, hf, rfl⟩ := hm
    exact ⟨hkeys f hf, rfl⟩
  have hok := (latest_stage1_ok_iff members).2 hmem
  cases hst : decodeStringStruct "fanartapi.latest" latest.names latest.get latest.set
      (.object members) ({} : latest) with
  | mk v e =>
  rw [hst] at hok
  simp only at hok
  subst hok
  obtain ⟨hID, hT, hI, hN, hNew, hTot⟩ := latest_stage1_fields members v none hst
  obtain ⟨w1, w2, w3, w4, w5⟩ := LatestResult_UnmarshalJSON_written ({} : LatestResult) _ v hst
  have hgetD : ∀ (t : Option String), (t = none ∨ t = some "") → t.getD "" = "" := by
    rintro t (h | h) <;> subst h <;> rfl
  have hbad : ∀ (t : Option String), ¬ bad t → numOK (t.getD "") := by
    intro t ht
    rw [numOK_iff_base10]
    cases t with
    | none => left; rfl
    | some s =>
      by_cases h0 : s = ""
      · left; exact h0
      · right
        by_contra hb
        exact ht ⟨s, rfl, h0, hb⟩
  have hbadE : ∀ (t : Option String), bad t →
      t.getD "" ≠ "" ∧ ∃ k, (Atoi (t.getD "")).2 = some (.NumError "Atoi" (t.getD "") k) := by
    rintro t ⟨s, rfl, h0, hb⟩
    refine ⟨h0, Atoi_err_form s ?_⟩
    intro hok
    exact hb ((Atoi_ok_iff s).1 hok)
  refine ⟨by rw [hr, w1, hID], by rw [hr, w2, hT], by rw [hr, w3, hI], by rw [hr, w4, hN],
    ?_, ?_, ?_, ?_, ?_, ?_, ?_, ?_⟩
  · intro h
    rw [hr, w5, hNew, hgetD _ h]
    rfl
  · intro s hs hb
    have hv : v.NewImages = s := by rw [hNew]; show (txt "new_images").getD "" = s; rw [hs]; rfl
    rw [hr, w5, hv, if_pos (base10_ne_empty s hb), base10_atoi s hb]
  · intro hb
    obtain ⟨hne, k, hk⟩ := hbadE _ hb
    rw [← hNew] at hne hk
    exact ⟨_, LatestResult_UnmarshalJSON_new_err _ _ v _ hst hne hk,
      wrapError_starts _ _ _ ⟨": ".data, rfl⟩⟩
  · intro h
    rw [hr, LatestResult_UnmarshalJSON_total_frame _ _ v hst (by rw [hTot]; exact hgetD _ h)]
  · intro hn s hs hb
    have hn' : numOK v.NewImages := by rw [hNew]; exact hbad _ hn
    have hv : v.TotalImages = s := by
      rw [hTot]; show (txt "total_images").getD "" = s; rw [hs]; rfl
    rw [hr, LatestResult_UnmarshalJSON_total_written _ _ v hst hn', hv,
      if_pos (base10_ne_empty s hb), base10_atoi s hb]
  · intro hn hb
    have hn' : numOK v.NewImages := by rw [hNew]; exact hbad _ hn
    obtain ⟨hne, k, hk⟩ := hbadE _ hb
    rw [← hTot] at hne hk
    exact ⟨_, LatestResult_UnmarshalJSON_total_err _ _ v _ hst hn' hne hk,
      wrapError_starts _ _ _ ⟨": ".data, rfl⟩⟩
  · intro hn ht
    rw [hr, LatestResult_UnmarshalJSON_ok_iff]
    exact ⟨v, hst, by rw [hNew]; exact hbad _ hn, by rw [hTot]; exact hbad _ ht⟩
  · refine ⟨⟨"all", rfl, by decide, ?_⟩, ⟨"abc", rfl, by decide, ?_⟩, ?_, ?_⟩
    · unfold isBase10Int; decide
    · unfold isBase10Int; decide
    · rintro ⟨s, hs, -, hb⟩
      cases hs
      apply hb
      unfold isBase10Int; decide
    · rintro ⟨s, hs, -, hb⟩
      cases hs
      apply hb
      unfold isBase10Int; decide

/-- C14 at the object with id 5, name x, new_images 3 and total_images -7. -/
theorem C14_decode_fresh_latest_witness :
    (LatestResult.UnmarshalJSON ({} : LatestResult) (stringObject
      [("id", "5"), ("name", "x"), ("new_images", "3"), ("total_images", "-7")])).2 = none ∧
    (LatestResult.UnmarshalJSON ({} : LatestResult) (stringObject
      [("id", "5"), ("name", "x"), ("new_images", "3"), ("total_images", "-7")])).1.NewImages =
      3 ∧
    (LatestResult.UnmarshalJSON ({} : LatestResult) (stringObject
      [("id", "5"), ("name", "x"), ("new_images", "3"),
        ("total_images", "-7")])).1.TotalImages = -7 ∧
    (LatestResult.UnmarshalJSON ({} : LatestResult) (stringObject
      [("id", "5"), ("name", "x"), ("new_images", "3"), ("total_images", "-7")])).1.FanartID =
      "5" := by
  obtain ⟨h1, -, -, -, -, h6, -, -, h9, -, h11, -⟩ := C14_decode_fresh_latest
    [("id", "5"), ("name", "x"), ("new_images", "3"), ("total_images", "-7")] (by decide)
  have b3 : isBase10Int "3" := by unfold isBase10Int; decide
  have b7 : isBase10Int "-7" := by unfold isBase10Int; decide
  have n1 : ¬ ∃ s, fieldText latest.names
      ([("id", "5"), ("name", "x"), ("new_images", "3"), ("total_images", "-7")].map
        (fun f => (f.1, JSON.string f.2))) "new_images" = some s ∧ s ≠ "" ∧ ¬ isBase10Int s := by
    rintro ⟨s, hs, -, hb⟩
    have : s = "3" := by
      have e : fieldText latest.names
        ([("id", "5"), ("name", "x"), ("new_images", "3"), ("total_images", "-7")].map
          (fun f => (f.1, JSON.string f.2))) "new_images" = some "3" := by decide
      rw [e] at hs; cases hs; rfl
    subst this
    exact hb b3
  have n2 : ¬ ∃ s, fieldText latest.names
      ([("id", "5"), ("name", "x"), ("new_images", "3"), ("total_images", "-7")].map
        (fun f => (f.1, JSON.string f.2))) "total_images" = some s ∧ s ≠ "" ∧
        ¬ isBase10Int s := by
    rintro ⟨s, hs, -, hb⟩
    have : s = "-7" := by
      have e : fieldText latest.names
        ([("id", "5"), ("name", "x"), ("new_images", "3"), ("total_images", "-7")].map
          (fun f => (f.1, JSON.string f.2))) "total_images" = some "-7" := by decide
      rw [e] at hs; cases hs; rfl
    subst this
    exact hb b7
  refine ⟨h11 n1 n2, ?_, ?_, h1⟩
  · rw [h6 "3" (by decide) b3]; decide
  · rw [h9 n1 "-7" (by decide) b7]; decide

section stringStructMore

variable {σ : Type} (names : List String) (get : σ → String → String)
  (set : σ → String → String → σ)

theorem decodeStringFields_append (a b : List (String × JSON)) (v : σ)
    (saved : Option GoError) :
    decodeStringFields names get set (a ++ b) v saved =
      decodeStringFields names get set b (decodeStringFields names get set a v saved).1
        (decodeStringFields names get set a v saved).2 := by
  induction a generalizing v saved with
  | nil => rfl
  | cons m rest ih =>
    obtain ⟨key, x⟩ := m
    simp only [List.cons_append, decodeStringFields]
    split
    · exact ih _ _
    · exact ih _ _

theorem decodeStringFields_err_indep (members : List (String × JSON)) (v v' : σ)
    (saved : Option GoError) :
    (decodeStringFields names get set members v saved).2 =
      (decodeStringFields names get set members v' saved).2 := by
  induction members generalizing v v' saved with
  | nil => rfl
  | cons m rest ih =>
    obtain ⟨key, x⟩ := m
    simp only [decodeStringFields]
    split
    · exact ih _ _ _
    · rename_i name _
      have : (storeString (get v name) x).2 = (storeString (get v' name) x).2 := by
        cases x <;> rfl
      rw [this]
      exact ih _ _ _

theorem decodeStringFields_insert_err (pre post : List (String × JSON)) (key x name : String)
    (hkey : findField names key = some name) (v : σ) (saved : Option GoError) :
    (decodeStringFields names get set (pre ++ (key, .string x) :: post) v saved).2 =
      (decodeStringFields names get set (pre ++ post) v saved).2 := by
  rw [decodeStringFields_append, decodeStringFields_append]
  simp only [decodeStringFields, hkey, storeString]
  exact decodeStringFields_err_indep names get set post _ _ _

end stringStructMore

theorem offered_append (names : List String) (a b : List (String × JSON)) (name : String) :
    offered names (a ++ b) name = offered names a name ++ offered names b name := by
  unfold offered
  rw [List.filterMap_append]

theorem offered_nil (names : List String) (l : List (String × JSON)) (name : String)
    (h : ∀ m ∈ l, findField names m.1 ≠ some name) : offered names l name = [] := by
  unfold offered
  rw [List.filterMap_eq_nil_iff]
  intro m hm
  cases hx : m.2 <;> simp [h m hm]

theorem fieldText_insert_other (names : List String) (pre post : List (String × JSON))
    (key x name other : String) (hkey : findField names key = some name)
    (hne : other ≠ name) :
    fieldText names (pre ++ (key, .string x) :: post) other =
      fieldText names (pre ++ post) other := by
  unfold fieldText
  rw [offered_append, offered_append]
  have : offered names ((key, JSON.string x) :: post) other = offered names post other := by
    unfold offered
    rw [List.filterMap_cons]
    have hn : ¬ (some name = some other) := by
      intro h; cases h; exact hne rfl
    simp only [hkey, hn, if_false]
  rw [this]

theorem fieldText_insert_self (names : List String) (pre post : List (String × JSON))
    (key x name : String) (hkey : findField names key = some name)
    (hother : ∀ m ∈ pre ++ post, findField names m.1 ≠ some name) :
    fieldText names (pre ++ (key, .string x) :: post) name = some x ∧
    fieldText names (pre ++ post) name = none := by
  have hpre := offered_nil names pre name (fun m hm => hother m (List.mem_append_left _ hm))
  have hpost := offered_nil names post name (fun m hm => hother m (List.mem_append_right _ hm))
  unfold fieldText
  rw [offered_append, offered_append, hpre, hpost]
  have : offered names ((key, JSON.string x) :: post) name = [x] := by
    have h1 : offered names ((key, JSON.string x) :: post) name =
        x :: offered names post name := by
      unfold offered
      rw [List.filterMap_cons]
      simp only [hkey, if_true]
    rw [h1, hpost]
  rw [this]
  exact ⟨rfl, rfl⟩

theorem Atoi_zero : Atoi "0" = (0, none) := by decide

theorem Image_second_stage_season (buf1 buf2 : JSON) (v : image) (e : Option GoError)
    (x : String) (hx : x = "" ∨ x = "all" ∨ x = "0") (hv : v.Season = "")
    (h1 : decodeStringStruct "fanartapi.image" image.names image.get image.set buf1
      ({} : image) = ({ v with Season := x }, e))
    (h2 : decodeStringStruct "fanartapi.image" image.names image.get image.set buf2
      ({} : image) = (v, e)) :
    Image.UnmarshalJSON ({} : Image) buf1 = Image.UnmarshalJSON ({} : Image) buf2 := by
  unfold Image.UnmarshalJSON
  rw [h1, h2]
  cases e with
  | some e => rfl
  | none =>
    rcases hx with rfl | rfl | rfl
    · simp [hv]
    · simp [hv]
    · simp [hv, Atoi_zero]

theorem season_insert (pre post : List (String × JSON)) (key x : String)
    (hkey : findField image.names key = some "season")
    (hother : ∀ m ∈ pre ++ post, findField image.names m.1 ≠ some "season")
    (hx : x = "" ∨ x = "all" ∨ x = "0") :
    Image.UnmarshalJSON ({} : Image) (.object (pre ++ (key, .string x) :: post)) =
      Image.UnmarshalJSON ({} : Image) (.object (pre ++ post)) := by
  cases h2 : decodeStringStruct "fanartapi.image" image.names image.get image.set
      (.object (pre ++ post)) ({} : image) with
  | mk v e =>
  cases h1 : decodeStringStruct "fanartapi.image" image.names image.get image.set
      (.object (pre ++ (key, .string x) :: post)) ({} : image) with
  | mk v' e' =>
  have he : e' = e := by
    have := decodeStringFields_insert_err image.names image.get image.set pre post key x
      "season" hkey ({} : image) none
    rw [← image_stage1_object, ← image_stage1_object, h1, h2] at this
    exact this
  subst he
  obtain ⟨a1, a2, a3, a4, a5, a6, a7, a8, a9⟩ := image_stage1_fields _ v e' h2
  obtain ⟨b1, b2, b3, b4, b5, b6, b7, b8, b9⟩ := image_stage1_fields _ v' e' h1
  have ho := fun other hne =>
    fieldText_insert_other image.names pre post key x "season" other hkey hne
  obtain ⟨hs1, hs2⟩ := fieldText_insert_self image.names pre post key x "season" hkey hother
  rw [ho "id" (by decide)] at b1
  rw [ho "url" (by decide)] at b2
  rw [ho "lang" (by decide)] at b3
  rw [ho "colour" (by decide)] at b4
  rw [ho "disc_type" (by decide)] at b5
  rw [ho "likes" (by decide)] at b6
  rw [ho "disc" (by decide)] at b8
  rw [ho "size" (by decide)] at b9
  rw [hs1] at b7
  rw [hs2] at a7
  have hv : v' = { v with Season := x } := by
    cases v; cases v'
    simp only [image.mk.injEq] at *
    exact ⟨b1.trans a1.symm, b2.trans a2.symm, b3.trans a3.symm, b4.trans a4.symm,
      b5.trans a5.symm, b6.trans a6.symm, b7, b8.trans a8.symm, b9.trans a9.symm⟩
  rw [hv] at h1
  exact Image_second_stage_season _ _ v e' x hx a7 h1 h2

/-- C15. Season collapsing.  Take any object without a member for the season.  Putting a
season member with the text `""`, `all` or `0` anywhere into it does not change what
decoding into a fresh `Image` returns, value and error alike, and the season of the value
is 0 in all four cases: a season zero cannot be told from an unset season. -/
theorem C15_season_collapsing (pre post : List (String × JSON)) (key : String)
    (hkey : findField image.names key = some "season")
    (hother : ∀ m ∈ pre ++ post, findField image.names m.1 ≠ some "season") :
    Image.UnmarshalJSON ({} : Image) (.object (pre ++ (key, .string "") :: post)) =
      Image.UnmarshalJSON ({} : Image) (.object (pre ++ post)) ∧
    Image.UnmarshalJSON ({} : Image) (.object (pre ++ (key, .string "all") :: post)) =
      Image.UnmarshalJSON ({} : Image) (.object (pre ++ post)) ∧
    Image.UnmarshalJSON ({} : Image) (.object (pre ++ (key, .string "0") :: post)) =
      Image.UnmarshalJSON ({} : Image) (.object (pre ++ post)) ∧
    (Image.UnmarshalJSON ({} : Image) (.object (pre ++ post))).1.Season = 0 := by
  refine ⟨season_insert pre post key "" hkey hother (Or.inl rfl),
    season_insert pre post key "all" hkey hother (Or.inr (Or.inl rfl)),
    season_insert pre post key "0" hkey hother (Or.inr (Or.inr rfl)), ?_⟩
  cases h2 : decodeStringStruct "fanartapi.image" image.names image.get image.set
      (.object (pre ++ post)) ({} : image) with
  | mk v e =>
    cases e with
    | some e => rw [Image_UnmarshalJSON_stage1_err _ _ v e h2]
    | none =>
      obtain ⟨-, -, -, -, -, -, a7, -⟩ := image_stage1_fields _ v none h2
      obtain ⟨-, hs2⟩ := fieldText_insert_self image.names pre post key "" "season" hkey hother
      rw [hs2] at a7
      rw [Image_UnmarshalJSON_season_frame _ _ v h2 (Or.inl a7)]

/-- C15 at the object with id 1 and likes 3, the season member put between the two. -/
theorem C15_season_collapsing_witness :
    Image.UnmarshalJSON ({} : Image) (.object [("id", .string "1"), ("season", .string "0"),
        ("likes", .string "3")]) =
      Image.UnmarshalJSON ({} : Image) (.object [("id", .string "1"),
        ("likes", .string "3")]) ∧
    Image.UnmarshalJSON ({} : Image) (.object [("id", .string "1"), ("season", .string "all"),
        ("likes", .string "3")]) =
      Image.UnmarshalJSON ({} : Image) (.object [("id", .string "1"),
        ("likes", .string "3")]) ∧
    (Image.UnmarshalJSON ({} : Image) (.object [("id", .string "1"),
        ("likes", .string "3")])).1.Season = 0 :=
  have h := C15_season_collapsing [("id", .string "1")] [("likes", .string "3")] "season"
    (by decide) (by decide)
  ⟨h.2.2.1, h.2.1, h.2.2.2⟩

theorem digitChar_digit (m : Nat) (h : m < 10) :
    (Nat.digitChar m).isDigit = true ∧ (Nat.digitChar m).toNat - '0'.toNat = m := by
  interval_cases m <;> exact ⟨rfl, rfl⟩

/-- The characters that `Nat.toDigitsCore` puts in front of its accumulator form a digit
string that writes the number. -/
theorem toDigitsCore_notation (fuel n : Nat) (acc : List Char) (hfuel : n < fuel) :
    ∃ t : String, isDigitString t = true ∧ decimalValue t = n ∧
      Nat.toDigitsCore 10 fuel n acc = t.data ++ acc := by
  induction fuel generalizing n acc with
  | zero => omega
  | succ k ih =>
    obtain ⟨d1, d2⟩ := digitChar_digit (n % 10) (Nat.mod_lt _ (by norm_num))
    have step : Nat.toDigitsCore 10 (k + 1) n acc =
        if n / 10 = 0 then Nat.digitChar (n % 10) :: acc
        else Nat.toDigitsCore 10 k (n / 10) (Nat.digitChar (n % 10) :: acc) := rfl
    rw [step]
    by_cases hq : n / 10 = 0
    · rw [if_pos hq]
      refine ⟨⟨[Nat.digitChar (n % 10)]⟩, ?_, ?_, rfl⟩
      · simp [isDigitString, d1]
      · simp only [decimalValue, List.foldl_cons, List.foldl_nil, d2]
        omega
    · rw [if_neg hq]
      obtain ⟨t, t1, t2, t3⟩ := ih (n / 10) (Nat.digitChar (n % 10) :: acc) (by omega)
      refine ⟨⟨t.data ++ [Nat.digitChar (n % 10)]⟩, ?_, ?_, by rw [t3]; simp⟩
      · unfold isDigitString at t1 ⊢
        simp only [Bool.and_eq_true, Bool.not_eq_true', List.isEmpty_eq_false,
          List.all_eq_true] at t1
        simp only [Bool.and_eq_true, Bool.not_eq_true', List.all_eq_true, List.mem_append,
          List.mem_singleton]
        refine ⟨by simp, ?_⟩
        intro c hc
        rcases hc with hc | hc
        · exact t1.2 c hc
        · rw [hc]; exact d1
      · unfold decimalValue at t2 ⊢
        rw [List.foldl_append, t2]
        simp only [List.foldl_cons, List.foldl_nil, d2]
        omega

/-- The decimal notation that `toString` gives a natural number is a digit string that
writes the number. -/
theorem toString_nat_notation (n : Nat) :
    isDigitString (toString n) = true ∧ decimalValue (toString n) = n := by
  obtain ⟨t, t1, t2, t3⟩ := toDigitsCore_notation (n + 1) n [] (by omega)
  have ht : toString n = t := by
    apply String.ext
    show Nat.toDigits 10 n = t.data
    unfold Nat.toDigits
    rw [t3, List.append_nil]
  rw [ht]
  exact ⟨t1, t2⟩

theorem signed_digits (c : Char) (hc : c = '-' ∨ c = '+') (s : String)
    (h : isDigitString s = true) :
    isIntegerSyntax (⟨c :: s.data⟩ : String) = true ∧
    integerValue (⟨c :: s.data⟩ : String) =
      if c = '-' then -(decimalValue s : Int) else (decimalValue s : Int) := by
  have hbody : signBody (⟨c :: s.data⟩ : String) = s.data := by
    unfold signBody
    rcases hc with rfl | rfl <;> simp
  unfold isIntegerSyntax integerValue
  rw [hbody]
  refine ⟨h, ?_⟩
  rcases hc with rfl | rfl
  · simp [decimalValue]
  · simp [decimalValue]

/-- The notation that `toString` gives an integer is base-10 integer notation for it, and
so is the notation of a natural number with a plus sign in front. -/
theorem toString_int_notation :
    (∀ n : Int, isIntegerSyntax (toString n) = true ∧ integerValue (toString n) = n) ∧
    (∀ n : Nat, isIntegerSyntax ("+" ++ toString n) = true ∧
      integerValue ("+" ++ toString n) = n) := by
  constructor
  · intro n
    cases n with
    | ofNat m =>
      obtain ⟨h1, h2⟩ := toString_nat_notation m
      obtain ⟨-, h3, h4⟩ := digitString_facts (toString m) h1
      show isIntegerSyntax (toString m) = true ∧ integerValue (toString m) = (m : Int)
      exact ⟨h3, by rw [h4, h2]⟩
    | negSucc m =>
      obtain ⟨h1, h2⟩ := toString_nat_notation (m + 1)
      have hs : toString (Int.negSucc m) = ⟨'-' :: (toString (m + 1)).data⟩ := by
        show "-" ++ toString (m + 1) = _
        apply String.ext
        simp [String.data_append]
      obtain ⟨h3, h4⟩ := signed_digits '-' (Or.inl rfl) (toString (m + 1)) h1
      rw [hs]
      refine ⟨h3, ?_⟩
      rw [h4, if_pos rfl, h2]
      rfl
  · intro n
    obtain ⟨h1, h2⟩ := toString_nat_notation n
    have hs : "+" ++ toString n = ⟨'+' :: (toString n).data⟩ := by
      apply String.ext
      simp [String.data_append]
    obtain ⟨h3, h4⟩ := signed_digits '+' (Or.inr rfl) (toString n) h1
    rw [hs]
    refine ⟨h3, ?_⟩
    rw [h4, if_neg (by decide), h2]

/-- Which numeric field the error of `Image.UnmarshalJSON` names, in terms of the local
struct after a first stage without error. -/
theorem Image_UnmarshalJSON_names (img : Image) (buf : JSON) (v : image)
    (hst : decodeStringStruct "fanartapi.image" image.names image.get image.set buf
      ({} : image) = (v, none)) :
    (¬ numOK v.Likes →
      ∃ e, (Image.UnmarshalJSON img buf).2 = some e ∧
        "invalid likes".data <+: e.Error.data) ∧
    (numOK v.Likes → v.Season ≠ "all" → ¬ numOK v.Season →
      ∃ e, (Image.UnmarshalJSON img buf).2 = some e ∧
        "invalid season".data <+: e.Error.data) ∧
    (numOK v.Likes → (v.Season = "all" ∨ numOK v.Season) → ¬ numOK v.Disc →
      ∃ e, (Image.UnmarshalJSON img buf).2 = some e ∧
        "invalid disc".data <+: e.Error.data) ∧
    (numOK v.Likes → (v.Season = "all" ∨ numOK v.Season) → numOK v.Disc → ¬ numOK v.Size →
      ∃ e, (Image.UnmarshalJSON img buf).2 = some e ∧
        "invalid size".data <+: e.Error.data) := by
  have key : ∀ s : String, ¬ numOK s → s ≠ "" ∧ ∃ e, (Atoi s).2 = some e := by
    intro s hs
    unfold numOK at hs
    push_neg at hs
    refine ⟨hs.1, ?_⟩
    cases h2 : (Atoi s).2 with
    | none => exact absurd h2 hs.2
    | some e => exact ⟨e, rfl⟩
  refine ⟨?_, ?_, ?_, ?_⟩
  · intro hb
    obtain ⟨hne, e, he⟩ := key _ hb
    exact ⟨_, Image_UnmarshalJSON_likes_err img buf v e hst hne he,
      wrapError_starts _ _ _ ⟨": ".data, rfl⟩⟩
  · intro hl hall hb
    obtain ⟨hne, e, he⟩ := key _ hb
    exact ⟨_, Image_UnmarshalJSON_season_err img buf v e hst hl ⟨hne, hall⟩ he,
      wrapError_starts _ _ _ ⟨": ".data, rfl⟩⟩
  · intro hl hs hb
    obtain ⟨hne, e, he⟩ := key _ hb
    exact ⟨_, Image_UnmarshalJSON_disc_err img buf v e hst hl hs hne he,
      wrapError_starts _ _ _ ⟨": ".data, rfl⟩⟩
  · intro hl hs hd hb
    obtain ⟨hne, e, he⟩ := key _ hb
    exact ⟨_, Image_UnmarshalJSON_size_err img buf v e hst hl hs hd hne he,
      wrapError_starts _ _ _ ⟨": ".data, rfl⟩⟩

theorem numOK_val (s : String) (d : Int) (h : s = "" ∨ isBase10Int s) :
    (if s ≠ "" then (Atoi s).1 else d) = if s = "" then d else integerValue s := by
  by_cases h0 : s = ""
  · simp [h0]
  · rcases h with h | h
    · exact absurd h h0
    · rw [if_pos h0, if_neg h0, base10_atoi s h]

/-- The numeric fields of `Image.UnmarshalJSON` on an object that the first stage accepts:
success and exact values when every numeric text is empty, `all` for the season, or in-range
base-10 notation; a success excludes any other text; the first other text names the error. -/
theorem Image_UnmarshalJSON_integer_texts (img : Image) (members : List (String × JSON))
    (hmem : ∀ m ∈ members, findField image.names m.1 ≠ none ∧ m.2.isStringOrNull = true) :
      let r := Image.UnmarshalJSON img (.object members)
      let txt := fun name => (fieldText image.names members name).getD ""
      let bad := fun (s : String) => s ≠ "" ∧ ¬ isBase10Int s
      ((txt "likes" = "" ∨ isBase10Int (txt "likes")) →
        (txt "season" = "" ∨ txt "season" = "all" ∨ isBase10Int (txt "season")) →
        (txt "disc" = "" ∨ isBase10Int (txt "disc")) →
        (txt "size" = "" ∨ isBase10Int (txt "size")) →
        r.2 = none ∧
        r.1.Likes = (if txt "likes" = "" then img.Likes else integerValue (txt "likes")) ∧
        r.1.Season = (if txt "season" = "" ∨ txt "season" = "all" then img.Season
          else integerValue (txt "season")) ∧
        r.1.Disc = (if txt "disc" = "" then img.Disc else integerValue (txt "disc")) ∧
        r.1.Size = (if txt "size" = "" then img.Size else integerValue (txt "size"))) ∧
      (r.2 = none → ¬ bad (txt "likes") ∧ (txt "season" = "all" ∨ ¬ bad (txt "season")) ∧
        ¬ bad (txt "disc") ∧ ¬ bad (txt "size")) ∧
      (bad (txt "likes") →
        ∃ e, r.2 = some e ∧ "invalid likes".data <+: e.Error.data) ∧
      (¬ bad (txt "likes") → txt "season" ≠ "all" ∧ bad (txt "season") →
        ∃ e, r.2 = some e ∧ "invalid season".data <+: e.Error.data) ∧
      (¬ bad (txt "likes") → ¬ (txt "season" ≠ "all" ∧ bad (txt "season")) →
        bad (txt "disc") →
        ∃ e, r.2 = some e ∧ "invalid disc".data <+: e.Error.data) ∧
      (¬ bad (txt "likes") → ¬ (txt "season" ≠ "all" ∧ bad (txt "season")) →
        ¬ bad (txt "disc") → bad (txt "size") →
        ∃ e, r.2 = some e ∧ "invalid size".data <+: e.Error.data) := by
  intro r txt bad
  have hok := (image_stage1_ok_iff members).2 hmem
  cases hst : decodeStringStruct "fanartapi.image" image.names image.get image.set
      (.object members) ({} : image) with
  | mk v e =>
  rw [hst] at hok
  simp only at hok
  subst hok
  obtain ⟨-, -, -, -, -, hLikes, hSeason, hDisc, hSize⟩ :=
    image_stage1_fields members v none hst
  have hr : r = Image.UnmarshalJSON img (.object members) := rfl
  have tL : txt "likes" = v.Likes := hLikes.symm
  have tS : txt "season" = v.Season := hSeason.symm
  have tD : txt "disc" = v.Disc := hDisc.symm
  have tZ : txt "size" = v.Size := hSize.symm
  rw [tL, tS, tD, tZ]
  have hbad : ∀ s, bad s ↔ ¬ numOK s := by
    intro s
    rw [numOK_iff_base10]
    show (s ≠ "" ∧ ¬ isBase10Int s) ↔ _
    tauto
  have hnb : ∀ s, ¬ bad s → numOK s := by
    intro s h; by_contra h2; exact h ((hbad s).2 h2)
  obtain ⟨n1, n2, n3, n4⟩ := Image_UnmarshalJSON_names img _ v hst
  refine ⟨?_, ?_, ?_, ?_, ?_, ?_⟩
  · intro pl ps pd pz
    have ql : numOK v.Likes := (numOK_iff_base10 _).2 pl
    have qs : v.Season = "all" ∨ numOK v.Season := by
      rcases ps with h | h | h
      · right; left; exact h
      · left; exact h
      · right; exact (numOK_iff_base10 _).2 (Or.inr h)
    have qd : numOK v.Disc := (numOK_iff_base10 _).2 pd
    have qz : numOK v.Size := (numOK_iff_base10 _).2 pz
    rw [hr, Image_UnmarshalJSON_ok img _ v hst ql qs qd qz]
    refine ⟨rfl, numOK_val _ _ pl, ?_, numOK_val _ _ pd, numOK_val _ _ pz⟩
    show (if v.Season ≠ "" ∧ v.Season ≠ "all" then (Atoi v.Season).1 else img.Season) = _
    by_cases h0 : v.Season = ""
    · simp [h0]
    · by_cases h1 : v.Season = "all"
      · simp [h1]
      · rcases ps with h | h | h
        · exact absurd h h0
        · exact absurd h h1
        · rw [if_pos ⟨h0, h1⟩, if_neg (by tauto), base10_atoi _ h]
  · intro hsucc
    obtain ⟨v', hst', hl, hse, hd, hz⟩ := (Image_UnmarshalJSON_ok_iff _ _).1 hsucc
    have hv : v' = v := by rw [hst] at hst'; cases hst'; rfl
    subst hv
    refine ⟨fun h => (hbad _).1 h hl, ?_, fun h => (hbad _).1 h hd,
      fun h => (hbad _).1 h hz⟩
    rcases hse with h | h
    · left; exact h
    · right; exact fun hb => (hbad _).1 hb h
  · intro hb
    exact n1 ((hbad _).1 hb)
  · intro hl hb
    exact n2 (hnb _ hl) hb.1 ((hbad _).1 hb.2)
  · intro hl hs hb
    refine n3 (hnb _ hl) ?_ ((hbad _).1 hb)
    by_cases h1 : v.Season = "all"
    · left; exact h1
    · right; exact hnb _ (fun hb' => hs ⟨h1, hb'⟩)
  · intro hl hs hd hb
    refine n4 (hnb _ hl) ?_ (hnb _ hd) ((hbad _).1 hb)
    by_cases h1 : v.Season = "all"
    · left; exact h1
    · right; exact hnb _ (fun hb' => hs ⟨h1, hb'⟩)

/-- A one-member object whose key is a numeric field of `image` with an in-range base-10
text: the fresh decode succeeds and the field is the integer written. -/
theorem Image_UnmarshalJSON_single (s : String) (h : isBase10Int s) :
    Image.UnmarshalJSON ({} : Image) (.object [("likes", .string s)]) =
      ({ Likes := integerValue s }, none) ∧
    Image.UnmarshalJSON ({} : Image) (.object [("season", .string s)]) =
      ({ Season := integerValue s }, none) ∧
    Image.UnmarshalJSON ({} : Image) (.object [("disc", .string s)]) =
      ({ Disc := integerValue s }, none) ∧
    Image.UnmarshalJSON ({} : Image) (.object [("size", .string s)]) =
      ({ Size := integerValue s }, none) := by
  have hne : s ≠ "" := base10_ne_empty s h
  have hall : s ≠ "all" := by
    intro e; subst e; revert h; unfold isBase10Int; decide
  have hn : numOK s := (numOK_iff_base10 s).2 (Or.inr h)
  have hv := base10_atoi s h
  have e0 : numOK "" := Or.inl rfl
  refine ⟨?_, ?_, ?_, ?_⟩
  · have hst : decodeStringStruct "fanartapi.image" image.names image.get image.set
        (.object [("likes", .string s)]) ({} : image) = ({ Likes := s }, none) := rfl
    rw [Image_UnmarshalJSON_ok _ _ _ hst hn (Or.inr e0) e0 e0]
    simp [hne, hv]
    intro hp
    exact absurd hp (by decide)
  · have hst : decodeStringStruct "fanartapi.image" image.names image.get image.set
        (.object [("season", .string s)]) ({} : image) = ({ Season := s }, none) := rfl
    rw [Image_UnmarshalJSON_ok _ _ _ hst e0 (Or.inr hn) e0 e0]
    simp [hne, hall, hv]
    intro hp
    exact absurd hp (by decide)
  · have hst : decodeStringStruct "fanartapi.image" image.names image.get image.set
        (.object [("disc", .string s)]) ({} : image) = ({ Disc := s }, none) := rfl
    rw [Image_UnmarshalJSON_ok _ _ _ hst e0 (Or.inr e0) hn e0]
    simp [hne, hv]
    intro hp
    exact absurd hp (by decide)
  · have hst : decodeStringStruct "fanartapi.image" image.names image.get image.set
        (.object [("size", .string s)]) ({} : image) = ({ Size := s }, none) := rfl
    rw [Image_UnmarshalJSON_ok _ _ _ hst e0 (Or.inr e0) e0 hn]
    simp [hne, hv]
    intro hp
    exact absurd hp (by decide)

/-- C18. Integer parsing range and sign.  For every integer `n` with
`-2^63 <= n <= 2^63 - 1`, its decimal notation `toString n` (with a leading minus sign when
negative), and for a natural `n` also the notation with a leading plus sign, is accepted by
`strconv.Atoi` with the value `n`, and a fresh `Image` decoded from an object whose likes,
season, disc or size is that text holds exactly `n` in that field, negative values
included.  In general, for an object that the first stage of `Image.UnmarshalJSON` accepts,
the call succeeds when every numeric text is empty, `all` for the season, or in-range base-10
notation, and each field then holds the integer written.  A text in integer notation whose
value is outside the range is an `ErrRange` error of `Atoi`; like every other non-empty text
that is not in-range notation (for example with a blank or a decimal point) it makes the call
fail with the message naming the first such field, so a call that succeeds never holds a
wrapped or truncated value. -/
theorem C18_integer_range :
    (∀ n : Int, -(2 ^ 63) ≤ n → n ≤ 2 ^ 63 - 1 →
      isBase10Int (toString n) ∧ integerValue (toString n) = n ∧
      Atoi (toString n) = (n, none) ∧
      Image.UnmarshalJSON ({} : Image) (.object [("likes", .string (toString n))]) =
        ({ Likes := n }, none) ∧
      Image.UnmarshalJSON ({} : Image) (.object [("season", .string (toString n))]) =
        ({ Season := n }, none) ∧
      Image.UnmarshalJSON ({} : Image) (.object [("disc", .string (toString n))]) =
        ({ Disc := n }, none) ∧
      Image.UnmarshalJSON ({} : Image) (.object [("size", .string (toString n))]) =
        ({ Size := n }, none)) ∧
    (∀ n : Nat, (n : Int) ≤ 2 ^ 63 - 1 →
      isBase10Int ("+" ++ toString n) ∧ Atoi ("+" ++ toString n) = ((n : Int), none) ∧
      Image.UnmarshalJSON ({} : Image) (.object [("likes", .string ("+" ++ toString n))]) =
        ({ Likes := n }, none) ∧
      Image.UnmarshalJSON ({} : Image) (.object [("season", .string ("+" ++ toString n))]) =
        ({ Season := n }, none) ∧
      Image.UnmarshalJSON ({} : Image) (.object [("disc", .string ("+" ++ toString n))]) =
        ({ Disc := n }, none) ∧
      Image.UnmarshalJSON ({} : Image) (.object [("size", .string ("+" ++ toString n))]) =
        ({ Size := n }, none)) ∧
    (∀ s : String, isIntegerSyntax s = true →
      ¬ (-(2 ^ 63) ≤ integerValue s ∧ integerValue s ≤ 2 ^ 63 - 1) →
      (Atoi s).2 = some (.NumError "Atoi" s ErrRange) ∧ s ≠ "" ∧ ¬ isBase10Int s) ∧
    (∀ (img : Image) (members : List (String × JSON)),
      (∀ m ∈ members, findField image.names m.1 ≠ none ∧ m.2.isStringOrNull = true) →
      let r := Image.UnmarshalJSON img (.object members)
      let txt := fun name => (fieldText image.names members name).getD ""
      let bad := fun (s : String) => s ≠ "" ∧ ¬ isBase10Int s
      ((txt "likes" = "" ∨ isBase10Int (txt "likes")) →
        (txt "season" = "" ∨ txt "season" = "all" ∨ isBase10Int (txt "season")) →
        (txt "disc" = "" ∨ isBase10Int (txt "disc")) →
        (txt "size" = "" ∨ isBase10Int (txt "size")) →
        r.2 = none ∧
        r.1.Likes = (if txt "likes" = "" then img.Likes else integerValue (txt "likes")) ∧
        r.1.Season = (if txt "season" = "" ∨ txt "season" = "all" then img.Season
          else integerValue (txt "season")) ∧
        r.1.Disc = (if txt "disc" = "" then img.Disc else integerValue (txt "disc")) ∧
        r.1.Size = (if txt "size" = "" then img.Size else integerValue (txt "size"))) ∧
      (r.2 = none → ¬ bad (txt "likes") ∧ (txt "season" = "all" ∨ ¬ bad (txt "season")) ∧
        ¬ bad (txt "disc") ∧ ¬ bad (txt "size")) ∧
      (bad (txt "likes") →
        ∃ e, r.2 = some e ∧ "invalid likes".data <+: e.Error.data) ∧
      (¬ bad (txt "likes") → txt "season" ≠ "all" ∧ bad (txt "season") →
        ∃ e, r.2 = some e ∧ "invalid season".data <+: e.Error.data) ∧
      (¬ bad (txt "likes") → ¬ (txt "season" ≠ "all" ∧ bad (txt "season")) →
        bad (txt "disc") →
        ∃ e, r.2 = some e ∧ "invalid disc".data <+: e.Error.data) ∧
      (¬ bad (txt "likes") → ¬ (txt "season" ≠ "all" ∧ bad (txt "season")) →
        ¬ bad (txt "disc") → bad (txt "size") →
        ∃ e, r.2 = some e ∧ "invalid size".data <+: e.Error.data)) ∧
    ((Atoi " 7").2 = some (.NumError "Atoi" " 7" ErrSyntax) ∧
      (Atoi "7 ").2 = some (.NumError "Atoi" "7 " ErrSyntax) ∧
      (Atoi "7.0").2 = some (.NumError "Atoi" "7.0" ErrSyntax) ∧
      ¬ isBase10Int " 7" ∧ ¬ isBase10Int "7 " ∧ ¬ isBase10Int "7.0" ∧
      (∃ e, (Image.UnmarshalJSON ({} : Image) (.object [("likes", .string " 7")])).2 = some e ∧
        "invalid likes".data <+: e.Error.data) ∧
      (∃ e, (Image.UnmarshalJSON ({} : Image) (.object [("size", .string "7.0")])).2 = some e ∧
        "invalid size".data <+: e.Error.data) ∧
      (∃ e, (Image.UnmarshalJSON ({} : Image)
          (.object [("disc", .string "9223372036854775808")])).2 = some e ∧
        "invalid disc".data <+: e.Error.data) ∧
      (∃ e, (Image.UnmarshalJSON ({} : Image)
          (.object [("season", .string "-9223372036854775809")])).2 = some e ∧
        "invalid season".data <+: e.Error.data)) := by
  refine ⟨?_, ?_, ?_, ?_, ?_⟩
  · intro n h1 h2
    obtain ⟨a, b⟩ := toString_int_notation.1 n
    have hb : isBase10Int (toString n) := ⟨a, by rw [b]; exact ⟨h1, by omega⟩⟩
    have hs := Image_UnmarshalJSON_single _ hb
    rw [b] at hs
    refine ⟨hb, b, ?_, hs⟩
    rw [base10_atoi _ hb, b]
  · intro n h
    obtain ⟨a, b⟩ := toString_int_notation.2 n
    have hb : isBase10Int ("+" ++ toString n) :=
      ⟨a, by rw [b]; exact ⟨by omega, by omega⟩⟩
    have hs := Image_UnmarshalJSON_single _ hb
    rw [b] at hs
    refine ⟨hb, ?_, hs⟩
    rw [base10_atoi _ hb, b]
  · intro s hs hr
    have hr2 : ¬ (-(2 ^ 63) ≤ integerValue s ∧ integerValue s < 2 ^ 63) := by
      intro h; exact hr ⟨h.1, by omega⟩
    refine ⟨by rw [Atoi_integer s hs, if_neg hr2], ?_, fun hb => hr2 hb.2⟩
    intro h0
    subst h0
    revert hs
    decide
  · intro img members hmem
    exact Image_UnmarshalJSON_integer_texts img members hmem
  · refine ⟨by decide, by decide, by decide, ?_, ?_, ?_, ?_, ?_, ?_, ?_⟩
    · unfold isBase10Int; decide
    · unfold isBase10Int; decide
    · unfold isBase10Int; decide
    · exact ⟨_, rfl, by decide⟩
    · exact ⟨_, rfl, by decide⟩
    · exact ⟨_, rfl, by decide⟩
    · exact ⟨_, rfl, by decide⟩

/-- C18 at the least 64-bit integer for likes, `+7` for size, and at the first integer
above the range. -/
theorem C18_integer_range_witness :
    Atoi (toString (-9223372036854775808 : Int)) = (-9223372036854775808, none) ∧
    (Image.UnmarshalJSON ({} : Image) (.object [("likes", .string "-9223372036854775808"),
      ("size", .string "+7")])).2 = none ∧
    (Image.UnmarshalJSON ({} : Image) (.object [("likes", .string "-9223372036854775808"),
      ("size", .string "+7")])).1.Likes = -9223372036854775808 ∧
    (Image.UnmarshalJSON ({} : Image) (.object [("likes", .string "-9223372036854775808"),
      ("size", .string "+7")])).1.Size = 7 ∧
    (Atoi "9223372036854775808").2 =
      some (.NumError "Atoi" "9223372036854775808" ErrRange) := by
  have b1 : isBase10Int "-9223372036854775808" := by unfold isBase10Int; decide
  have b2 : isBase10Int "+7" := by unfold isBase10Int; decide
  have h := (C18_integer_range.2.2.2.1 ({} : Image)
    [("likes", .string "-9223372036854775808"), ("size", .string "+7")] (by decide)).1
    (Or.inr b1) (Or.inl (by decide)) (Or.inl (by decide)) (Or.inr b2)
  refine ⟨(C18_integer_range.1 (-9223372036854775808) (by norm_num) (by norm_num)).2.2.1,
    h.1, ?_, ?_, (C18_integer_range.2.2.1 "9223372036854775808" (by decide) (by decide)).1⟩
  · rw [h.2.1]; decide
  · rw [h.2.2.2.2]; decide

end Fanartapi
